import Mathlib

/-!
# OralVis: annotation authoring history and report-generation routes

A shallow embedding of

* `frontend/src/components/admin/AdminAnnotation.jsx`: the React state of the
  annotation component and its event handlers (`handleMouseDown`,
  `handleMouseMove`, `handleMouseUp`, `handleUndo`, `handleRedo`);
* `backend/routes/admin.js`: the `annotate` and `generate-report` route
  handlers, together with the storage step of `generatePDF`
  (`backend/utils/pdfGenerator.js`).

React state is an explicit record; every handler is a function from the state
of the render it closes over to the state after its queued updates are applied.
JavaScript numbers are kept abstract (a type `R` with the operations the code
uses). A value that may be `undefined` is an `Option`.
-/

namespace OralVis

/-! ## JavaScript helpers -/

/-- The functions of the JavaScript `Math` object that the component calls. -/
class JSMath (R : Type) where
  /-- The function `Math.sqrt`. -/
  sqrt : R → R
  /-- The function `Math.pow` at a literal natural exponent. -/
  pow : R → Nat → R

/-- Indexing `xs[i]` of a JavaScript array: `undefined` outside `0 .. length - 1`. -/
def jsIndex {α : Type} (xs : List α) (i : Int) : Option α :=
  if i < 0 then none else xs[i.toNat]?

/-- The call `xs.slice(0, stop)` of a JavaScript array: a negative `stop` counts
from the end of the array, and the bounds are clamped to the array. -/
def jsSlice0 {α : Type} (xs : List α) (stop : Int) : List α :=
  if stop < 0 then xs.take ((xs.length : Int) + stop).toNat else xs.take stop.toNat

/-! ## Data model of the authoring component -/

/-- A point `{ x, y }`. -/
structure Pos (R : Type) where
  x : R
  y : R
  deriving DecidableEq

/-- One annotation object. Only `type` is always present; every other property
is present or absent depending on the shape (and on what the server stored). -/
structure Shape (R : Type) where
  type : String
  color : Option String := none
  strokeWidth : Option R := none
  fillColor : Option String := none
  x : Option R := none
  y : Option R := none
  width : Option R := none
  height : Option R := none
  radius : Option R := none
  startX : Option R := none
  startY : Option R := none
  endX : Option R := none
  endY : Option R := none
  points : Option (List (Pos R)) := none
  text : Option String := none
  fontSize : Option R := none

/-- The `annotationData` object exchanged with the server. -/
structure AnnotationData (R : Type) where
  annotations : Option (List (Shape R))
  timestamp : Option String

/-- The result of `canvas.getBoundingClientRect()`. -/
structure DOMRect (R : Type) where
  left : R
  top : R
  width : R
  height : R

/-- A mouse event on the canvas, together with what `getMousePos` reads from the
canvas element when the event is handled. -/
structure MouseEvent (R : Type) where
  clientX : R
  clientY : R
  canvasWidth : R
  canvasHeight : R
  rect : DOMRect R

/-- The `useState` cells of `AdminAnnotation` that the drawing handlers read or
write (lines 16-25). -/
structure State (R : Type) where
  currentTool : String
  currentColor : String
  strokeWidth : R
  annotations : Option (List (Shape R))
  isDrawing : Bool
  startPos : Pos R
  currentAnnotation : Option (Shape R)
  freehandPoints : List (Pos R)
  history : List (List (Shape R))
  historyIndex : Int

/-- The initial values passed to `useState` (lines 16-25). -/
def initialState {R : Type} [OfNat R 0] [OfNat R 2] : State R :=
  { currentTool := "rectangle"
    currentColor := "#ff0000"
    strokeWidth := 2
    annotations := some []
    isDrawing := false
    startPos := { x := 0, y := 0 }
    currentAnnotation := none
    freehandPoints := []
    history := []
    historyIndex := -1 }

/-- The effect of a successful `fetchSubmission` on the drawing state (lines 47-49):
when the submission carries annotation data, the working set becomes its
annotation list, or the empty list when that list is missing. -/
def fetchSubmission {R : Type} (s : State R) (annotationData : Option (AnnotationData R)) :
    State R :=
  match annotationData with
  | some d => { s with annotations := some (d.annotations.getD []) }
  | none => s

/-- The state in which an authoring session starts: the initial React state after
the submission has been fetched. -/
def sessionStart {R : Type} [OfNat R 0] [OfNat R 2]
    (annotationData : Option (AnnotationData R)) : State R :=
  fetchSubmission initialState annotationData

/-! ## Event handlers -/

section Handlers

variable {R : Type} [Add R] [Sub R] [Mul R] [Div R] [JSMath R]

/-- The function `getMousePos` (lines 152-162). -/
def getMousePos (e : MouseEvent R) : Pos R :=
  let scaleX := e.canvasWidth / e.rect.width
  let scaleY := e.canvasHeight / e.rect.height
  { x := (e.clientX - e.rect.left) * scaleX
    y := (e.clientY - e.rect.top) * scaleY }

/-- The handler `handleMouseDown` (lines 164-172). -/
def handleMouseDown (s : State R) (e : MouseEvent R) : State R :=
  let pos := getMousePos e
  let s1 := { s with isDrawing := true, startPos := pos }
  if s.currentTool = "freehand" then { s1 with freehandPoints := [pos] } else s1

/-- The state updates of `handleMouseMove` (lines 174-225). The handler returns
at once when no gesture is in progress; otherwise the only state it writes is
the freehand point buffer (line 211), from the image load callback, which is
taken to run before the next event. Everything else it does is drawing. -/
def handleMouseMove (s : State R) (e : MouseEvent R) : State R :=
  if !s.isDrawing then s
  else
    let pos := getMousePos e
    if s.currentTool = "freehand" then { s with freehandPoints := s.freehandPoints ++ [pos] }
    else s

/-- The object built in `handleMouseUp` (lines 233-277) from the current tool,
colour and stroke width, the start position and the release position. -/
def newAnnotation (s : State R) (pos : Pos R) : Shape R :=
  let base : Shape R :=
    { type := s.currentTool, color := some s.currentColor, strokeWidth := some s.strokeWidth }
  if s.currentTool = "rectangle" then
    { base with
      x := some s.startPos.x
      y := some s.startPos.y
      width := some (pos.x - s.startPos.x)
      height := some (pos.y - s.startPos.y) }
  else if s.currentTool = "circle" then
    let radius :=
      JSMath.sqrt (JSMath.pow (pos.x - s.startPos.x) 2 + JSMath.pow (pos.y - s.startPos.y) 2)
    { base with x := some s.startPos.x, y := some s.startPos.y, radius := some radius }
  else if s.currentTool = "arrow" then
    { base with
      startX := some s.startPos.x
      startY := some s.startPos.y
      endX := some pos.x
      endY := some pos.y }
  else if s.currentTool = "freehand" then
    { base with points := some (s.freehandPoints ++ [pos]) }
  else base

/-- The history update at the end of `handleMouseUp` (lines 282-286, "Add to
history"): the new history and the new history index. -/
def addToHistory (history : List (List (Shape R))) (historyIndex : Int)
    (newAnnotations : List (Shape R)) : List (List (Shape R)) × Int :=
  let newHistory := jsSlice0 history (historyIndex + 1) ++ [newAnnotations]
  (newHistory, (newHistory.length : Int) - 1)

/-- The handler `handleMouseUp` (lines 227-287). When `annotations` is
`undefined` the spread on line 279 throws, and only the updates queued before
it (`setIsDrawing`, `setFreehandPoints`) take effect. -/
def handleMouseUp (s : State R) (e : MouseEvent R) : State R :=
  if !s.isDrawing then s
  else
    let pos := getMousePos e
    let s1 := { s with isDrawing := false }
    let s2 := if s.currentTool = "freehand" then { s1 with freehandPoints := [] } else s1
    match s.annotations with
    | none => s2
    | some annotations =>
      let newAnnotations := annotations ++ [ newAnnotation s pos]
      let h := addToHistory s.history s.historyIndex newAnnotations
      { s2 with annotations := some newAnnotations, history := h.1, historyIndex := h.2 }

/-- The handler `handleUndo` (lines 289-295); `setupCanvas` only redraws. -/
def handleUndo (s : State R) : State R :=
  if s.historyIndex > 0 then
    { s with
      historyIndex := s.historyIndex - 1
      annotations := jsIndex s.history (s.historyIndex - 1) }
  else s

/-- The handler `handleRedo` (lines 297-303); `setupCanvas` only redraws. -/
def handleRedo (s : State R) : State R :=
  if s.historyIndex < (s.history.length : Int) - 1 then
    { s with
      historyIndex := s.historyIndex + 1
      annotations := jsIndex s.history (s.historyIndex + 1) }
  else s

/-- The events of an authoring session: the three canvas mouse events, the undo
and redo buttons, and the tool, colour and stroke-width controls (lines 372,
395, 415). -/
inductive Event (R : Type) where
  | mouseDown (e : MouseEvent R)
  | mouseMove (e : MouseEvent R)
  | mouseUp (e : MouseEvent R)
  | undo
  | redo
  | setCurrentTool (id : String)
  | setCurrentColor (color : String)
  | setStrokeWidth (w : R)

/-- One event handled in a state. -/
def step (s : State R) : Event R → State R
  | .mouseDown e => handleMouseDown s e
  | .mouseMove e => handleMouseMove s e
  | .mouseUp e => handleMouseUp s e
  | .undo => handleUndo s
  | .redo => handleRedo s
  | .setCurrentTool id => { s with currentTool := id }
  | .setCurrentColor color => { s with currentColor := color }
  | .setStrokeWidth w => { s with strokeWidth := w }

/-- A sequence of events handled in order. -/
def run (s : State R) (tr : List (Event R)) : State R :=
  tr.foldl step s

/-- A completed gesture: optional changes of tool, colour and stroke width, then
pointer-down, any number of pointer-moves, and pointer-up. -/
structure Gesture (R : Type) where
  tool : Option String
  color : Option String
  width : Option R
  down : MouseEvent R
  moves : List (MouseEvent R)
  up : MouseEvent R

/-- The events of a gesture, in order. -/
def Gesture.events (g : Gesture R) : List (Event R) :=
  (g.tool.map Event.setCurrentTool).toList ++ (g.color.map Event.setCurrentColor).toList ++
    (g.width.map Event.setStrokeWidth).toList ++
    [Event.mouseDown g.down] ++ g.moves.map Event.mouseMove ++ [Event.mouseUp g.up]

/-- A completed gesture handled in a state. -/
def runGesture (s : State R) (g : Gesture R) : State R :=
  run s g.events

/-- A set was committed during a trace that starts in `s0`: some pointer-up of
the trace, handled while a gesture begun by an earlier pointer-down was in
progress, ended the gesture with this working set. -/
def CommittedIn (s0 : State R) (tr : List (Event R)) (set : List (Shape R)) : Prop :=
  ∃ pre e post, tr = pre ++ Event.mouseUp e :: post ∧ (∃ e0, Event.mouseDown e0 ∈ pre) ∧
    (run s0 pre).isDrawing = true ∧ (handleMouseUp (run s0 pre) e).annotations = some set

end Handlers

/-! ## Backend: submissions, report storage and the admin routes -/

/-- The values of the `status` enum of the submission schema
(`models/Submission.js`, lines 53-57). -/
inductive Status where
  | uploaded
  | annotated
  | reported
  deriving DecidableEq, Repr

/-- A stored submission document: the paths declared by the schema of
`models/Submission.js` (lines 3-68) and the two paths `createdAt` and `updatedAt`
that the schema option `timestamps: true` (lines 69-71) adds. The annotation
payload has the schema type `Mixed`, here a type parameter `J`. -/
structure Submission (J : Type) where
  _id : String
  patientId : String
  patientName : String
  patientIdNumber : String
  email : String
  note : Option String
  originalImageUrl : String
  originalImagePath : String
  annotatedImageUrl : Option String
  annotatedImagePath : Option String
  annotationData : Option J
  reportUrl : Option String
  reportPath : Option String
  status : Status
  adminNotes : Option String
  reviewedBy : Option String
  reviewedAt : Option Nat
  createdAt : Nat
  updatedAt : Nat
  deriving DecidableEq

/-- Raw bytes of a buffer. -/
abbrev Bytes := List Nat

/-- The object `uploadBufferToS3` resolves with, as far as its callers read it. -/
structure S3Upload where
  url : String
  key : String

/-- The object `generatePDF` resolves with. -/
structure PdfInfo where
  path : String
  url : String
  key : Option String

/-- The object `saveAnnotatedImage` resolves with. -/
structure AnnotatedImageInfo where
  path : String
  url : String
  annotationKey : Option String
  annotationPath : Option String

/-- The external collaborators of the admin routes: clock, configuration, file
system, object storage, the document writer and the submission store. Each
operation that can fail returns its error instead of throwing. -/
structure Env (J : Type) where
  /-- The clock, `Date.now()`. -/
  now : Nat
  /-- The clock when `save()` runs its timestamp hook. -/
  savedAt : Nat
  /-- The directories exported by `config/multer.js`. -/
  imagesDir : String
  pdfsDir : String
  /-- The configuration test `isS3Configured()`. -/
  isS3Configured : Bool
  /-- The environment variables `S3_BUCKET_NAME` and `AWS_REGION`. -/
  bucketName : String
  region : String
  /-- The layout part of `generatePDF` (lines 170-388): the bytes of the finished
  document, or the error thrown while laying it out. -/
  layout : Submission J → Except String Bytes
  /-- The call `uploadBufferToS3(buffer, key, contentType)`. -/
  uploadBufferToS3 : Bytes → String → String → Except String S3Upload
  /-- The call `fs.writeFileSync(path, data)`. -/
  writeFileSync : String → Bytes → Except String Unit
  /-- The bytes of `JSON.stringify(value)` for a defined value. -/
  stringify : J → Bytes
  /-- The function `path.basename`. -/
  basename : String → String
  /-- The error with which `Submission.findById(id)` rejects, if it does. -/
  findError : String → Option String
  /-- The error with which `submission.save()` rejects, if it does. -/
  saveError : Submission J → Option String

/-- The submission store: the stored documents. -/
abbrev Db (J : Type) := List (Submission J)

/-- The lookup `Submission.findById(id)` when the store answers. -/
def findById {J : Type} (db : Db J) (id : String) : Option (Submission J) :=
  db.find? (fun d => d._id == id)

/-- The store after `doc.save()` succeeds: the stored document with the same
`_id` is replaced by `doc`. -/
def replaceDoc {J : Type} (db : Db J) (doc : Submission J) : Db J :=
  db.map (fun d => if d._id == doc._id then doc else d)

/-- White space in the sense of `String.prototype.trim`: the white space and line
terminator code points of ECMAScript. -/
def jsIsWhiteSpace (c : Char) : Bool :=
  [0x0009, 0x000A, 0x000B, 0x000C, 0x000D, 0x0020, 0x00A0, 0x1680, 0x2000, 0x2001, 0x2002,
    0x2003, 0x2004, 0x2005, 0x2006, 0x2007, 0x2008, 0x2009, 0x200A, 0x2028, 0x2029, 0x202F,
    0x205F, 0x3000, 0xFEFF].contains c.toNat

/-- The method `String.prototype.trim`: the string without its leading and
trailing white space. -/
def jsTrim (s : String) : String :=
  String.mk ((s.toList.dropWhile jsIsWhiteSpace).reverse.dropWhile jsIsWhiteSpace).reverse

/-- The pre-save hook that `timestamps: true` installs (`models/Submission.js`,
lines 69-71): a stored document with modified paths gets the current time as
`updatedAt`; an unmodified one is left as it is. -/
def preSave {J : Type} (env : Env J) (modified : Bool) (doc : Submission J) : Submission J :=
  if modified then { doc with updatedAt := env.savedAt } else doc

/-- The call `submission.save()` on a loaded document, `modified` telling whether
an assignment changed one of its paths: the hook of `timestamps: true` runs, then
the document is written; the result is the new store, or the error the call
rejects with. -/
def save {J : Type} (env : Env J) (db : Db J) (modified : Bool) (doc : Submission J) :
    Except String (Db J) :=
  match env.saveError (preSave env modified doc) with
  | some err => .error err
  | none => .ok (replaceDoc db (preSave env modified doc))

/-- The function `path.join(dir, name)` for a directory and a file name. -/
def pathJoin (dir name : String) : String :=
  dir ++ "/" ++ name

/-- The function `generatePDF` (`utils/pdfGenerator.js`, lines 129-394): lay the
document out, then store its bytes (lines 143-168) in the object store when it
is configured and on the local disk otherwise. It rejects when the layout
throws, when the upload rejects or when the write throws. -/
def generatePDF {J : Type} (env : Env J) (submission : Submission J) : Except String PdfInfo :=
  let filename :=
    "oral-health-report-" ++ submission.patientIdNumber ++ "-" ++ toString env.now ++ ".pdf"
  match env.layout submission with
  | .error err => .error err
  | .ok pdfBuffer =>
    if env.isS3Configured then
      let s3Key := "reports/" ++ filename
      match env.uploadBufferToS3 pdfBuffer s3Key "application/pdf" with
      | .error err => .error err
      | .ok result => .ok { path := result.url, url := result.url, key := some result.key }
    else
      let pdfPath := pathJoin env.pdfsDir filename
      match env.writeFileSync pdfPath pdfBuffer with
      | .error err => .error err
      | .ok _ => .ok { path := pdfPath, url := "/uploads/pdfs/" ++ filename, key := none }

/-- The function `saveAnnotatedImage` (`utils/imageProcessor.js`, lines 7-41): it
stores the annotation data as a JSON object and returns the locators of the
original image. Serialising `undefined` gives no bytes to store, so the call
throws. -/
def saveAnnotatedImage {J : Type} (env : Env J) (originalImagePath : String)
    (annotationData : Option J) (submissionId : String) : Except String AnnotatedImageInfo :=
  let timestamp := toString env.now
  match annotationData with
  | none => .error "TypeError"
  | some data =>
    if env.isS3Configured then
      let annotationKey :=
        "annotations/annotation-" ++ submissionId ++ "-" ++ timestamp ++ ".json"
      match env.uploadBufferToS3 (env.stringify data) annotationKey "application/json" with
      | .error err => .error err
      | .ok _ =>
        .ok { path := originalImagePath
              url :=
                if originalImagePath.startsWith "http" then originalImagePath
                else
                  "https://" ++ env.bucketName ++ ".s3." ++ env.region ++ ".amazonaws.com/" ++
                    originalImagePath
              annotationKey := some annotationKey
              annotationPath := none }
    else
      let annotationPath :=
        pathJoin env.imagesDir ("annotation-" ++ submissionId ++ "-" ++ timestamp ++ ".json")
      match env.writeFileSync annotationPath (env.stringify data) with
      | .error err => .error err
      | .ok _ =>
        .ok { path := originalImagePath
              url :=
                if originalImagePath.startsWith "/uploads" then originalImagePath
                else "/uploads/images/" ++ env.basename originalImagePath
              annotationKey := none
              annotationPath := some annotationPath }

/-- The `submission` object of a route response. -/
structure Summary where
  id : String
  status : Status
  reportUrl : Option String := none
  annotatedImageUrl : Option String := none
  reviewedAt : Option Nat := none

/-- An HTTP response: status code, `message`, and the `submission` summary of a
successful response. -/
structure Response where
  status : Nat
  message : String
  submission : Option Summary := none

/-- Calls a route makes to the PDF generator, the annotation store and the
submission store; `save` is recorded with the document as it is written. -/
inductive Call (J : Type) where
  | generatePDF (submission : Submission J)
  | saveAnnotatedImage (originalImagePath : String) (annotationData : Option J)
      (submissionId : String)
  | save (doc : Submission J)

/-- What a route handler leaves behind: the response, the store, and the calls
it made, in order. -/
structure Outcome (J : Type) where
  response : Response
  db : Db J
  calls : List (Call J)

/-- The handler of `POST /submissions/:id/generate-report` (`routes/admin.js`,
lines 150-184), after the `auth` and `adminAuth` middleware. The document is
modified when `save` runs: its status was `annotated` and is now `reported`. -/
def generateReport {J : Type} (env : Env J) (db : Db J) (id : String) : Outcome J :=
  match env.findError id with
  | some _ =>
    { response := { status := 500, message := "Server error generating report" }
      db := db, calls := [] }
  | none =>
    match findById db id with
    | none =>
      { response := { status := 404, message := "Submission not found" }
        db := db, calls := [] }
    | some submission =>
      if submission.status ≠ Status.annotated then
        { response :=
            { status := 400, message := "Submission must be annotated before generating report" }
          db := db, calls := [] }
      else
        match generatePDF env submission with
        | .error _ =>
          { response := { status := 500, message := "Server error generating report" }
            db := db, calls := [Call.generatePDF submission] }
        | .ok pdfInfo =>
          let doc :=
            { submission with
              reportPath := some pdfInfo.path
              reportUrl := some pdfInfo.url
              status := Status.reported }
          match save env db true doc with
          | .error _ =>
            { response := { status := 500, message := "Server error generating report" }
              db := db, calls := [Call.generatePDF submission, Call.save (preSave env true doc)] }
          | .ok db2 =>
            { response :=
                { status := 200, message := "Report generated successfully"
                  submission :=
                    some { id := doc._id, status := doc.status, reportUrl := doc.reportUrl } }
              db := db2, calls := [Call.generatePDF submission, Call.save (preSave env true doc)] }

/-- The body of an annotate request. -/
structure AnnotateBody (J : Type) where
  annotationData : Option J
  adminNotes : Option String

/-- The handler of `POST /submissions/:id/annotate` (`routes/admin.js`, lines
99-145), after the `auth` and `adminAuth` middleware; `userId` is
`req.user._id`. The schema declares `adminNotes` with `trim: true`
(`models/Submission.js`, lines 58-61), so the assignment on line 110 stores the
trimmed string. The document is modified when an assignment changed a path. -/
def annotate {J : Type} [DecidableEq J] (env : Env J) (db : Db J) (id : String)
    (body : AnnotateBody J) (userId : String) : Outcome J :=
  match env.findError id with
  | some _ =>
    { response := { status := 500, message := "Server error saving annotation" }
      db := db, calls := [] }
  | none =>
    match findById db id with
    | none =>
      { response := { status := 404, message := "Submission not found" }
        db := db, calls := [] }
    | some submission =>
      let doc1 :=
        { submission with
          annotationData := body.annotationData
          adminNotes := body.adminNotes.map jsTrim
          status := Status.annotated
          reviewedBy := some userId
          reviewedAt := some env.now }
      let imageCall :=
        Call.saveAnnotatedImage doc1.originalImagePath body.annotationData doc1._id
      let doc :=
        match saveAnnotatedImage env doc1.originalImagePath body.annotationData doc1._id with
        | .ok info =>
          { doc1 with annotatedImagePath := some info.path, annotatedImageUrl := some info.url }
        | .error _ => doc1
      let modified := decide (doc ≠ submission)
      match save env db modified doc with
      | .error _ =>
        { response := { status := 500, message := "Server error saving annotation" }
          db := db, calls := [imageCall, Call.save (preSave env modified doc)] }
      | .ok db2 =>
        { response :=
            { status := 200, message := "Annotation saved successfully"
              submission :=
                some { id := doc._id, status := doc.status
                       annotatedImageUrl := doc.annotatedImageUrl, reviewedAt := doc.reviewedAt } }
          db := db2, calls := [imageCall, Call.save (preSave env modified doc)] }

/-! ## Canvas drawing: the live preview and the offline renderer -/

/-- The trigonometric part of the JavaScript `Math` object that the arrow code
calls. -/
class JSTrig (R : Type) where
  /-- The function `Math.atan2(y, x)`. -/
  atan2 : R → R → R
  /-- The function `Math.cos`. -/
  cos : R → R
  /-- The function `Math.sin`. -/
  sin : R → R
  /-- The constant `Math.PI`. -/
  pi : R

/-- A call on the 2D drawing context, or an assignment to one of its style
properties. A numeric argument is `none` when the JavaScript value is `undefined`
or `NaN`. -/
inductive Cmd (R : Type) where
  | strokeStyle (color : String)
  | lineWidth (w : R)
  | fillStyle (color : String)
  | globalAlpha (a : R)
  | font (px : R) (family : String)
  | strokeRect (x y w h : Option R)
  | fillRect (x y w h : Option R)
  | beginPath
  | arc (x y radius startAngle endAngle : Option R)
  | moveTo (x y : Option R)
  | lineTo (x y : Option R)
  | stroke
  | fill
  | fillText (text : Option String) (x y : Option R)

/-- The expression `a || b` for a string property `a`: `b` replaces an absent or
empty string. -/
def orString (a : Option String) (b : String) : String :=
  match a with
  | some v => if v = "" then b else v
  | none => b

/-- The expression `a || b` for a numeric property `a`: `b` replaces an absent
number, `NaN` and zero. -/
def orNumber {R : Type} [NatCast R] [DecidableEq R] (a : Option R) (b : R) : R :=
  match a with
  | some v => if v = ((0 : Nat) : R) then b else v
  | none => b

/-- A binary arithmetic operation on JavaScript values: the result is `NaN` as
soon as an operand is `undefined` or `NaN`. -/
def num2 {R : Type} (f : R → R → R) (a b : Option R) : Option R :=
  a.bind fun x => b.map (f x)

/-- The test `annotation.fillColor && annotation.fillColor !== 'transparent'`. -/
def hasFill {R : Type} (a : Shape R) : Bool :=
  match a.fillColor with
  | some c => c != "" && c != "transparent"
  | none => false

section Drawing

variable {R : Type} [Add R] [Sub R] [Mul R] [Div R] [NatCast R] [OfScientific R]
  [DecidableEq R] [JSMath R] [JSTrig R]

/-- The function `drawArrow` of the component (`AdminAnnotation.jsx`, lines
129-150): the shaft, then the two head segments from the end point. -/
def drawArrow (startX startY endX endY : Option R) : List (Cmd R) :=
  let headLength : R := ((10 : Nat) : R)
  let angle := num2 JSTrig.atan2 (num2 (· - ·) endY startY) (num2 (· - ·) endX startX)
  [ Cmd.beginPath,
    Cmd.moveTo startX startY,
    Cmd.lineTo endX endY,
    Cmd.stroke,
    Cmd.beginPath,
    Cmd.moveTo endX endY,
    Cmd.lineTo
      (num2 (· - ·) endX
        (angle.map fun a => headLength * JSTrig.cos (a - JSTrig.pi / ((6 : Nat) : R))))
      (num2 (· - ·) endY
        (angle.map fun a => headLength * JSTrig.sin (a - JSTrig.pi / ((6 : Nat) : R)))),
    Cmd.moveTo endX endY,
    Cmd.lineTo
      (num2 (· - ·) endX
        (angle.map fun a => headLength * JSTrig.cos (a + JSTrig.pi / ((6 : Nat) : R))))
      (num2 (· - ·) endY
        (angle.map fun a => headLength * JSTrig.sin (a + JSTrig.pi / ((6 : Nat) : R)))),
    Cmd.stroke ]

/-- The body of the `forEach` of `drawAnnotations` (`AdminAnnotation.jsx`, lines
80-125): the calls made for one annotation, given the current colour and stroke
width of the session. -/
def drawAnnotationCmds (currentColor : String) (strokeWidth : R) (a : Shape R) :
    List (Cmd R) :=
  [ Cmd.strokeStyle (orString a.color currentColor),
    Cmd.lineWidth (orNumber a.strokeWidth strokeWidth),
    Cmd.fillStyle (orString a.fillColor "transparent") ] ++
  (if a.type = "rectangle" then
    [Cmd.strokeRect a.x a.y a.width a.height] ++
      (if hasFill a then
        [Cmd.globalAlpha 0.3, Cmd.fillRect a.x a.y a.width a.height, Cmd.globalAlpha 1.0]
      else [])
  else if a.type = "circle" then
    [ Cmd.beginPath,
      Cmd.arc a.x a.y a.radius (some ((0 : Nat) : R)) (some (((2 : Nat) : R) * JSTrig.pi)),
      Cmd.stroke ] ++
      (if hasFill a then [Cmd.globalAlpha 0.3, Cmd.fill, Cmd.globalAlpha 1.0] else [])
  else if a.type = "arrow" then
    drawArrow a.startX a.startY a.endX a.endY
  else if a.type = "freehand" then
    match a.points with
    | none => []
    | some points =>
      if points.length > 1 then
        [Cmd.beginPath, Cmd.moveTo (points[0]?.map Pos.x) (points[0]?.map Pos.y)] ++
          (points.drop 1).map (fun p => Cmd.lineTo (some p.x) (some p.y)) ++ [Cmd.stroke]
      else []
  else if a.type = "text" then
    [ Cmd.font (orNumber a.fontSize ((16 : Nat) : R)) "Arial",
      Cmd.fillStyle (orString a.color currentColor),
      Cmd.fillText a.text a.x a.y ]
  else [])

/-- The function `drawAnnotations` (`AdminAnnotation.jsx`, lines 78-127): the
calls made on the context for the working set of the state, in order. With an
`undefined` working set the `forEach` throws before any call is made. -/
def drawAnnotations (s : State R) : List (Cmd R) :=
  match s.annotations with
  | none => []
  | some annotations => annotations.flatMap (drawAnnotationCmds s.currentColor s.strokeWidth)

/-- The body of the `forEach` of `renderAnnotationsOnImage`
(`utils/pdfGenerator.js`, lines 57-117): the calls made for one annotation. -/
def renderAnnotationCmds (a : Shape R) : List (Cmd R) :=
  [ Cmd.strokeStyle (orString a.color "#ff0000"),
    Cmd.lineWidth (orNumber a.strokeWidth ((2 : Nat) : R)),
    Cmd.fillStyle "transparent" ] ++
  (if a.type = "rectangle" then
    [Cmd.strokeRect a.x a.y a.width a.height]
  else if a.type = "circle" then
    let radius :=
      num2 (· / ·)
        ((num2 (· + ·) (a.width.map fun w => JSMath.pow w 2)
          (a.height.map fun h => JSMath.pow h 2)).map JSMath.sqrt)
        (some ((2 : Nat) : R))
    [ Cmd.beginPath,
      Cmd.arc
        (num2 (· + ·) a.x (num2 (· / ·) a.width (some ((2 : Nat) : R))))
        (num2 (· + ·) a.y (num2 (· / ·) a.height (some ((2 : Nat) : R))))
        radius (some ((0 : Nat) : R)) (some (((2 : Nat) : R) * JSTrig.pi)),
      Cmd.stroke ]
  else if a.type = "arrow" then
    let angle :=
      num2 JSTrig.atan2 (num2 (· - ·) a.endY a.startY) (num2 (· - ·) a.endX a.startX)
    let arrowLength : R := ((10 : Nat) : R)
    [ Cmd.beginPath,
      Cmd.moveTo a.startX a.startY,
      Cmd.lineTo a.endX a.endY,
      Cmd.stroke,
      Cmd.beginPath,
      Cmd.moveTo a.endX a.endY,
      Cmd.lineTo
        (num2 (· - ·) a.endX
          (angle.map fun t => arrowLength * JSTrig.cos (t - JSTrig.pi / ((6 : Nat) : R))))
        (num2 (· - ·) a.endY
          (angle.map fun t => arrowLength * JSTrig.sin (t - JSTrig.pi / ((6 : Nat) : R)))),
      Cmd.moveTo a.endX a.endY,
      Cmd.lineTo
        (num2 (· - ·) a.endX
          (angle.map fun t => arrowLength * JSTrig.cos (t + JSTrig.pi / ((6 : Nat) : R))))
        (num2 (· - ·) a.endY
          (angle.map fun t => arrowLength * JSTrig.sin (t + JSTrig.pi / ((6 : Nat) : R)))),
      Cmd.stroke ]
  else if a.type = "freehand" then
    match a.points with
    | none => []
    | some points =>
      if points.length > 1 then
        [Cmd.beginPath, Cmd.moveTo (points[0]?.map Pos.x) (points[0]?.map Pos.y)] ++
          (points.drop 1).map (fun p => Cmd.lineTo (some p.x) (some p.y)) ++ [Cmd.stroke]
      else []
  else [])

/-- A decoded image. -/
structure Image where
  width : Nat
  height : Nat

/-- The canvas library as `renderAnnotationsOnImage` uses it: decoding, the
error a drawing call throws (if it throws), and the JPEG encoding of a canvas
that holds the image and the calls drawn over it. -/
structure CanvasEnv (R : Type) where
  /-- The call `loadImage(buffer)`. -/
  loadImage : Bytes → Except String Image
  /-- The error thrown by a call on the context, if it throws. -/
  callError : Cmd R → Option String
  /-- The call `canvas.toBuffer('image/jpeg', ...)`. -/
  toBuffer : Image → List (Cmd R) → Except String Bytes

/-- The `try` block of `renderAnnotationsOnImage` (`utils/pdfGenerator.js`, lines
43-121). -/
def renderAnnotationsTry (env : CanvasEnv R) (imageBuffer : Bytes)
    (annotationData : Option (AnnotationData R)) : Except String Bytes :=
  match annotationData with
  | none => .ok imageBuffer
  | some data =>
    match data.annotations with
    | none => .ok imageBuffer
    | some annotations =>
      if annotations.length = 0 then .ok imageBuffer
      else
        match env.loadImage imageBuffer with
        | .error err => .error err
        | .ok image =>
          let cmds := annotations.flatMap renderAnnotationCmds
          match cmds.findSome? env.callError with
          | some err => .error err
          | none => env.toBuffer image cmds

/-- The function `renderAnnotationsOnImage` (`utils/pdfGenerator.js`, lines
41-126): the `try` block, and the `catch` that returns the original buffer. -/
def renderAnnotationsOnImage (env : CanvasEnv R) (imageBuffer : Bytes)
    (annotationData : Option (AnnotationData R)) : Except String Bytes :=
  match renderAnnotationsTry env imageBuffer annotationData with
  | .ok buffer => .ok buffer
  | .error _ => .ok imageBuffer

end Drawing

/-! ## What the canvas draws -/

/-- A straight segment between two points. -/
structure Segment (R : Type) where
  a : Pos R
  b : Pos R
  deriving DecidableEq

/-- The state of the path interpreter: the segments of the current path, the
current point, and the segments stroked so far. -/
structure PathState (R : Type) where
  path : List (Segment R)
  current : Option (Pos R)
  stroked : List (Segment R)

/-- One call of the canvas as far as straight path segments go: `beginPath` empties
the path, `moveTo` starts a subpath, `lineTo` adds the segment from the current
point (or starts a subpath when there is none), `stroke` strokes the path. A
`moveTo` or `lineTo` with an `undefined` or `NaN` coordinate is ignored. Only
straight segments are followed: the curve an `arc` call adds to the path and the
outline `strokeRect` strokes are not part of this interpreter (see `strokedRects`
for rectangles), so every other call leaves its state as it is. -/
def pathStep {R : Type} (st : PathState R) : Cmd R → PathState R
  | .beginPath => { st with path := [], current := none }
  | .moveTo (some x) (some y) => { st with current := some { x := x, y := y } }
  | .lineTo (some x) (some y) =>
    match st.current with
    | none => { st with current := some { x := x, y := y } }
    | some c =>
      { st with
        path := st.path ++ [{ a := c, b := { x := x, y := y } }]
        current := some { x := x, y := y } }
  | .stroke => { st with stroked := st.stroked ++ st.path }
  | _ => st

/-- The straight segments of `moveTo`/`lineTo` paths stroked by a sequence of
calls, in order. -/
def strokedSegments {R : Type} (cmds : List (Cmd R)) : List (Segment R) :=
  (cmds.foldl pathStep { path := [], current := none, stroked := [] }).stroked

/-- The four corners of the rectangle path that `strokeRect(x, y, w, h)` and
`fillRect(x, y, w, h)` trace: `(x, y)`, `(x + w, y)`, `(x + w, y + h)`,
`(x, y + h)`. -/
def rectCorners {R : Type} [Add R] (x y w h : R) : List (R × R) :=
  [(x, y), (x + w, y), (x + w, y + h), (x, y + h)]

/-- A segment run through the other way. -/
def Segment.reverse {R : Type} (s : Segment R) : Segment R :=
  { a := s.b, b := s.a }

/-- The outline `strokeRect(x, y, w, h)` strokes: the closed path through the four
corners of the rectangle, for `w` and `h` of either sign. -/
def rectOutline {R : Type} [Add R] (x y w h : R) : List (Segment R) :=
  let corners := (rectCorners x y w h).map fun p => ({ x := p.1, y := p.2 } : Pos R)
  List.zipWith Segment.mk corners (corners.drop 1 ++ corners.take 1)

/-- The rectangle outlines stroked by a sequence of calls, in order: `strokeRect`
strokes its outline at once and leaves the current path alone; a call with an
`undefined` or `NaN` argument strokes nothing. -/
def strokedRects {R : Type} [Add R] (cmds : List (Cmd R)) : List (Segment R) :=
  cmds.flatMap fun c =>
    match c with
    | .strokeRect (some x) (some y) (some w) (some h) => rectOutline x y w h
    | _ => []

/-- Two lists of segments cover the same edges: each segment of one is a segment
of the other, in either direction. -/
def SameEdges {R : Type} (p q : List (Segment R)) : Prop :=
  (∀ s ∈ p, s ∈ q ∨ s.reverse ∈ q) ∧ (∀ s ∈ q, s ∈ p ∨ s.reverse ∈ p)

instance {R : Type} [DecidableEq R] (p q : List (Segment R)) : Decidable (SameEdges p q) :=
  inferInstanceAs (Decidable ((∀ s ∈ p, s ∈ q ∨ s.reverse ∈ q) ∧
    (∀ s ∈ q, s ∈ p ∨ s.reverse ∈ p)))

/-- The geometry of a sequence of calls: the calls without the assignments to
style properties. -/
def geometry {R : Type} (cmds : List (Cmd R)) : List (Cmd R) :=
  cmds.filter fun c =>
    match c with
    | .strokeStyle _ => false
    | .lineWidth _ => false
    | .fillStyle _ => false
    | .globalAlpha _ => false
    | .font _ _ => false
    | _ => true

/-! ## Well-formed histories and concrete data -/

/-- A history is well formed when its cursor is `-1` or an index of an entry. -/
def HistoryOk {R : Type} (s : State R) : Prop :=
  -1 ≤ s.historyIndex ∧ s.historyIndex < (s.history.length : Int)

/-- The state `s` with the cursor moved to `i` and the working set read from the
history at `i`. -/
def atCursor {R : Type} (s : State R) (i : Int) : State R :=
  { s with historyIndex := i, annotations := jsIndex s.history i }

/-- Completed gestures handled in order. -/
def runGestures {R : Type} [Add R] [Sub R] [Mul R] [Div R] [JSMath R]
    (s : State R) (gs : List (Gesture R)) : State R :=
  gs.foldl runGesture s

/-- Exact rational arithmetic, used to run the model on concrete inputs; the
square root is exact on squares of rationals. -/
instance : JSMath ℚ where
  sqrt := Rat.sqrt
  pow := fun x n => x ^ n

/-- A rectangle shape. -/
def rectA : Shape ℚ :=
  { type := "rectangle", color := some "#ff0000", strokeWidth := some 2
    x := some 20, y := some 30, width := some 30, height := some 20 }

/-- An arrow shape. -/
def arrowB : Shape ℚ :=
  { type := "arrow", color := some "#00ff00", strokeWidth := some 3
    startX := some 0, startY := some 0, endX := some 100, endY := some 0 }

/-- A circle shape. -/
def circleC : Shape ℚ :=
  { type := "circle", color := some "#0000ff", strokeWidth := some 2
    x := some 50, y := some 50, radius := some 5 }

/-- A pointer position on an 800 x 600 canvas displayed at 400 x 300. -/
def pointerAt (x y : ℚ) : MouseEvent ℚ :=
  { clientX := x, clientY := y, canvasWidth := 800, canvasHeight := 600
    rect := { left := 0, top := 0, width := 400, height := 300 } }

/-- The initial state with the given working set, history, cursor and drawing flag. -/
def stateWith (annotations : List (Shape ℚ)) (history : List (List (Shape ℚ)))
    (historyIndex : Int) (isDrawing : Bool) : State ℚ :=
  { (initialState : State ℚ) with
    annotations := some annotations
    history := history
    historyIndex := historyIndex
    isDrawing := isDrawing }

/-- A history of three snapshots. -/
def history3 : List (List (Shape ℚ)) :=
  [[rectA], [rectA, arrowB], [rectA, arrowB, circleC]]

/-- A history of five snapshots. -/
def history5 : List (List (Shape ℚ)) :=
  history3 ++ [[rectA, arrowB, circleC, rectA], [rectA, arrowB, circleC, rectA, arrowB]]

/-- A circle gesture: select the circle tool, press, move once, release. -/
def circleGesture : Gesture ℚ :=
  { tool := some "circle", color := none, width := none
    down := pointerAt 10 10, moves := [pointerAt 12 14], up := pointerAt 13 14 }

/-- A trace of two completed gestures. -/
def twoGestures : List (Event ℚ) :=
  [Event.mouseDown (pointerAt 1 1), Event.mouseMove (pointerAt 2 2), Event.mouseUp (pointerAt 3 3),
    Event.setCurrentTool "arrow",
    Event.mouseDown (pointerAt 5 5), Event.mouseUp (pointerAt 9 9)]

/-- A store on the local disk where every operation succeeds; annotation
payloads are strings. -/
def localEnv : Env String :=
  { now := 1700000000000
    savedAt := 1700000000250
    imagesDir := "/srv/uploads/images"
    pdfsDir := "/srv/uploads/pdfs"
    isS3Configured := false
    bucketName := ""
    region := ""
    layout := fun _ => .ok [37, 80, 68, 70]
    uploadBufferToS3 := fun _ _ _ => .error "S3 is not configured"
    writeFileSync := fun _ _ => .ok ()
    stringify := fun j => j.toList.map Char.toNat
    basename := fun p => (p.splitOn "/").getLastD p
    findError := fun _ => none
    saveError := fun _ => none }

/-- The local store with a disk that refuses every write. -/
def readOnlyDiskEnv : Env String :=
  { localEnv with writeFileSync := fun _ _ => .error "EACCES: permission denied" }

/-- A submission that has only been uploaded. -/
def uploadedSubmission : Submission String :=
  { _id := "s1", patientId := "u1", patientName := "Asha", patientIdNumber := "P-001"
    email := "asha@example.com", note := none
    originalImageUrl := "/uploads/images/teeth-1.jpg"
    originalImagePath := "/srv/uploads/images/teeth-1.jpg"
    annotatedImageUrl := none, annotatedImagePath := none, annotationData := none
    reportUrl := none, reportPath := none, status := Status.uploaded
    adminNotes := none, reviewedBy := none, reviewedAt := none
    createdAt := 1680000000000, updatedAt := 1680000000000 }

/-- A submission that has been annotated. -/
def annotatedSubmission : Submission String :=
  { uploadedSubmission with
    _id := "s2"
    annotationData := some "old annotations"
    adminNotes := some "old notes"
    status := Status.annotated
    reviewedBy := some "admin1"
    reviewedAt := some 1690000000000
    updatedAt := 1690000000000 }

/-- A store holding the two submissions. -/
def sampleDb : Db String :=
  [uploadedSubmission, annotatedSubmission]

/-- Whether a call fills a shape. -/
def isFill {R : Type} : Cmd R → Bool
  | .fillRect _ _ _ _ => true
  | .fill => true
  | _ => false

/-- Whether a call is one of the path calls `beginPath`, `moveTo`, `lineTo`,
`stroke`. -/
def isPathCall {R : Type} : Cmd R → Bool
  | .beginPath => true
  | .moveTo _ _ => true
  | .lineTo _ _ => true
  | .stroke => true
  | _ => false

/-- Whether a call assigns the global alpha. -/
def setsAlpha {R : Type} : Cmd R → Bool
  | .globalAlpha _ => true
  | _ => false

/-- The global alpha after a sequence of calls made at global alpha `a0`. -/
def alphaAfter {R : Type} (a0 : R) (cmds : List (Cmd R)) : R :=
  cmds.foldl (fun a c => match c with | .globalAlpha v => v | _ => a) a0

/-- The global alpha in effect at each filling call of a sequence of calls made
from global alpha `a0`, in order. -/
def fillAlphas {R : Type} (a0 : R) : List (Cmd R) → List R
  | [] => []
  | .globalAlpha v :: rest => fillAlphas v rest
  | .fillRect _ _ _ _ :: rest => a0 :: fillAlphas a0 rest
  | .fill :: rest => a0 :: fillAlphas a0 rest
  | _ :: rest => fillAlphas a0 rest

/-- A shape carries its own style when its colour is a non-empty string and its
stroke width a non-zero number, so that the `||` fallbacks are not taken. -/
def hasOwnStyle {R : Type} [NatCast R] [DecidableEq R] (a : Shape R) : Bool :=
  (match a.color with
    | some c => c != ""
    | none => false) &&
  (match a.strokeWidth with
    | some w => decide (w ≠ ((0 : Nat) : R))
    | none => false)

/-- Rational approximations of the trigonometric functions (Taylor polynomials,
exact at 0), used to run the model on concrete inputs. -/
instance : JSTrig ℚ where
  pi := 355 / 113
  cos := fun x => 1 - x ^ 2 / 2 + x ^ 4 / 24
  sin := fun x => x - x ^ 3 / 6 + x ^ 5 / 120
  atan2 := fun y x =>
    if 0 < x then y / x - (y / x) ^ 3 / 3
    else if x < 0 then
      (if 0 ≤ y then y / x - (y / x) ^ 3 / 3 + 355 / 113
      else y / x - (y / x) ^ 3 / 3 - 355 / 113)
    else if 0 < y then 355 / 226
    else if y < 0 then -(355 / 226)
    else 0

/-- A text shape. -/
def textT : Shape ℚ :=
  { type := "text", color := some "#ff0000", fontSize := some 16
    x := some 10, y := some 20, text := some "Caries" }

/-- A rectangle dragged up and to the left: negative width and height. -/
def reversedRect : Shape ℚ :=
  { type := "rectangle", color := some "#ff0000", strokeWidth := some 2
    x := some 50, y := some 50, width := some (-30), height := some (-20) }

/-- A rectangle with a fill colour. -/
def filledRect : Shape ℚ :=
  { rectA with fillColor := some "#00ff00" }

/-- A rectangle without a colour of its own. -/
def bareRect : Shape ℚ :=
  { type := "rectangle", x := some 20, y := some 30, width := some 30, height := some 20 }

/-- Three points on a line. -/
def threePoints : List (Pos ℚ) :=
  [{ x := 0, y := 0 }, { x := 5, y := 5 }, { x := 10, y := 10 }]

/-- A freehand stroke through three points. -/
def freehandF : Shape ℚ :=
  { type := "freehand", color := some "#ff0000", strokeWidth := some 2
    points := some threePoints }

/-- A canvas library on which every call succeeds. -/
def canvasOk : CanvasEnv ℚ :=
  { loadImage := fun _ => .ok { width := 800, height := 600 }
    callError := fun _ => none
    toBuffer := fun _ cmds => .ok [255, 216, cmds.length] }

/-- A canvas library that cannot decode the image. -/
def canvasUndecodable : CanvasEnv ℚ :=
  { canvasOk with loadImage := fun _ => .error "Unsupported image type" }

/-- A canvas library on which stroking a rectangle throws. -/
def canvasThrowing : CanvasEnv ℚ :=
  { canvasOk with
    callError := fun c =>
      match c with
      | .strokeRect _ _ _ _ => some "strokeRect failed"
      | _ => none }

/-- Annotation data holding the sample rectangle and circle. -/
def sampleData : AnnotationData ℚ :=
  { annotations := some [rectA, circleC], timestamp := some "2024-01-01T00:00:00.000Z" }

/-! ## Double-precision numbers -/

/-- A finite IEEE 754 double-precision number, the kind of number JavaScript
computes with: the value `m * 2 ^ e` in lowest terms (`m` odd, or `m = 0` and
`e = 0`). Infinities, `NaN`, the sign of zero and the bounds of the exponent are
not part of this model. -/
structure Dbl where
  m : Int
  e : Int
  deriving DecidableEq

/-- The number of binary digits of a natural number. -/
def Dbl.bitLength (n : Nat) : Nat :=
  go n n
where
  go : Nat → Nat → Nat
    | 0, _ => 0
    | fuel + 1, n => if n = 0 then 0 else go fuel (n / 2) + 1

/-- The number of trailing zero binary digits of a positive natural number. -/
def Dbl.trailingZeros (n : Nat) : Nat :=
  go n n
where
  go : Nat → Nat → Nat
    | 0, _ => 0
    | fuel + 1, n => if n % 2 = 1 then 0 else go fuel (n / 2) + 1

/-- The number `m * 2 ^ e` in lowest terms. -/
def Dbl.normalize (m e : Int) : Dbl :=
  if m = 0 then ⟨0, 0⟩
  else ⟨m / (2 ^ Dbl.trailingZeros m.natAbs : Nat), e + Dbl.trailingZeros m.natAbs⟩

/-- The double nearest to `m * 2 ^ e`: the value itself when `m` has at most 53
binary digits, otherwise `m` rounded to 53 digits, ties going to the even
neighbour (the rounding mode of JavaScript arithmetic). -/
def Dbl.round (m e : Int) : Dbl :=
  let n := m.natAbs
  let bits := Dbl.bitLength n
  if bits ≤ 53 then Dbl.normalize m e
  else
    let k := bits - 53
    let q := n / 2 ^ k
    let r := n % 2 ^ k
    let half := 2 ^ (k - 1)
    let q' := if r > half ∨ (r = half ∧ q % 2 = 1) then q + 1 else q
    Dbl.normalize (if m < 0 then -(q' : Int) else (q' : Int)) (e + k)

/-- The sum of two doubles: the exact sum, rounded. -/
instance : Add Dbl where
  add a b :=
    let e := min a.e b.e
    Dbl.round (a.m * (2 ^ (a.e - e).toNat : Nat) + b.m * (2 ^ (b.e - e).toNat : Nat)) e

/-- The opposite of a double, which is exact. -/
instance : Neg Dbl where
  neg a := ⟨-a.m, a.e⟩

/-- The exact value of a double. -/
def Dbl.toRat (d : Dbl) : ℚ :=
  d.m * (2 : ℚ) ^ d.e

/-- The double `0.1`, which is `3602879701896397 / 2 ^ 55`. -/
def Dbl.tenth : Dbl := ⟨3602879701896397, -55⟩

/-- The double `0.5`. -/
def Dbl.half : Dbl := ⟨1, -1⟩

/-- The difference of two doubles: the exact difference, rounded. -/
instance : Sub Dbl where
  sub a b := a + -b

/-- The double `2`. -/
def Dbl.two : Dbl := ⟨1, 1⟩

/-- The double `0`. -/
def Dbl.zero : Dbl := ⟨0, 0⟩

/-- The double `1`. -/
def Dbl.one : Dbl := ⟨1, 0⟩

/-- The double `100`. -/
def Dbl.hundred : Dbl := ⟨25, 2⟩

/-- The arrow from (0, 0) to (100, 0), in doubles. -/
def horizontalArrow : Shape Dbl :=
  { type := "arrow", color := some "#00ff00", strokeWidth := some Dbl.two
    startX := some Dbl.zero, startY := some Dbl.zero
    endX := some Dbl.hundred, endY := some Dbl.zero }

/-- A state in which a circle gesture that began at (0, 0) is in progress, in
doubles. -/
def circleDragState : State Dbl :=
  { currentTool := "circle"
    currentColor := "#ff0000"
    strokeWidth := Dbl.two
    annotations := some []
    isDrawing := true
    startPos := { x := Dbl.zero, y := Dbl.zero }
    currentAnnotation := none
    freehandPoints := []
    history := []
    historyIndex := -1 }

/-- The rectangle dragged from (0.1, 0.1) up and to the left by (0.5, 0.5). -/
def offGridRect : Shape Dbl :=
  { type := "rectangle", color := some "#ff0000", strokeWidth := some Dbl.two
    x := some Dbl.tenth, y := some Dbl.tenth
    width := some (-Dbl.half), height := some (-Dbl.half) }

/-- The rectangle `offGridRect` normalised: origin `(min(x, x + w), min(y, y + h))`,
which is `(x + w, y + h)` as `w` and `h` are negative, and size `(|w|, |h|)`. -/
def offGridRectNormalised : Shape Dbl :=
  { type := "rectangle", color := some "#ff0000", strokeWidth := some Dbl.two
    x := some (Dbl.tenth + -Dbl.half), y := some (Dbl.tenth + -Dbl.half)
    width := some Dbl.half, height := some Dbl.half }

/-! ## The report layout -/

/-- The method `s.startsWith(p)` of a JavaScript string. -/
def jsStartsWith (s p : String) : Bool :=
  p.toList.isPrefixOf s.toList

/-- How a promise ends up: resolved with a value, rejected with an error, or
pending for ever when nothing settles it. -/
inductive Promise (α : Type) where
  | resolved (value : α)
  | rejected (err : String)
  | pending

/-- What follows a call `protocol.get(url, callback)`: the request emits `error`;
or the callback runs with a response of some status code, whose body ends after
its chunks, emits `error`, or does neither; or nothing happens at all (no
timeout is set on the request). -/
inductive HttpResult where
  | requestError (err : String)
  | response (statusCode : Nat) (body : Promise Bytes)
  | noResponse

/-- A call on the PDFKit document made by `generatePDF`, with numbers of type `R`.
Text options are the `width` and `align` properties, when given. -/
inductive DocOp (R : Type) where
  | rect (x y w h : R)
  | fill (color : String)
  | stroke (color : String)
  | fillAndStroke (fillColor strokeColor : String)
  | fontSize (size : R)
  | fillColor (color : String)
  | font (name : String)
  | text (s : String) (x y : R) (width : Option R) (align : Option String)
  | image (buffer : Bytes) (x y width height : R)
  | endDocument

/-- The collaborators of the layout part of `generatePDF`: the page, the network,
the file system, the image transcoder, the canvas library and PDFKit. The two
image slots make their calls independently, so each of these calls takes the
number of the slot (1 or 2) that makes it. -/
structure PdfEnv (R : Type) where
  /-- The page size, `doc.page.width` and `doc.page.height`. -/
  pageWidth : R
  pageHeight : R
  /-- The directory `__dirname` of `utils/pdfGenerator.js`. -/
  dirname : String
  /-- The request `https.get(url, callback)`. -/
  httpsGet : Nat → String → HttpResult
  /-- The request `http.get(url, callback)`. -/
  httpGet : Nat → String → HttpResult
  /-- The conversion `sharp(buffer).jpeg({ quality: 80 }).toBuffer()`. -/
  toJpeg : Nat → Bytes → Except String Bytes
  /-- The call `fs.readFileSync(path)`. -/
  readFileSync : Nat → String → Except String Bytes
  /-- The canvas library used by `renderAnnotationsOnImage`. -/
  canvas : CanvasEnv R
  /-- The error thrown by a call on the document, if it throws. -/
  opError : DocOp R → Option String
  /-- The method `toLocaleDateString('en-GB')` of the date with the given time. -/
  toLocaleDateString : Nat → String
  /-- The text of `new Date().toLocaleString()`. -/
  generatedOnText : String
  /-- The bytes PDFKit emits for a finished document. -/
  render : List (DocOp R) → Bytes

/-- The function `downloadAndConvertImage` (`utils/pdfGenerator.js`, lines
12-38), called from image slot `slot`: it rejects on an `error` event, on a
status code other than 200 and when the conversion fails, resolves with the
converted body, and stays pending when neither a response nor an error arrives
or the body never ends. -/
def downloadAndConvertImage {R : Type} (k : PdfEnv R) (slot : Nat) (url : String) :
    Promise Bytes :=
  let protocol := if jsStartsWith url "https:" then k.httpsGet else k.httpGet
  match protocol slot url with
  | .requestError err => .rejected err
  | .noResponse => .pending
  | .response statusCode body =>
    if statusCode ≠ 200 then .rejected ("Failed to download image: " ++ toString statusCode)
    else
      match body with
      | .pending => .pending
      | .rejected err => .rejected err
      | .resolved imageBuffer =>
        match k.toJpeg slot imageBuffer with
        | .error err => .rejected err
        | .ok jpegBuffer => .resolved jpegBuffer

/-- The image buffer an image slot starts from (lines 226-233 and 259-266):
downloaded for a remote locator, read from the disk and transcoded for a local
one when no object store is configured, `undefined` otherwise; rejected with the
error thrown on the way; pending while the download is. -/
def loadSlotImage {R : Type} (k : PdfEnv R) ( isS3Configured : Bool) (slot : Nat)
    (originalImageUrl : String) : Promise (Option Bytes) :=
  if jsStartsWith originalImageUrl "http" then
    match downloadAndConvertImage k slot originalImageUrl with
    | .pending => .pending
    | .rejected err => .rejected err
    | .resolved imageBuffer => .resolved (some imageBuffer)
  else if !isS3Configured && jsStartsWith originalImageUrl "/uploads" then
    let imagePath := k.dirname ++ "/.." ++ originalImageUrl
    match k.readFileSync slot imagePath with
    | .error err => .rejected err
    | .ok localBuffer =>
      match k.toJpeg slot localBuffer with
      | .error err => .rejected err
      | .ok imageBuffer => .resolved (some imageBuffer)
  else .resolved none

/-- The calls of a `try` block that reach the document: those made before the
first call that throws. -/
def tryOps {R : Type} (k : PdfEnv R) (ops : List (DocOp R)) : List (DocOp R) :=
  ops.takeWhile fun op => (k.opError op).isNone

/-- The texts drawn by a sequence of calls, in order. -/
def drawnTexts {R : Type} (ops : List (DocOp R)) : List String :=
  ops.filterMap fun op =>
    match op with
    | .text s _ _ _ _ => some s
    | _ => none

/-- The colours of the `fill` calls of a sequence of calls, in order. -/
def fillColours {R : Type} (ops : List (DocOp R)) : List String :=
  ops.filterMap fun op =>
    match op with
    | .fill color => some color
    | _ => none

/-- The image buffers drawn by a sequence of calls, in order. -/
def drawnImages {R : Type} (ops : List (DocOp R)) : List Bytes :=
  ops.filterMap fun op =>
    match op with
    | .image buffer _ _ _ _ => some buffer
    | _ => none

section Layout

variable {R : Type} [Add R] [Sub R] [Mul R] [Div R] [NatCast R] [DecidableEq R] [JSMath R]
  [JSTrig R]

/-- An integer literal of the layout code. -/
def num (n : Nat) : R := (n : R)

/-- The left margin, `leftMargin` (line 172). -/
def leftMargin : R := num 50

/-- The right margin, `rightMargin` (line 173). -/
def rightMargin (k : PdfEnv R) : R := k.pageWidth - num 50

/-- The width of the content, `contentWidth` (line 174). -/
def contentWidth (k : PdfEnv R) : R := rightMargin k - leftMargin

/-- The width of an image, `imageWidth` (line 218). -/
def imageWidth : R := num 120

/-- The height of an image, `imageHeight` (line 219). -/
def imageHeight : R := num 90

/-- The space between the two images, `imageSpacing` (line 220). -/
def imageSpacing : R := num 30

/-- The left edge of the first image, `imageStartX` (lines 221-222). -/
def imageStartX (k : PdfEnv R) : R :=
  let totalImageWidth : R := (imageWidth * num 2) + imageSpacing
  leftMargin + (contentWidth k - totalImageWidth) / num 2

/-- The value of `yPosition` at the two image slots (lines 192, 203, 211, 215). -/
def imagesY : R := num 150 + num 40 + num 20 + num 30

/-- The calls made before the image slots (lines 176-213): the header, the
patient details and the box of the screening report. -/
def headerOps {J : Type} (k : PdfEnv R) (submission : Submission J) : List (DocOp R) :=
  let pageWidth := k.pageWidth
  let yPosition : R := num 150
  let col1X : R := leftMargin
  let col2X : R := leftMargin + (contentWidth k / num 3)
  let col3X : R := leftMargin + (num 2 * contentWidth k / num 3)
  let boxHeight : R := num 320
  [ DocOp.rect (num 0) (num 0) pageWidth (num 120), DocOp.fill "#8B5A96",
    DocOp.fontSize (num 28), DocOp.fillColor "white", DocOp.font "Helvetica-Bold",
    DocOp.text "Oral Health Screening" (num 0) (num 30) (some pageWidth) (some "center"),
    DocOp.text "Report" (num 0) (num 65) (some pageWidth) (some "center"),
    DocOp.fillColor "black", DocOp.fontSize (num 12), DocOp.font "Helvetica",
    DocOp.text ("Name: " ++ submission.patientName) col1X yPosition none none,
    DocOp.text ("Mail: " ++ submission.email) col2X yPosition none none,
    DocOp.text ("Date: " ++ k.toLocaleDateString submission.createdAt) col3X yPosition none
      none,
    DocOp.rect leftMargin (yPosition + num 40) (contentWidth k) boxHeight,
    DocOp.stroke "#E0E0E0", DocOp.fillAndStroke "#F5F5F5" "#E0E0E0",
    DocOp.fontSize (num 14), DocOp.font "Helvetica-Bold", DocOp.fillColor "black",
    DocOp.text "SCREENING REPORT:" (leftMargin + num 20) (yPosition + num 40 + num 20) none
      none ]

/-- The calls of the first image slot once it has its image buffer (lines
237-249): the image, then its label. -/
def originalImageOps (k : PdfEnv R) (imageBuffer : Bytes) : List (DocOp R) :=
  let labelHeight : R := num 20
  [ DocOp.image imageBuffer (imageStartX k) imagesY imageWidth imageHeight,
    DocOp.fontSize (num 10), DocOp.font "Helvetica-Bold", DocOp.fillColor "white",
    DocOp.rect (imageStartX k) (imagesY + imageHeight) imageWidth labelHeight,
    DocOp.fill "#E74C3C",
    DocOp.text "Upper Teeth" (imageStartX k) (imagesY + imageHeight + num 5) (some imageWidth)
      (some "center") ]

/-- The calls of the second image slot once it has the image to draw (lines
275-288): the image, then its label. -/
def annotatedImageOps (k : PdfEnv R) (annotatedImageBuffer : Bytes) : List (DocOp R) :=
  let annotatedImageX : R := imageStartX k + imageWidth + imageSpacing
  let labelHeight : R := num 20
  [ DocOp.image annotatedImageBuffer annotatedImageX imagesY imageWidth imageHeight,
    DocOp.rect annotatedImageX (imagesY + imageHeight) imageWidth labelHeight,
    DocOp.fill "#E74C3C",
    DocOp.fontSize (num 10), DocOp.font "Helvetica-Bold", DocOp.fillColor "white",
    DocOp.text "Annotated Image" annotatedImageX (imagesY + imageHeight + num 5)
      (some imageWidth) (some "center") ]

/-- The first image slot (lines 224-254): the calls that reach the document, or
`none` when the slot never finishes because its download stays pending. The slot
draws nothing when the locator is empty, when no buffer is obtained, or when
fetching or decoding throws; a call that throws ends the slot. -/
def originalImageSlot {J : Type} (k : PdfEnv R) ( isS3Configured : Bool)
    (submission : Submission J) : Option (List (DocOp R)) :=
  if submission.originalImageUrl = "" then some []
  else
    match loadSlotImage k isS3Configured 1 submission.originalImageUrl with
    | .pending => none
    | .rejected _ => some []
    | .resolved none => some []
    | .resolved (some imageBuffer) => some (tryOps k (originalImageOps k imageBuffer))

/-- The second image slot (lines 257-293): the calls that reach the document, or
`none` when the slot never finishes because its download stays pending. The
image is the original one with the annotations rendered on it when there are
annotation data. The slot draws nothing when the locator is empty, when no
buffer is obtained, or when fetching or decoding throws; a call that throws ends
the slot. -/
def annotatedImageSlot (k : PdfEnv R) ( isS3Configured : Bool)
    (submission : Submission (AnnotationData R)) : Option (List (DocOp R)) :=
  if submission.originalImageUrl = "" then some []
  else
    match loadSlotImage k isS3Configured 2 submission.originalImageUrl with
    | .pending => none
    | .rejected _ => some []
    | .resolved none => some []
    | .resolved (some baseImageBuffer) =>
      let rendered :=
        match submission.annotationData with
        | some annotationData =>
          renderAnnotationsOnImage k.canvas baseImageBuffer (some annotationData)
        | none => .ok baseImageBuffer
      match rendered with
      | .error _ => some []
      | .ok annotatedImageBuffer => some (tryOps k (annotatedImageOps k annotatedImageBuffer))

/-- The table `legendItems` (lines 299-306): colour and text. -/
def legendItems : List (String × String) :=
  [ ("#8B4513", "Inflammed / Red gums"), ("#FFD700", "Misaligned"),
    ("#8B4513", "Receded gums"), ("#FF0000", "Stains"), ("#00FFFF", "Attrition"),
    ("#FF1493", "Crowns") ]

/-- The value of `legendStartY` (lines 296, 310). -/
def legendStartY : R := imagesY + (imageHeight + num 50)

/-- The legend (lines 297-322): a colour square and a text per item, in a grid
of three columns. -/
def legendOps (k : PdfEnv R) : List (DocOp R) :=
  let legendCols : Nat := 3
  let legendColWidth : R := contentWidth k / num legendCols
  [DocOp.fontSize (num 8), DocOp.fillColor "black", DocOp.font "Helvetica"] ++
    legendItems.enum.flatMap fun (index, item) =>
      let col := index % legendCols
      let row := index / legendCols
      let xPos : R := leftMargin + num 20 + (num col * legendColWidth)
      let yPos : R := legendStartY + (num row * num 20)
      [ DocOp.rect xPos yPos (num 10) (num 10), DocOp.fill item.1,
        DocOp.fillColor "black", DocOp.text item.2 (xPos + num 15) (yPos + num 1) none none ]

/-- The table `treatments` (lines 334-341): colour, condition and treatment. -/
def treatments : List (String × String × String) :=
  [ ("#8B4513", "Inflammed or Red gums", "Scaling."),
    ("#FFD700", "Misaligned", "Braces or Clear Aligner."),
    ("#8B4513", "Receded gums", "Gum Surgery."),
    ("#FF0000", "Stains", "Teeth cleaning and polishing."),
    ("#00FFFF", "Attrition", "Filling/ Night Guard."),
    ("#FF1493", "Crowns",
      "If the crown is loose or broken, better get it checked. Teeth coloured caps are the best ones.") ]

/-- The value of `yPosition` at the heading of the treatment recommendations
(line 324): below the `Math.ceil(6 / 3)` rows of the legend. -/
def treatmentsY : R := legendStartY + (num ((legendItems.length + 2) / 3) * num 20) + num 30

/-- The value of `yPosition` at a row of the treatment recommendations (lines 330,
365): 25 below the heading, then 22 per row, added one at a time. -/
def treatmentRowY : Nat → R
  | 0 => treatmentsY + num 25
  | n + 1 => treatmentRowY n + num 22

/-- The treatment recommendations (lines 327-366): the heading and one row per
treatment. -/
def treatmentOps (k : PdfEnv R) : List (DocOp R) :=
  let colorSquareX : R := leftMargin
  let conditionX : R := leftMargin + num 20
  let colonX : R := leftMargin + num 170
  let treatmentX : R := leftMargin + num 180
  let treatmentWidth : R := rightMargin k - treatmentX
  [ DocOp.fontSize (num 14), DocOp.font "Helvetica-Bold", DocOp.fillColor "black",
    DocOp.text "TREATMENT RECOMMENDATIONS:" leftMargin treatmentsY none none,
    DocOp.fontSize (num 10), DocOp.font "Helvetica" ] ++
    treatments.enum.flatMap fun (index, item) =>
      let yPosition : R := treatmentRowY index
      [ DocOp.rect colorSquareX yPosition (num 10) (num 10), DocOp.fill item.1,
        DocOp.fillColor "black",
        DocOp.text item.2.1 conditionX (yPosition + num 1) none none,
        DocOp.text ":" colonX (yPosition + num 1) none none,
        DocOp.text item.2.2 treatmentX (yPosition + num 1) (some treatmentWidth) none ]

/-- The admin notes (lines 369-379), laid out when the submission has non-empty
notes. -/
def notesOps {J : Type} (k : PdfEnv R) (submission : Submission J) : List (DocOp R) :=
  match submission.adminNotes with
  | none => []
  | some adminNotes =>
    if adminNotes = "" then []
    else
      let yPosition : R := treatmentRowY treatments.length + num 20
      [ DocOp.fontSize (num 12), DocOp.font "Helvetica-Bold", DocOp.fillColor "black",
        DocOp.text "Additional Notes:" leftMargin yPosition none none,
        DocOp.fontSize (num 10), DocOp.font "Helvetica",
        DocOp.text adminNotes leftMargin (yPosition + num 18) (some (contentWidth k))
          (some "left") ]

/-- The footer (lines 382-385). -/
def footerOps {J : Type} (k : PdfEnv R) (submission : Submission J) : List (DocOp R) :=
  let footerY : R := k.pageHeight - num 80
  [ DocOp.fontSize (num 8), DocOp.fillColor "gray", DocOp.font "Helvetica",
    DocOp.text ("Report generated on: " ++ k.generatedOnText) leftMargin footerY none none,
    DocOp.text ("Submission ID: " ++ submission._id) leftMargin (footerY + num 12) none none ]

/-- The calls made after the image slots (lines 295-388): the legend, the
treatment rows, the notes, the footer and `doc.end()`. -/
def restOps {J : Type} (k : PdfEnv R) (submission : Submission J) : List (DocOp R) :=
  legendOps k ++ treatmentOps k ++ notesOps k submission ++ footerOps k submission ++
    [DocOp.endDocument]

/-- The layout part of `generatePDF` (lines 170-388): resolved with the calls that
make up the finished document, rejected with the error that reaches the outer
`catch` (lines 390-392), or pending when an image slot waits for ever for its
download. The two image slots have their own `try`/`catch`. -/
def pdfLayout (k : PdfEnv R) ( isS3Configured : Bool)
    (submission : Submission (AnnotationData R)) : Promise (List (DocOp R)) :=
  match (headerOps k submission).findSome? k.opError with
  | some err => .rejected err
  | none =>
    match originalImageSlot k isS3Configured submission with
    | none => .pending
    | some slot1 =>
      match annotatedImageSlot k isS3Configured submission with
      | none => .pending
      | some slot2 =>
        match (restOps k submission).findSome? k.opError with
        | some err => .rejected err
        | none => .resolved (headerOps k submission ++ (slot1 ++ slot2) ++ restOps k submission)

/-- The function `generatePDF` (`utils/pdfGenerator.js`, lines 129-394) with its
layout spelled out: when the layout finishes, the bytes of the document are
stored as `generatePDF` stores them; when the layout rejects, so does the call;
while the layout is pending, so is the call. -/
def PdfGenerator.generatePDF (env : Env (AnnotationData R)) (k : PdfEnv R)
    (submission : Submission (AnnotationData R)) : Promise PdfInfo :=
  match pdfLayout k env.isS3Configured submission with
  | .pending => .pending
  | .rejected err => .rejected err
  | .resolved ops =>
    match OralVis.generatePDF { env with layout := fun _ => .ok (k.render ops) } submission with
    | .error err => .rejected err
    | .ok info => .resolved info

end Layout

/-- A store on the local disk where every operation succeeds; annotation
payloads are annotation data. -/
def reportEnv : Env (AnnotationData ℚ) :=
  { now := 1700000000000
    savedAt := 1700000000250
    imagesDir := "/srv/uploads/images"
    pdfsDir := "/srv/uploads/pdfs"
    isS3Configured := false
    bucketName := ""
    region := ""
    layout := fun _ => .ok [37, 80, 68, 70]
    uploadBufferToS3 := fun _ _ _ => .error "S3 is not configured"
    writeFileSync := fun _ _ => .ok ()
    stringify := fun d => [d.annotations.getD [] |>.length]
    basename := fun p => (p.splitOn "/").getLastD p
    findError := fun _ => none
    saveError := fun _ => none }

/-- An A4 page on which no image can be obtained: the download of the first slot
answers 404, the download of the second slot succeeds but its body cannot be
transcoded, and no local file can be read. Every call on the document succeeds. -/
def failingImagesKit : PdfEnv ℚ :=
  { pageWidth := 595.28
    pageHeight := 841.89
    dirname := "/srv/backend/utils"
    httpsGet := fun slot _ =>
      if slot = 1 then .response 404 (.resolved []) else .response 200 (.resolved [60, 63, 120])
    httpGet := fun _ _ => .requestError "ECONNREFUSED"
    toJpeg := fun _ _ => .error "Input buffer contains unsupported image format"
    readFileSync := fun _ _ => .error "ENOENT: no such file or directory"
    canvas := canvasOk
    opError := fun _ => none
    toLocaleDateString := fun _ => "01/01/2024"
    generatedOnText := "1/2/2024, 10:00:00 AM"
    render := fun ops => [37, 80, 68, 70, ops.length] }

/-- The page of `failingImagesKit` with a server that accepts the request of the
first slot and never answers. -/
def silentServerKit : PdfEnv ℚ :=
  { failingImagesKit with httpsGet := fun _ _ => .noResponse }

/-- The page of `failingImagesKit` with a server whose connection breaks on the
request of the first slot and that accepts the request of the second slot and
never answers. -/
def brokenThenSilentKit : PdfEnv ℚ :=
  { failingImagesKit with
    httpsGet := fun slot _ => if slot = 1 then .requestError "ECONNRESET" else .noResponse }

/-- An annotated submission whose image is stored remotely. -/
def remoteSubmission : Submission (AnnotationData ℚ) :=
  { _id := "s3", patientId := "u1", patientName := "Asha", patientIdNumber := "P-001"
    email := "asha@example.com", note := none
    originalImageUrl := "https://bucket.s3.eu-west-1.amazonaws.com/uploads/teeth-1.jpg"
    originalImagePath := "uploads/teeth-1.jpg"
    annotatedImageUrl := none, annotatedImagePath := none
    annotationData := some sampleData
    reportUrl := none, reportPath := none, status := Status.annotated
    adminNotes := some "Stains on the upper incisors", reviewedBy := some "admin1"
    reviewedAt := some 1690000000000
    createdAt := 1680000000000, updatedAt := 1690000000000 }

/-! ## Session invariant -/

/-- The working set a session starts with: the annotation list of the fetched
submission, or the empty list. -/
def loadedAnnotations {R : Type} (annotationData : Option (AnnotationData R)) :
    List (Shape R) :=
  match annotationData with
  | some d => d.annotations.getD []
  | none => []

/-- The invariant of a session that started with the working set `a0`: the
history is well formed; while it is empty the working set is `a0`; once it is not,
the cursor is an index and the working set is the entry under the cursor; the
first entry is `a0` extended by one shape, and every other entry is its
predecessor extended by one shape. -/
def SessionInv {R : Type} (a0 : List (Shape R)) (s : State R) : Prop :=
  HistoryOk s ∧
  (s.history = [] → s.annotations = some a0) ∧
  (s.history ≠ [] → 0 ≤ s.historyIndex ∧ s.annotations = jsIndex s.history s.historyIndex) ∧
  (∀ first, s.history[0]? = some first → ∃ shape, first = a0 ++ [shape]) ∧
  (∀ (i : Nat) (a b : List (Shape R)), s.history[i]? = some a → s.history[i + 1]? = some b →
    ∃ shape, b = a ++ [shape])

/-- A gesture during which the colour, the tool and the stroke width are changed
between pointer-down and pointer-up. -/
def settingsChangedMidGesture : List (Event ℚ) :=
  [Event.mouseDown (pointerAt 1 1), Event.setCurrentColor "#0000ff",
    Event.setCurrentTool "arrow", Event.setStrokeWidth 5, Event.mouseUp (pointerAt 3 3)]

/-- The arrow that the gesture `settingsChangedMidGesture` commits. -/
def midGestureArrow : Shape ℚ :=
  { type := "arrow", color := some "#0000ff", strokeWidth := some 5
    startX := some 2, startY := some 2, endX := some 6, endY := some 6 }

/-- A state in which a gesture is in progress: the working set is the second of
three snapshots, the cursor is on it. -/
def drawingState : State ℚ :=
  { stateWith [rectA, arrowB] history3 1 true with startPos := { x := 2, y := 2 } }

/-- The helper `drawArrow` of `utils/imageProcessor.js` (lines 44-67): the shaft,
then the two head segments from the end point. -/
def ImageProcessor.drawArrow {R : Type} [Add R] [Sub R] [Mul R] [Div R] [NatCast R] [JSTrig R]
    (startX startY endX endY : Option R) : List (Cmd R) :=
  let headLength : R := ((10 : Nat) : R)
  let angle := num2 JSTrig.atan2 (num2 (· - ·) endY startY) (num2 (· - ·) endX startX)
  [ Cmd.beginPath,
    Cmd.moveTo startX startY,
    Cmd.lineTo endX endY,
    Cmd.stroke,
    Cmd.beginPath,
    Cmd.moveTo endX endY,
    Cmd.lineTo
      (num2 (· - ·) endX
        (angle.map fun a => headLength * JSTrig.cos (a - JSTrig.pi / ((6 : Nat) : R))))
      (num2 (· - ·) endY
        (angle.map fun a => headLength * JSTrig.sin (a - JSTrig.pi / ((6 : Nat) : R)))),
    Cmd.moveTo endX endY,
    Cmd.lineTo
      (num2 (· - ·) endX
        (angle.map fun a => headLength * JSTrig.cos (a + JSTrig.pi / ((6 : Nat) : R))))
      (num2 (· - ·) endY
        (angle.map fun a => headLength * JSTrig.sin (a + JSTrig.pi / ((6 : Nat) : R)))),
    Cmd.stroke ]

/-- Whether a call takes part in stroking: the stroke colour, the line width, and
the calls that trace or stroke a rectangle or a path. -/
def isStrokeCall {R : Type} : Cmd R → Bool
  | .strokeStyle _ => true
  | .lineWidth _ => true
  | .strokeRect _ _ _ _ => true
  | .beginPath => true
  | .arc _ _ _ _ _ => true
  | .moveTo _ _ => true
  | .lineTo _ _ => true
  | .stroke => true
  | _ => false

/-- The stroke primitives of a sequence of calls, each with the stroke colour and
line width assigned before it, in order. -/
def strokeCalls {R : Type} (cmds : List (Cmd R)) : List (Cmd R) :=
  cmds.filter isStrokeCall

/-! ## The history stack -/

section History

variable {R : Type}

theorem jsSlice0_of_nonneg {α : Type} (xs : List α) (stop : Int) (h : 0 ≤ stop) :
    jsSlice0 xs stop = xs.take stop.toNat := by
  unfold jsSlice0
  rw [if_neg (not_lt.mpr h)]

theorem jsIndex_of_nonneg {α : Type} (xs : List α) (i : Int) (h : 0 ≤ i) :
    jsIndex xs i = xs[i.toNat]? := by
  unfold jsIndex
  rw [if_neg (not_lt.mpr h)]

theorem jsIndex_natCast {α : Type} (xs : List α) (n : Nat) :
    jsIndex xs (n : Int) = xs[n]? := by
  rw [jsIndex_of_nonneg xs n (Int.natCast_nonneg n), Int.toNat_natCast]

theorem jsIndex_mem {α : Type} {xs : List α} {i : Int} {a : α} (h : jsIndex xs i = some a) :
    a ∈ xs := by
  unfold jsIndex at h
  split at h
  · cases h
  · exact List.getElem?_mem h

theorem jsIndex_isSome {α : Type} (xs : List α) (i : Int) (h0 : 0 ≤ i) (h1 : i < xs.length) :
    ∃ a, jsIndex xs i = some a ∧ a ∈ xs := by
  have hlt : i.toNat < xs.length := by omega
  refine ⟨xs[i.toNat], ?_, List.getElem_mem hlt⟩
  rw [jsIndex_of_nonneg xs i h0, List.getElem?_eq_getElem hlt]

theorem addToHistory_fst (entries : List (List (Shape R))) (cursor : Int) (s : List (Shape R))
    (hlo : -1 ≤ cursor) :
    (addToHistory entries cursor s).1 = entries.take (cursor + 1).toNat ++ [s] := by
  unfold addToHistory
  simp only
  rw [jsSlice0_of_nonneg entries (cursor + 1) (by omega)]

theorem addToHistory_snd (entries : List (List (Shape R))) (cursor : Int) (s : List (Shape R))
    (hlo : -1 ≤ cursor) (hhi : cursor < entries.length) :
    (addToHistory entries cursor s).2 = cursor + 1 := by
  have h1 := addToHistory_fst entries cursor s hlo
  have h2 : (addToHistory entries cursor s).2 =
      ((addToHistory entries cursor s).1.length : Int) - 1 := rfl
  rw [h2, h1]
  simp only [List.length_append, List.length_take, List.length_singleton]
  omega

theorem handleMouseUp_drawing [Add R] [Sub R] [Mul R] [Div R] [JSMath R]
    (st : State R) (e : MouseEvent R) (ws : List (Shape R))
    (hd : st.isDrawing = true) (ha : st.annotations = some ws) :
    (handleMouseUp st e).annotations = some (ws ++ [ newAnnotation st (getMousePos e)]) ∧
    (handleMouseUp st e).history =
      (addToHistory st.history st.historyIndex (ws ++ [ newAnnotation st (getMousePos e)])).1 ∧
    (handleMouseUp st e).historyIndex =
      (addToHistory st.history st.historyIndex (ws ++ [ newAnnotation st (getMousePos e)])).2 ∧
    (handleMouseUp st e).isDrawing = false := by
  unfold handleMouseUp
  by_cases hf : st.currentTool = "freehand" <;> simp [hd, ha, hf]

theorem handleUndo_atCursor (s : State R) (i : Int) :
    handleUndo (atCursor s i) = if 0 < i then atCursor s (i - 1) else atCursor s i := by
  unfold handleUndo
  by_cases h : 0 < i
  · rw [if_pos h, if_pos (show (atCursor s i).historyIndex > 0 from h)]
    rfl
  · rw [if_neg h, if_neg (show ¬ (atCursor s i).historyIndex > 0 from h)]

theorem handleRedo_atCursor (s : State R) (i : Int) :
    handleRedo (atCursor s i) =
      if i < (s.history.length : Int) - 1 then atCursor s (i + 1) else atCursor s i := by
  unfold handleRedo
  by_cases h : i < (s.history.length : Int) - 1
  · rw [if_pos h,
      if_pos (show (atCursor s i).historyIndex < ((atCursor s i).history.length : Int) - 1 from h)]
    rfl
  · rw [if_neg h,
      if_neg (show ¬ (atCursor s i).historyIndex < ((atCursor s i).history.length : Int) - 1
        from h)]

theorem handleUndo_eq (s : State R) :
    handleUndo s = if 0 < s.historyIndex then atCursor s (s.historyIndex - 1) else s := by
  unfold handleUndo
  by_cases h : 0 < s.historyIndex
  · rw [if_pos h, if_pos (show s.historyIndex > 0 from h)]
    rfl
  · rw [if_neg h, if_neg (show ¬ s.historyIndex > 0 from h)]

theorem handleRedo_eq (s : State R) :
    handleRedo s =
      if s.historyIndex < (s.history.length : Int) - 1 then atCursor s (s.historyIndex + 1)
      else s := by
  unfold handleRedo
  by_cases h : s.historyIndex < (s.history.length : Int) - 1
  · rw [if_pos h, if_pos h]
    rfl
  · rw [if_neg h, if_neg h]

/-- The result of `k` undos. -/
theorem undo_iterate (s : State R) (k : Nat) :
    handleUndo^[k] s =
      if k = 0 ∨ s.historyIndex ≤ 0 then s
      else atCursor s (max (s.historyIndex - (k : Int)) 0) := by
  induction k with
  | zero => simp
  | succ k ih =>
    rw [Function.iterate_succ_apply', ih]
    by_cases h0 : s.historyIndex ≤ 0
    · rw [if_pos (Or.inr h0), if_pos (Or.inr h0), handleUndo_eq, if_neg (by omega)]
    · rw [if_neg (by omega : ¬ (k + 1 = 0 ∨ s.historyIndex ≤ 0))]
      by_cases hk : k = 0
      · subst hk
        rw [if_pos (Or.inl rfl), handleUndo_eq, if_pos (by omega)]
        congr 1
        push_cast
        omega
      · rw [if_neg (by omega : ¬ (k = 0 ∨ s.historyIndex ≤ 0)), handleUndo_atCursor]
        split_ifs with hm
        · congr 1
          push_cast
          omega
        · congr 1
          push_cast
          omega

/-- The result of `k` redos. -/
theorem redo_iterate (s : State R) (k : Nat) :
    handleRedo^[k] s =
      if k = 0 ∨ (s.history.length : Int) - 1 ≤ s.historyIndex then s
      else atCursor s (min (s.historyIndex + (k : Int)) ((s.history.length : Int) - 1)) := by
  induction k with
  | zero => simp
  | succ k ih =>
    rw [Function.iterate_succ_apply', ih]
    by_cases h0 : (s.history.length : Int) - 1 ≤ s.historyIndex
    · rw [if_pos (Or.inr h0), if_pos (Or.inr h0), handleRedo_eq, if_neg (by omega)]
    · rw [if_neg (by omega : ¬ (k + 1 = 0 ∨ (s.history.length : Int) - 1 ≤ s.historyIndex))]
      by_cases hk : k = 0
      · subst hk
        rw [if_pos (Or.inl rfl), handleRedo_eq, if_pos (by omega)]
        congr 1
        push_cast
        omega
      · rw [if_neg (by omega : ¬ (k = 0 ∨ (s.history.length : Int) - 1 ≤ s.historyIndex)),
          handleRedo_atCursor]
        split_ifs with hm
        · congr 1
          push_cast
          omega
        · congr 1
          push_cast
          omega

/-- A state whose working set is the entry under the cursor is the state at its
own cursor. -/
theorem atCursor_self (s : State R) (h : s.annotations = jsIndex s.history s.historyIndex) :
    atCursor s s.historyIndex = s := by
  unfold atCursor
  rw [← h]

/-- Undo `k` times, then redo `k` times, from the last index of a history whose
working set is the entry under the cursor. -/
theorem redo_undo_cancel (s : State R) (k : Nat)
    (hlast : s.historyIndex = (s.history.length : Int) - 1)
    (hsync : 0 ≤ s.historyIndex → s.annotations = jsIndex s.history s.historyIndex) :
    handleRedo^[k] (handleUndo^[k] s) = s := by
  rw [undo_iterate]
  by_cases h0 : k = 0 ∨ s.historyIndex ≤ 0
  · rw [if_pos h0, redo_iterate, if_pos (by omega)]
  · rw [if_neg h0, redo_iterate]
    have hh : (atCursor s (max (s.historyIndex - (k : Int)) 0)).history = s.history := rfl
    have hi : (atCursor s (max (s.historyIndex - (k : Int)) 0)).historyIndex =
        max (s.historyIndex - (k : Int)) 0 := rfl
    rw [hh, hi, if_neg (by omega)]
    have hm : min (max (s.historyIndex - (k : Int)) 0 + (k : Int)) ((s.history.length : Int) - 1)
        = s.historyIndex := by omega
    rw [hm]
    exact atCursor_self s (hsync (by omega))

theorem handleMouseDown_frame [Sub R] [Mul R] [Div R] (s : State R) (e : MouseEvent R) :
    (handleMouseDown s e).history = s.history ∧
    (handleMouseDown s e).historyIndex = s.historyIndex ∧
    (handleMouseDown s e).annotations = s.annotations ∧
    (handleMouseDown s e).isDrawing = true := by
  unfold handleMouseDown
  by_cases hf : s.currentTool = "freehand" <;> simp [hf]

theorem handleMouseMove_frame [Sub R] [Mul R] [Div R] (s : State R) (e : MouseEvent R) :
    (handleMouseMove s e).history = s.history ∧
    (handleMouseMove s e).historyIndex = s.historyIndex ∧
    (handleMouseMove s e).annotations = s.annotations ∧
    (handleMouseMove s e).isDrawing = s.isDrawing := by
  unfold handleMouseMove
  by_cases hd : s.isDrawing = true <;> by_cases hf : s.currentTool = "freehand" <;>
    simp [hd, hf]

theorem sessionStart_facts [OfNat R 0] [OfNat R 2] (ad : Option (AnnotationData R)) :
    (sessionStart ad).history = [] ∧ (sessionStart ad).historyIndex = -1 ∧
    (∃ a, (sessionStart ad).annotations = some a) ∧ (sessionStart ad).isDrawing = false := by
  cases ad with
  | none => exact ⟨rfl, rfl, ⟨[], rfl⟩, rfl⟩
  | some d => exact ⟨rfl, rfl, ⟨_, rfl⟩, rfl⟩


theorem jsSlice0_subset {α : Type} {xs : List α} {stop : Int} {a : α}
    (h : a ∈ jsSlice0 xs stop) : a ∈ xs := by
  unfold jsSlice0 at h
  split at h <;> exact List.mem_of_mem_take h

theorem handleUndo_history (s : State R) : (handleUndo s).history = s.history := by
  rw [handleUndo_eq]
  split_ifs <;> rfl

theorem handleRedo_history (s : State R) : (handleRedo s).history = s.history := by
  rw [handleRedo_eq]
  split_ifs <;> rfl

theorem handleUndo_historyOk (s : State R) (h : HistoryOk s) : HistoryOk (handleUndo s) := by
  obtain ⟨hlo, hhi⟩ := h
  rw [handleUndo_eq]
  split_ifs with hc
  · exact ⟨show -1 ≤ s.historyIndex - 1 by omega,
      show s.historyIndex - 1 < (s.history.length : Int) by omega⟩
  · exact ⟨hlo, hhi⟩

theorem handleRedo_historyOk (s : State R) (h : HistoryOk s) : HistoryOk (handleRedo s) := by
  obtain ⟨hlo, hhi⟩ := h
  rw [handleRedo_eq]
  split_ifs with hc
  · exact ⟨show -1 ≤ s.historyIndex + 1 by omega,
      show s.historyIndex + 1 < (s.history.length : Int) by omega⟩
  · exact ⟨hlo, hhi⟩

/-- What a pointer-up does to the history: nothing, or the update of
`addToHistory` with the working set extended by the new shape. -/
theorem handleMouseUp_history [Add R] [Sub R] [Mul R] [Div R] [JSMath R]
    (s : State R) (e : MouseEvent R) :
    ((handleMouseUp s e).history = s.history ∧
      (handleMouseUp s e).historyIndex = s.historyIndex) ∨
    (s.isDrawing = true ∧ ∃ ws, s.annotations = some ws ∧
      (handleMouseUp s e).annotations = some (ws ++ [ newAnnotation s (getMousePos e)]) ∧
      (handleMouseUp s e).history =
        (addToHistory s.history s.historyIndex
          (ws ++ [ newAnnotation s (getMousePos e)])).1 ∧
      (handleMouseUp s e).historyIndex =
        (addToHistory s.history s.historyIndex
          (ws ++ [ newAnnotation s (getMousePos e)])).2) := by
  by_cases hd : s.isDrawing = true
  · cases ha : s.annotations with
    | none =>
      left
      unfold handleMouseUp
      by_cases hf : s.currentTool = "freehand" <;> simp [hd, ha, hf]
    | some ws =>
      right
      obtain ⟨u1, u2, u3, -⟩ := handleMouseUp_drawing s e ws hd ha
      exact ⟨hd, ws, rfl, u1, u2, u3⟩
  · left
    unfold handleMouseUp
    simp [hd]

theorem handleMouseUp_historyOk [Add R] [Sub R] [Mul R] [Div R] [JSMath R]
    (s : State R) (e : MouseEvent R) (h : HistoryOk s) : HistoryOk (handleMouseUp s e) := by
  obtain ⟨hlo, hhi⟩ := h
  rcases handleMouseUp_history s e with ⟨h1, h2⟩ | ⟨-, ws, -, -, h1, h2⟩
  · exact ⟨by rw [h2]; exact hlo, by rw [h1, h2]; exact hhi⟩
  · have g1 := addToHistory_fst s.history s.historyIndex
      (ws ++ [ newAnnotation s (getMousePos e)]) hlo
    have g2 := addToHistory_snd s.history s.historyIndex
      (ws ++ [ newAnnotation s (getMousePos e)]) hlo hhi
    unfold HistoryOk
    rw [h1, h2, g2, g1]
    simp only [List.length_append, List.length_take, List.length_singleton]
    omega


end History

/-! ## Gestures -/

section Gestures

variable {R : Type} [Add R] [Sub R] [Mul R] [Div R] [JSMath R]

theorem run_append (s : State R) (l1 l2 : List (Event R)) :
    run s (l1 ++ l2) = run (run s l1) l2 := by
  unfold run
  rw [List.foldl_append]

theorem run_cons (s : State R) (ev : Event R) (l : List (Event R)) :
    run s (ev :: l) = run (step s ev) l := rfl

theorem run_nil (s : State R) : run s [] = s := rfl

theorem run_snoc (s : State R) (l : List (Event R)) (ev : Event R) :
    run s (l ++ [ev]) = step (run s l) ev := by
  rw [run_append]
  rfl

theorem run_moves_frame (moves : List (MouseEvent R)) (s : State R) :
    (run s (moves.map Event.mouseMove)).history = s.history ∧
    (run s (moves.map Event.mouseMove)).historyIndex = s.historyIndex ∧
    (run s (moves.map Event.mouseMove)).annotations = s.annotations ∧
    (run s (moves.map Event.mouseMove)).isDrawing = s.isDrawing := by
  induction moves generalizing s with
  | nil => exact ⟨rfl, rfl, rfl, rfl⟩
  | cons m ms ih =>
    rw [List.map_cons, run_cons]
    obtain ⟨h1, h2, h3, h4⟩ := ih (step s (Event.mouseMove m))
    obtain ⟨g1, g2, g3, g4⟩ := handleMouseMove_frame s m
    exact ⟨h1.trans g1, h2.trans g2, h3.trans g3, h4.trans g4⟩

theorem run_settings_frame (g : Gesture R) (s : State R) :
    (run s ((g.tool.map Event.setCurrentTool).toList ++
      (g.color.map Event.setCurrentColor).toList ++
      (g.width.map Event.setStrokeWidth).toList)).history = s.history ∧
    (run s ((g.tool.map Event.setCurrentTool).toList ++
      (g.color.map Event.setCurrentColor).toList ++
      (g.width.map Event.setStrokeWidth).toList)).historyIndex = s.historyIndex ∧
    (run s ((g.tool.map Event.setCurrentTool).toList ++
      (g.color.map Event.setCurrentColor).toList ++
      (g.width.map Event.setStrokeWidth).toList)).annotations = s.annotations := by
  cases g.tool <;> cases g.color <;> cases g.width <;> exact ⟨rfl, rfl, rfl⟩

/-- What a completed gesture does to the history: it keeps the entries up to the
cursor, appends the working set extended by one new shape, and moves the cursor
to that entry. -/
theorem runGesture_commits (s : State R) (g : Gesture R) (a : List (Shape R))
    (ha : s.annotations = some a) (hok : HistoryOk s) :
    ∃ shape : Shape R,
      (runGesture s g).annotations = some (a ++ [shape]) ∧
      (runGesture s g).history = s.history.take (s.historyIndex + 1).toNat ++ [a ++ [shape]] ∧
      (runGesture s g).historyIndex = s.historyIndex + 1 ∧
      (runGesture s g).isDrawing = false := by
  obtain ⟨hlo, hhi⟩ := hok
  unfold runGesture Gesture.events
  rw [run_snoc, run_append, run_snoc]
  obtain ⟨s1, s2, s3⟩ := run_settings_frame g s
  generalize run s ((g.tool.map Event.setCurrentTool).toList ++
      (g.color.map Event.setCurrentColor).toList ++
      (g.width.map Event.setStrokeWidth).toList) = t1 at s1 s2 s3 ⊢
  obtain ⟨d1, d2, d3, d4⟩ := handleMouseDown_frame t1 g.down
  obtain ⟨m1, m2, m3, m4⟩ := run_moves_frame g.moves (step t1 (Event.mouseDown g.down))
  generalize run (step t1 (Event.mouseDown g.down)) (g.moves.map Event.mouseMove) = t2
    at m1 m2 m3 m4 ⊢
  have e1 : t2.history = s.history := m1.trans (d1.trans s1)
  have e2 : t2.historyIndex = s.historyIndex := m2.trans (d2.trans s2)
  have e3 : t2.annotations = some a := (m3.trans (d3.trans s3)).trans ha
  have e4 : t2.isDrawing = true := m4.trans d4
  obtain ⟨u1, u2, u3, u4⟩ := handleMouseUp_drawing t2 g.up a e4 e3
  refine ⟨ newAnnotation t2 (getMousePos g.up), u1, ?_, ?_, u4⟩
  · show (handleMouseUp t2 g.up).history = _
    rw [u2, e1, e2]
    exact addToHistory_fst _ _ _ hlo
  · show (handleMouseUp t2 g.up).historyIndex = _
    rw [u3, e1, e2]
    exact addToHistory_snd _ _ _ hlo hhi

/-- After a completed gesture at the last index the history is one entry longer,
the cursor is at its last index and the working set is the entry there. -/
theorem runGesture_tip (s : State R) (g : Gesture R)
    (hlast : s.historyIndex = (s.history.length : Int) - 1)
    (ha : ∃ a, s.annotations = some a) :
    (runGesture s g).history.length = s.history.length + 1 ∧
    (runGesture s g).historyIndex = ((runGesture s g).history.length : Int) - 1 ∧
    (runGesture s g).annotations =
      jsIndex (runGesture s g).history (runGesture s g).historyIndex := by
  obtain ⟨a, ha⟩ := ha
  obtain ⟨shape, h1, h2, h3, -⟩ := runGesture_commits s g a ha ⟨by omega, by omega⟩
  have ht : (s.historyIndex + 1).toNat = s.history.length := by omega
  rw [ht, List.take_length] at h2
  have hl : (runGesture s g).history.length = s.history.length + 1 := by
    rw [h2]
    simp
  refine ⟨hl, by rw [h3, hl]; push_cast; omega, ?_⟩
  rw [h1, h3, hlast, h2]
  have hc : ((s.history.length : Int) - 1 + 1) = ((s.history.length : Nat) : Int) := by omega
  rw [hc, jsIndex_natCast]
  simp

theorem runGestures_tip (gs : List (Gesture R)) (s : State R)
    (hlast : s.historyIndex = (s.history.length : Int) - 1)
    (ha : ∃ a, s.annotations = some a) :
    (runGestures s gs).history.length = s.history.length + gs.length ∧
    (runGestures s gs).historyIndex = ((runGestures s gs).history.length : Int) - 1 ∧
    (∃ a, (runGestures s gs).annotations = some a) ∧
    (0 < gs.length → (runGestures s gs).annotations =
      jsIndex (runGestures s gs).history (runGestures s gs).historyIndex) := by
  induction gs generalizing s with
  | nil => exact ⟨rfl, hlast, ha, fun h => absurd h (by simp)⟩
  | cons g gs ih =>
    obtain ⟨t1, t2, t3⟩ := runGesture_tip s g hlast ha
    have hsome : ∃ a, (runGesture s g).annotations = some a := by
      obtain ⟨a, ha⟩ := ha
      obtain ⟨shape, h1, -⟩ := runGesture_commits s g a ha ⟨by omega, by omega⟩
      exact ⟨_, h1⟩
    obtain ⟨i1, i2, i3, i4⟩ := ih (runGesture s g) t2 hsome
    have hr : runGestures s (g :: gs) = runGestures (runGesture s g) gs := rfl
    rw [hr]
    refine ⟨by rw [i1, t1]; simp; omega, i2, i3, fun _ => ?_⟩
    cases gs with
    | nil => exact t3
    | cons g2 gs2 => exact i4 (by simp)

theorem step_historyOk (s : State R) (ev : Event R) (h : HistoryOk s) :
    HistoryOk (step s ev) := by
  cases ev with
  | mouseDown e =>
    obtain ⟨d1, d2, -, -⟩ := handleMouseDown_frame s e
    exact ⟨by show -1 ≤ (handleMouseDown s e).historyIndex; rw [d2]; exact h.1,
      by show (handleMouseDown s e).historyIndex < _; rw [d2]
         show _ < ((handleMouseDown s e).history.length : Int); rw [d1]; exact h.2⟩
  | mouseMove e =>
    obtain ⟨d1, d2, -, -⟩ := handleMouseMove_frame s e
    exact ⟨by show -1 ≤ (handleMouseMove s e).historyIndex; rw [d2]; exact h.1,
      by show (handleMouseMove s e).historyIndex < _; rw [d2]
         show _ < ((handleMouseMove s e).history.length : Int); rw [d1]; exact h.2⟩
  | mouseUp e => exact handleMouseUp_historyOk s e h
  | undo => exact handleUndo_historyOk s h
  | redo => exact handleRedo_historyOk s h
  | setCurrentTool id => exact h
  | setCurrentColor c => exact h
  | setStrokeWidth w => exact h

theorem run_historyOk (tr : List (Event R)) (s : State R) (h : HistoryOk s) :
    HistoryOk (run s tr) := by
  induction tr generalizing s with
  | nil => exact h
  | cons ev tr ih => exact ih (step s ev) (step_historyOk s ev h)

theorem handleMouseUp_isDrawing (s : State R) (e : MouseEvent R) :
    (handleMouseUp s e).isDrawing = false := by
  unfold handleMouseUp
  by_cases hd : s.isDrawing = true
  · cases ha : s.annotations <;> by_cases hf : s.currentTool = "freehand" <;> simp [hd, hf]
  · simp [hd]

/-- A gesture is in progress only after a pointer-down. -/
theorem drawing_has_mouseDown (s0 : State R) (hs : s0.isDrawing = false) (tr : List (Event R))
    (h : (run s0 tr).isDrawing = true) : ∃ e0, Event.mouseDown e0 ∈ tr := by
  induction tr using List.reverseRecOn with
  | nil =>
    rw [run_nil, hs] at h
    cases h
  | append_singleton tr ev ih =>
    rw [run_snoc] at h
    have keep : (run s0 tr).isDrawing = true → ∃ e0, Event.mouseDown e0 ∈ tr ++ [ev] :=
      fun hd => (ih hd).imp fun _ hm => List.mem_append_left _ hm
    cases ev with
    | mouseDown e => exact ⟨e, by simp⟩
    | mouseMove e => exact keep (by rw [← (handleMouseMove_frame (run s0 tr) e).2.2.2]; exact h)
    | mouseUp e =>
      have hf := handleMouseUp_isDrawing (run s0 tr) e
      have h2 : (handleMouseUp (run s0 tr) e).isDrawing = true := h
      rw [hf] at h2
      cases h2
    | undo =>
      refine keep ?_
      have h2 : (handleUndo (run s0 tr)).isDrawing = true := h
      rw [handleUndo_eq] at h2
      split_ifs at h2 <;> exact h2
    | redo =>
      refine keep ?_
      have h2 : (handleRedo (run s0 tr)).isDrawing = true := h
      rw [handleRedo_eq] at h2
      split_ifs at h2 <;> exact h2
    | setCurrentTool id => exact keep h
    | setCurrentColor c => exact keep h
    | setStrokeWidth w => exact keep h

theorem committedIn_snoc (s0 : State R) (tr : List (Event R)) (ev : Event R)
    (set : List (Shape R)) (h : CommittedIn s0 tr set) : CommittedIn s0 (tr ++ [ev]) set := by
  obtain ⟨pre, e, post, h1, h0, h2, h3⟩ := h
  exact ⟨pre, e, post ++ [ev], by rw [h1]; simp, h0, h2, h3⟩

/-- Every entry of the history after a trace from an idle state with an empty
history was committed by a pointer-up of the trace. -/
theorem history_committedIn (s0 : State R) (hs : s0.history = []) (hidle : s0.isDrawing = false)
    (tr : List (Event R)) :
    ∀ entry ∈ (run s0 tr).history, CommittedIn s0 tr entry := by
  induction tr using List.reverseRecOn with
  | nil =>
    intro entry hmem
    rw [run_nil, hs] at hmem
    cases hmem
  | append_singleton tr ev ih =>
    intro entry hmem
    rw [run_snoc] at hmem
    have keep : entry ∈ (run s0 tr).history → CommittedIn s0 (tr ++ [ev]) entry :=
      fun hm => committedIn_snoc s0 tr ev entry (ih entry hm)
    cases ev with
    | mouseDown e => exact keep (by rw [← (handleMouseDown_frame (run s0 tr) e).1]; exact hmem)
    | mouseMove e => exact keep (by rw [← (handleMouseMove_frame (run s0 tr) e).1]; exact hmem)
    | undo => exact keep (by rw [← handleUndo_history (run s0 tr)]; exact hmem)
    | redo => exact keep (by rw [← handleRedo_history (run s0 tr)]; exact hmem)
    | setCurrentTool id => exact keep hmem
    | setCurrentColor c => exact keep hmem
    | setStrokeWidth w => exact keep hmem
    | mouseUp e =>
      rcases handleMouseUp_history (run s0 tr) e with ⟨h1, -⟩ | ⟨hd, ws, -, ha, h1, -⟩
      · exact keep (by rw [← h1]; exact hmem)
      · have hmem2 : entry ∈ (handleMouseUp (run s0 tr) e).history := hmem
        rw [h1] at hmem2
        unfold addToHistory at hmem2
        rcases List.mem_append.mp hmem2 with hin | hin
        · exact keep (jsSlice0_subset hin)
        · rw [List.mem_singleton] at hin
          exact ⟨tr, e, [], rfl, drawing_has_mouseDown s0 hidle tr hd, hd, by rw [ha, hin]⟩

end Gestures

/-! ## The admin routes -/

section Routes

variable {J : Type}

theorem findById_id {db : Db J} {id : String} {sub : Submission J}
    (h : findById db id = some sub) : sub._id = id := by
  unfold findById at h
  have := List.find?_some h
  simpa using this

theorem findById_cons (d : Submission J) (ds : Db J) (id : String) :
    findById (d :: ds) id = if d._id = id then some d else findById ds id := by
  unfold findById
  rw [List.find?_cons]
  by_cases h : d._id = id
  · have hb : (d._id == id) = true := by simp [h]
    rw [hb, if_pos h]
  · have hb : (d._id == id) = false := by simp [h]
    rw [hb, if_neg h]

theorem replaceDoc_cons (d : Submission J) (ds : Db J) (doc : Submission J) :
    replaceDoc (d :: ds) doc = (if d._id = doc._id then doc else d) :: replaceDoc ds doc := by
  unfold replaceDoc
  rw [List.map_cons]
  by_cases h : d._id = doc._id
  · simp [h]
  · simp [h]

theorem findById_replaceDoc (db : Db J) (id : String) (sub doc : Submission J)
    (h : findById db id = some sub) (hid : doc._id = id) :
    findById (replaceDoc db doc) id = some doc := by
  induction db with
  | nil => cases h
  | cons d ds ih =>
    rw [replaceDoc_cons, findById_cons]
    rw [findById_cons] at h
    by_cases hd : d._id = id
    · rw [if_pos (hd.trans hid.symm), if_pos hid]
    · rw [if_neg hd] at h
      rw [if_neg (fun hh : d._id = doc._id => hd (hh.trans hid)), if_neg hd]
      exact ih h

theorem findById_replaceDoc_other (db : Db J) (other : String) (doc : Submission J)
    (hne : other ≠ doc._id) :
    findById (replaceDoc db doc) other = findById db other := by
  induction db with
  | nil => rfl
  | cons d ds ih =>
    rw [replaceDoc_cons, findById_cons, findById_cons]
    by_cases hd : d._id = doc._id
    · rw [if_pos hd, if_neg (fun hh : doc._id = other => hne hh.symm),
        if_neg (fun hh : d._id = other => hne (hh.symm.trans hd))]
      exact ih
    · rw [if_neg hd, ih]

/-- When `generatePDF` rejects: exactly when the layout throws or the storage
step of the configured store fails. -/
theorem generatePDF_error_iff (env : Env J) (sub : Submission J) :
    (∃ err, generatePDF env sub = .error err) ↔
      ((∃ err, env.layout sub = .error err) ∨
        ∃ bytes err, env.layout sub = .ok bytes ∧
          ((env.isS3Configured = true ∧
              env.uploadBufferToS3 bytes
                ("reports/" ++ ("oral-health-report-" ++ sub.patientIdNumber ++ "-" ++
                  toString env.now ++ ".pdf")) "application/pdf" = .error err) ∨
            (env.isS3Configured = false ∧
              env.writeFileSync
                (pathJoin env.pdfsDir ("oral-health-report-" ++ sub.patientIdNumber ++ "-" ++
                  toString env.now ++ ".pdf")) bytes = .error err))) := by
  unfold generatePDF
  cases hl : env.layout sub with
  | error e => simp
  | ok bytes =>
    cases hs : env.isS3Configured with
    | true =>
      cases hu : env.uploadBufferToS3 bytes
          ("reports/" ++ ("oral-health-report-" ++ sub.patientIdNumber ++ "-" ++
            toString env.now ++ ".pdf")) "application/pdf" with
      | error e => simp [hu]
      | ok r => simp [hu]
    | false =>
      cases hw : env.writeFileSync
          (pathJoin env.pdfsDir ("oral-health-report-" ++ sub.patientIdNumber ++ "-" ++
            toString env.now ++ ".pdf")) bytes with
      | error e => simp [hw]
      | ok r => simp [hw]

theorem preSave_true (env : Env J) (doc : Submission J) :
    preSave env true doc = { doc with updatedAt := env.savedAt } := rfl

theorem preSave_false (env : Env J) (doc : Submission J) : preSave env false doc = doc := rfl

/-- The hook changes no path but `updatedAt`. -/
theorem preSave_eq (env : Env J) (modified : Bool) (doc : Submission J) :
    preSave env modified doc =
      { doc with updatedAt := (preSave env modified doc).updatedAt } := by
  cases modified <;> rfl

theorem preSave_id (env : Env J) (modified : Bool) (doc : Submission J) :
    (preSave env modified doc)._id = doc._id := by
  cases modified <;> rfl

/-- The outcome of generate-report for an annotated submission when `generatePDF`
succeeded and the save rejects. -/
theorem generateReport_save_error (env : Env J) (db : Db J) (id : String)
    (sub : Submission J) (info : PdfInfo) (e : String)
    (hfind : env.findError id = none) (hsub : findById db id = some sub)
    (hst : sub.status = Status.annotated) (hpdf : generatePDF env sub = .ok info)
    (hsv : env.saveError
      (preSave env true
        { sub with
          reportPath := some info.path
          reportUrl := some info.url
          status := Status.reported }) = some e) :
    generateReport env db id =
      { response := { status := 500, message := "Server error generating report" }
        db := db
        calls := [Call.generatePDF sub,
          Call.save
            (preSave env true
              { sub with
                reportPath := some info.path
                reportUrl := some info.url
                status := Status.reported })] } := by
  have hne : ¬ sub.status ≠ Status.annotated := fun h => h hst
  unfold generateReport
  simp only [hfind, hsub]
  rw [if_neg hne]
  simp only [hpdf, save, hsv]

/-- The outcome of generate-report for an annotated submission when `generatePDF`
and the save succeeded. -/
theorem generateReport_save_ok (env : Env J) (db : Db J) (id : String)
    (sub : Submission J) (info : PdfInfo)
    (hfind : env.findError id = none) (hsub : findById db id = some sub)
    (hst : sub.status = Status.annotated) (hpdf : generatePDF env sub = .ok info)
    (hsv : env.saveError
      (preSave env true
        { sub with
          reportPath := some info.path
          reportUrl := some info.url
          status := Status.reported }) = none) :
    generateReport env db id =
      { response :=
          { status := 200, message := "Report generated successfully"
            submission :=
              some { id := sub._id, status := Status.reported, reportUrl := some info.url } }
        db := replaceDoc db
          (preSave env true
            { sub with
              reportPath := some info.path
              reportUrl := some info.url
              status := Status.reported })
        calls := [Call.generatePDF sub,
          Call.save
            (preSave env true
              { sub with
                reportPath := some info.path
                reportUrl := some info.url
                status := Status.reported })] } := by
  have hne : ¬ sub.status ≠ Status.annotated := fun h => h hst
  unfold generateReport
  simp only [hfind, hsub]
  rw [if_neg hne]
  simp only [hpdf, save, hsv]

end Routes

section Claims

variable {R : Type}

/-- C1: for a history `(entries, cursor)` with `-1 ≤ cursor < length entries` and any
annotation set `s`, the history update at the end of `handleMouseUp` yields the
first `cursor + 1` entries followed by `s`, and the new cursor is the last index
of the new history, where `s` is stored. A pointer-up that ends a gesture in a
state with this history performs the update with the new working set. -/
theorem addToHistory_truncates_and_appends [Add R] [Sub R] [Mul R] [Div R] [JSMath R]
    (entries : List (List (Shape R))) (cursor : Int) (s : List (Shape R))
    (st : State R) (e : MouseEvent R) (ws : List (Shape R))
    (hlo : -1 ≤ cursor) (hhi : cursor < entries.length) :
    (addToHistory entries cursor s).1 = entries.take (cursor + 1).toNat ++ [s] ∧
    (addToHistory entries cursor s).2 = ((addToHistory entries cursor s).1.length : Int) - 1 ∧
    ((addToHistory entries cursor s).1.length : Int) = cursor + 2 ∧
    jsIndex (addToHistory entries cursor s).1 (addToHistory entries cursor s).2 = some s ∧
    (st.isDrawing = true → st.annotations = some ws →
      st.history = entries → st.historyIndex = cursor →
      (handleMouseUp st e).history =
        entries.take (cursor + 1).toNat ++ [ws ++ [ newAnnotation st (getMousePos e)]] ∧
      (handleMouseUp st e).historyIndex = ((handleMouseUp st e).history.length : Int) - 1) := by
  have h1 := addToHistory_fst entries cursor s hlo
  have h2 := addToHistory_snd entries cursor s hlo hhi
  have hlen : ((addToHistory entries cursor s).1.length : Int) = cursor + 2 := by
    rw [h1]
    simp only [List.length_append, List.length_take, List.length_singleton]
    omega
  refine ⟨h1, rfl, hlen, ?_, ?_⟩
  · rw [h2, h1, jsIndex_of_nonneg _ _ (by omega)]
    have hl : (entries.take (cursor + 1).toNat).length = (cursor + 1).toNat := by
      rw [List.length_take]
      omega
    rw [List.getElem?_append_right (by omega), hl]
    simp
  · intro hd ha hh hi
    obtain ⟨-, g2, g3, -⟩ := handleMouseUp_drawing st e ws hd ha
    rw [g2, g3, hh, hi]
    exact ⟨addToHistory_fst entries cursor _ hlo, rfl⟩

/-- Witness for C1: a pointer-up with the cursor on the first of three entries
drops the two entries after it. -/
theorem addToHistory_truncates_and_appends_witness :
    (-1 : Int) ≤ 0 ∧ (0 : Int) < (history3.length : Int) ∧
    (addToHistory history3 0 [rectA, circleC]).1 =
      history3.take ((0 : Int) + 1).toNat ++ [[rectA, circleC]] ∧
    (handleMouseUp (stateWith [rectA] history3 0 true) (pointerAt 10 10)).history =
      history3.take ((0 : Int) + 1).toNat ++
        [[rectA] ++ [ newAnnotation (stateWith [rectA] history3 0 true)
          (getMousePos (pointerAt 10 10))]] :=
  ⟨by decide, by decide,
    (addToHistory_truncates_and_appends history3 0 [rectA, circleC]
      (stateWith [rectA] history3 0 true) (pointerAt 10 10) [rectA]
      (by decide) (by decide)).1,
    ((addToHistory_truncates_and_appends history3 0 [rectA, circleC]
      (stateWith [rectA] history3 0 true) (pointerAt 10 10) [rectA]
      (by decide) (by decide)).2.2.2.2 rfl rfl rfl rfl).1⟩

/-- C2: `handleUndo` with the cursor at index 0 changes nothing; with the cursor
above 0 it decrements the cursor, makes the working set the entry now pointed to
(`entries[cursor - 1]`, an entry of the history when the cursor is within the
history) and leaves the history entries unchanged. -/
theorem handleUndo_boundary_and_step (s : State R) :
    (s.historyIndex = 0 → handleUndo s = s) ∧
    (0 < s.historyIndex →
      (handleUndo s).historyIndex = s.historyIndex - 1 ∧
      (handleUndo s).annotations = jsIndex s.history (s.historyIndex - 1) ∧
      (handleUndo s).history = s.history ∧
      (s.historyIndex < (s.history.length : Int) →
        ∃ a, (handleUndo s).annotations = some a ∧ a ∈ s.history)) := by
  constructor
  · intro h
    unfold handleUndo
    rw [if_neg (by omega)]
  · intro h
    have hu : handleUndo s =
        { s with
          historyIndex := s.historyIndex - 1
          annotations := jsIndex s.history (s.historyIndex - 1) } := by
      unfold handleUndo
      rw [if_pos h]
    refine ⟨by rw [hu], by rw [hu], by rw [hu], ?_⟩
    intro hlt
    obtain ⟨a, ha, hmem⟩ := jsIndex_isSome s.history (s.historyIndex - 1) (by omega) (by omega)
    exact ⟨a, by rw [hu]; exact ha, hmem⟩

/-- Witness for C2: undo at cursor 0 and at cursor 2 of a three-entry history. -/
theorem handleUndo_boundary_and_step_witness :
    handleUndo (stateWith [rectA] history3 0 false) = stateWith [rectA] history3 0 false ∧
    (handleUndo (stateWith [rectA, arrowB, circleC] history3 2 false)).historyIndex = 2 - 1 ∧
    (handleUndo (stateWith [rectA, arrowB, circleC] history3 2 false)).annotations =
      jsIndex history3 (2 - 1) ∧
    (handleUndo (stateWith [rectA, arrowB, circleC] history3 2 false)).history = history3 :=
  ⟨(handleUndo_boundary_and_step (stateWith [rectA] history3 0 false)).1 rfl,
    ((handleUndo_boundary_and_step
      (stateWith [rectA, arrowB, circleC] history3 2 false)).2 (by decide)).1,
    ((handleUndo_boundary_and_step
      (stateWith [rectA, arrowB, circleC] history3 2 false)).2 (by decide)).2.1,
    ((handleUndo_boundary_and_step
      (stateWith [rectA, arrowB, circleC] history3 2 false)).2 (by decide)).2.2.1⟩

/-- C3: for a well-formed history, `handleRedo` with the cursor at the last index
changes nothing; otherwise it increments the cursor, makes the working set the
entry `entries[cursor + 1]` and leaves the history entries unchanged. -/
theorem handleRedo_boundary_and_step (s : State R) :
    (s.historyIndex = (s.history.length : Int) - 1 → handleRedo s = s) ∧
    (HistoryOk s → s.historyIndex ≠ (s.history.length : Int) - 1 →
      (handleRedo s).historyIndex = s.historyIndex + 1 ∧
      (handleRedo s).annotations = jsIndex s.history (s.historyIndex + 1) ∧
      (handleRedo s).history = s.history ∧
      ∃ a, (handleRedo s).annotations = some a ∧ a ∈ s.history) := by
  constructor
  · intro h
    unfold handleRedo
    rw [if_neg (by omega)]
  · intro hok hne
    obtain ⟨hlo, hhi⟩ := hok
    have hlt : s.historyIndex < (s.history.length : Int) - 1 := by omega
    have hu : handleRedo s =
        { s with
          historyIndex := s.historyIndex + 1
          annotations := jsIndex s.history (s.historyIndex + 1) } := by
      unfold handleRedo
      rw [if_pos hlt]
    obtain ⟨a, ha, hmem⟩ := jsIndex_isSome s.history (s.historyIndex + 1) (by omega) (by omega)
    exact ⟨by rw [hu], by rw [hu], by rw [hu], a, by rw [hu]; exact ha, hmem⟩

/-- Witness for C3: redo at the last index and at cursor 0 of a three-entry
history. -/
theorem handleRedo_boundary_and_step_witness :
    handleRedo (stateWith [rectA, arrowB, circleC] history3 2 false) =
      stateWith [rectA, arrowB, circleC] history3 2 false ∧
    (handleRedo (stateWith [rectA] history3 0 false)).historyIndex = 0 + 1 ∧
    (handleRedo (stateWith [rectA] history3 0 false)).annotations = jsIndex history3 (0 + 1) ∧
    (handleRedo (stateWith [rectA] history3 0 false)).history = history3 :=
  ⟨(handleRedo_boundary_and_step (stateWith [rectA, arrowB, circleC] history3 2 false)).1 rfl,
    ((handleRedo_boundary_and_step (stateWith [rectA] history3 0 false)).2
      ⟨by decide, by decide⟩ (by decide)).1,
    ((handleRedo_boundary_and_step (stateWith [rectA] history3 0 false)).2
      ⟨by decide, by decide⟩ (by decide)).2.1,
    ((handleRedo_boundary_and_step (stateWith [rectA] history3 0 false)).2
      ⟨by decide, by decide⟩ (by decide)).2.2.1⟩

/-- C4: after any `N` completed gestures from the start of a session, `N` undos
followed by `N` redos give back exactly the state right after the `N`-th commit:
the same working annotation set, the cursor at the last history index and the
same history entries. The history then has `N` entries, the undos do not change
it, and for `N > 0` they bring the cursor down to index 0. -/
theorem undo_redo_roundtrip [Add R] [Sub R] [Mul R] [Div R] [JSMath R] [OfNat R 0] [OfNat R 2]
    (ad : Option (AnnotationData R)) (gs : List (Gesture R)) :
    handleRedo^[gs.length] (handleUndo^[gs.length] (runGestures (sessionStart ad) gs)) =
      runGestures (sessionStart ad) gs ∧
    (runGestures (sessionStart ad) gs).history.length = gs.length ∧
    (runGestures (sessionStart ad) gs).historyIndex = (gs.length : Int) - 1 ∧
    (handleUndo^[gs.length] (runGestures (sessionStart ad) gs)).history =
      (runGestures (sessionStart ad) gs).history ∧
    (handleUndo^[gs.length] (runGestures (sessionStart ad) gs)).historyIndex =
      (if gs.length = 0 then -1 else 0) := by
  obtain ⟨f1, f2, f3, -⟩ := sessionStart_facts ad
  obtain ⟨t1, t2, -, t4⟩ := runGestures_tip gs (sessionStart ad) (by rw [f1, f2]; rfl) f3
  rw [f1] at t1
  simp only [List.length_nil, Nat.zero_add] at t1
  have hidx : (runGestures (sessionStart ad) gs).historyIndex = (gs.length : Int) - 1 := by
    rw [t2, t1]
  refine ⟨redo_undo_cancel _ _ t2 (fun h => t4 (by omega)), t1, hidx, ?_, ?_⟩
  · rw [undo_iterate]
    split_ifs <;> rfl
  · rw [undo_iterate]
    by_cases h0 : gs.length = 0
    · rw [if_pos (Or.inl h0), if_pos h0, hidx, h0]
      rfl
    · rw [if_neg h0]
      by_cases h1 : (runGestures (sessionStart ad) gs).historyIndex ≤ 0
      · rw [if_pos (Or.inr h1)]
        omega
      · rw [if_neg (by omega)]
        show max _ _ = _
        omega

/-- C5: from a history of `n` entries with the cursor at the last index, `k` undos
(`k ≤ n - 1`) followed by one commit leave exactly `n - k + 1` entries, the first
`n - k` original entries followed by the committed set, with the cursor at the
last index; a completed gesture after the undos commits in this way. -/
theorem commit_after_undo_truncates [Add R] [Sub R] [Mul R] [Div R] [JSMath R]
    (s : State R) (n k : Nat) (set ws : List (Shape R)) (g : Gesture R)
    (hn : s.history.length = n) (hlast : s.historyIndex = (n : Int) - 1) (hk : k + 1 ≤ n) :
    (addToHistory (handleUndo^[k] s).history (handleUndo^[k] s).historyIndex set).1 =
      s.history.take (n - k) ++ [set] ∧
    (addToHistory (handleUndo^[k] s).history (handleUndo^[k] s).historyIndex set).1.length =
      n - k + 1 ∧
    (addToHistory (handleUndo^[k] s).history (handleUndo^[k] s).historyIndex set).2 =
      ((n - k : Nat) : Int) ∧
    (s.annotations = some ws →
      (runGesture (handleUndo^[k] s) g).history.length = n - k + 1 ∧
      (runGesture (handleUndo^[k] s) g).history.take (n - k) = s.history.take (n - k) ∧
      (runGesture (handleUndo^[k] s) g).historyIndex = ((n - k : Nat) : Int) ∧
      (runGesture (handleUndo^[k] s) g).annotations =
        (runGesture (handleUndo^[k] s) g).history.getLast?) := by
  have hh : (handleUndo^[k] s).history = s.history := by
    rw [undo_iterate]
    split_ifs <;> rfl
  have hi : (handleUndo^[k] s).historyIndex = (n : Int) - 1 - k := by
    rw [undo_iterate]
    split_ifs with hc
    · omega
    · show max _ _ = _
      omega
  have hann : s.annotations = some ws → ∃ a, (handleUndo^[k] s).annotations = some a := by
    intro hws
    rw [undo_iterate]
    split_ifs with hc
    · exact ⟨ws, hws⟩
    · obtain ⟨a, ha, -⟩ := jsIndex_isSome s.history (max (s.historyIndex - (k : Int)) 0)
        (by omega) (by omega)
      exact ⟨a, ha⟩
  have hok : HistoryOk (handleUndo^[k] s) := by
    unfold HistoryOk
    rw [hi, hh, hn]
    omega
  have htk : ((handleUndo^[k] s).historyIndex + 1).toNat = n - k := by
    rw [hi]
    omega
  have hlen : (s.history.take (n - k)).length = n - k := by
    rw [List.length_take, hn]
    omega
  have h1 := addToHistory_fst (handleUndo^[k] s).history (handleUndo^[k] s).historyIndex set
    hok.1
  have h2 := addToHistory_snd (handleUndo^[k] s).history (handleUndo^[k] s).historyIndex set
    hok.1 hok.2
  rw [htk] at h1
  replace h1 : (addToHistory (handleUndo^[k] s).history (handleUndo^[k] s).historyIndex set).1 =
      s.history.take (n - k) ++ [set] := by rw [h1, hh]
  refine ⟨h1, ?_, ?_, ?_⟩
  · rw [h1, List.length_append, hlen, List.length_singleton]
  · rw [h2, hi]
    omega
  · intro hws
    obtain ⟨a, ha⟩ := hann hws
    obtain ⟨shape, g1, g2, g3, -⟩ := runGesture_commits (handleUndo^[k] s) g a ha hok
    rw [htk, hh] at g2
    refine ⟨?_, ?_, ?_, ?_⟩
    · rw [g2, List.length_append, hlen, List.length_singleton]
    · rw [g2, List.take_append_of_le_length (by omega), List.take_take]
      simp
    · rw [g3, hi]
      omega
    · rw [g1, g2]
      simp

/-- Witness for C5: committing after undoing twice from a five-entry history
leaves a four-entry history, three prior entries and the new one. -/
theorem commit_after_undo_truncates_witness :
    history5.length = 5 ∧ (4 : Int) = ((5 : Nat) : Int) - 1 ∧ 2 + 1 ≤ 5 ∧
    (addToHistory (handleUndo^[2] (stateWith [rectA] history5 4 false)).history
      (handleUndo^[2] (stateWith [rectA] history5 4 false)).historyIndex [rectA, rectA]).1 =
      history5.take (5 - 2) ++ [[rectA, rectA]] ∧
    (addToHistory (handleUndo^[2] (stateWith [rectA] history5 4 false)).history
      (handleUndo^[2] (stateWith [rectA] history5 4 false)).historyIndex
      [rectA, rectA]).1.length = 5 - 2 + 1 ∧
    (runGesture (handleUndo^[2] (stateWith [rectA] history5 4 false))
      circleGesture).history.length = 5 - 2 + 1 :=
  ⟨rfl, rfl, by decide,
    (commit_after_undo_truncates (stateWith [rectA] history5 4 false) 5 2 [rectA, rectA] [rectA]
      circleGesture rfl rfl (by decide)).1,
    (commit_after_undo_truncates (stateWith [rectA] history5 4 false) 5 2 [rectA, rectA] [rectA]
      circleGesture rfl rfl (by decide)).2.1,
    ((commit_after_undo_truncates (stateWith [rectA] history5 4 false) 5 2 [rectA, rectA] [rectA]
      circleGesture rfl rfl (by decide)).2.2.2 rfl).1⟩

/-- C6: in every state reached from the start of a session, every history entry
is a set committed by a pointer-up that ended a gesture (begun by a pointer-down)
of the trace, with the working set that pointer-up installed; the working
set installed by a successful undo or redo is such an entry; and a pointer-move
changes neither the history entries nor the cursor, in any state. -/
theorem undo_redo_install_committed_sets [Add R] [Sub R] [Mul R] [Div R] [JSMath R]
    [OfNat R 0] [OfNat R 2]
    (ad : Option (AnnotationData R)) (tr : List (Event R)) (st : State R) (e : MouseEvent R) :
    (∀ entry ∈ (run (sessionStart ad) tr).history, CommittedIn (sessionStart ad) tr entry) ∧
    (0 < (run (sessionStart ad) tr).historyIndex →
      ∃ a, (handleUndo (run (sessionStart ad) tr)).annotations = some a ∧
        a ∈ (run (sessionStart ad) tr).history ∧ CommittedIn (sessionStart ad) tr a) ∧
    ((run (sessionStart ad) tr).historyIndex <
        ((run (sessionStart ad) tr).history.length : Int) - 1 →
      ∃ a, (handleRedo (run (sessionStart ad) tr)).annotations = some a ∧
        a ∈ (run (sessionStart ad) tr).history ∧ CommittedIn (sessionStart ad) tr a) ∧
    (handleMouseMove st e).history = st.history ∧
    (handleMouseMove st e).historyIndex = st.historyIndex := by
  obtain ⟨f1, f2, -, f4⟩ := sessionStart_facts ad
  have hall := history_committedIn (sessionStart ad) f1 f4 tr
  have hok : HistoryOk (run (sessionStart ad) tr) :=
    run_historyOk tr (sessionStart ad) ⟨by rw [f2], by rw [f1, f2]; simp⟩
  obtain ⟨hlo, hhi⟩ := hok
  refine ⟨hall, ?_, ?_, (handleMouseMove_frame st e).1, (handleMouseMove_frame st e).2.1⟩
  · intro hpos
    obtain ⟨a, ha, hmem⟩ := jsIndex_isSome (run (sessionStart ad) tr).history
      ((run (sessionStart ad) tr).historyIndex - 1) (by omega) (by omega)
    refine ⟨a, ?_, hmem, hall a hmem⟩
    rw [handleUndo_eq, if_pos hpos]
    exact ha
  · intro hlt
    obtain ⟨a, ha, hmem⟩ := jsIndex_isSome (run (sessionStart ad) tr).history
      ((run (sessionStart ad) tr).historyIndex + 1) (by omega) (by omega)
    refine ⟨a, ?_, hmem, hall a hmem⟩
    rw [handleRedo_eq, if_pos hlt]
    exact ha

/-- Witness for C6: after two completed gestures the cursor is at index 1, an undo
succeeds, and the set it installs was committed during the trace. -/
theorem undo_redo_install_committed_sets_witness :
    0 < (run (sessionStart (none : Option (AnnotationData ℚ))) twoGestures).historyIndex ∧
    ∃ a, (handleUndo (run (sessionStart (none : Option (AnnotationData ℚ)))
        twoGestures)).annotations = some a ∧
      a ∈ (run (sessionStart (none : Option (AnnotationData ℚ))) twoGestures).history ∧
      CommittedIn (sessionStart (none : Option (AnnotationData ℚ))) twoGestures a :=
  ⟨by decide,
    (undo_redo_install_committed_sets (none : Option (AnnotationData ℚ)) twoGestures
      (stateWith [] [] (-1) false) (pointerAt 0 0)).2.1 (by decide)⟩

/-- C7: for an existing submission whose status is not `annotated`, generate-report
answers 400, makes no call to the PDF generator (nor to the store) and leaves the
store, hence the submission's status, reportPath and reportUrl, unchanged. -/
theorem generateReport_rejects_unless_annotated {J : Type} (env : Env J) (db : Db J)
    (id : String) (sub : Submission J)
    (hfind : env.findError id = none) (hsub : findById db id = some sub)
    (hst : sub.status ≠ Status.annotated) :
    (generateReport env db id).response.status = 400 ∧
    (generateReport env db id).response.message =
      "Submission must be annotated before generating report" ∧
    (generateReport env db id).calls = [] ∧
    (generateReport env db id).db = db ∧
    findById (generateReport env db id).db id = some sub := by
  have h : generateReport env db id =
      { response :=
          { status := 400, message := "Submission must be annotated before generating report" }
        db := db, calls := [] } := by
    unfold generateReport
    simp only [hfind, hsub]
    rw [if_pos hst]
  rw [h]
  exact ⟨rfl, rfl, rfl, rfl, hsub⟩

/-- Witness for C7: generate-report on the uploaded submission of the sample
store. -/
theorem generateReport_rejects_unless_annotated_witness :
    localEnv.findError "s1" = none ∧ findById sampleDb "s1" = some uploadedSubmission ∧
    uploadedSubmission.status ≠ Status.annotated ∧
    (generateReport localEnv sampleDb "s1").response.status = 400 ∧
    (generateReport localEnv sampleDb "s1").calls = [] ∧
    (generateReport localEnv sampleDb "s1").db = sampleDb :=
  ⟨rfl, rfl, by decide,
    (generateReport_rejects_unless_annotated localEnv sampleDb "s1" uploadedSubmission
      rfl rfl (by decide)).1,
    (generateReport_rejects_unless_annotated localEnv sampleDb "s1" uploadedSubmission
      rfl rfl (by decide)).2.2.1,
    (generateReport_rejects_unless_annotated localEnv sampleDb "s1" uploadedSubmission
      rfl rfl (by decide)).2.2.2.1⟩

/-- C8: for an annotated submission, when `generatePDF` rejects (the layout throws
or storing the document fails) generate-report answers with an error, never calls
`save`, and the store keeps the submission as it was, with status `annotated` and
its previous reportPath and reportUrl. The stored status becomes `reported` only
when `generatePDF` has returned successfully. -/
theorem generateReport_failure_keeps_status {J : Type} (env : Env J) (db : Db J)
    (id : String) (sub d : Submission J) (err : String)
    (hfind : env.findError id = none) (hsub : findById db id = some sub)
    (hst : sub.status = Status.annotated) :
    (generatePDF env sub = .error err →
      (generateReport env db id).response.status = 500 ∧
      (generateReport env db id).calls = [Call.generatePDF sub] ∧
      (generateReport env db id).db = db ∧
      findById (generateReport env db id).db id = some sub) ∧
    (findById (generateReport env db id).db id = some d → d.status = Status.reported →
      ∃ info, generatePDF env sub = .ok info ∧
        (generateReport env db id).calls = [Call.generatePDF sub, Call.save d]) ∧
    ((∃ e, generatePDF env sub = .error e) ↔
      ((∃ e, env.layout sub = .error e) ∨
        ∃ bytes e, env.layout sub = .ok bytes ∧
          ((env.isS3Configured = true ∧
              env.uploadBufferToS3 bytes
                ("reports/" ++ ("oral-health-report-" ++ sub.patientIdNumber ++ "-" ++
                  toString env.now ++ ".pdf")) "application/pdf" = .error e) ∨
            (env.isS3Configured = false ∧
              env.writeFileSync
                (pathJoin env.pdfsDir ("oral-health-report-" ++ sub.patientIdNumber ++ "-" ++
                  toString env.now ++ ".pdf")) bytes = .error e)))) := by
  have hne : ¬ sub.status ≠ Status.annotated := fun h => h hst
  have hid : sub._id = id := findById_id hsub
  refine ⟨?_, ?_, generatePDF_error_iff env sub⟩
  · intro hpdf
    have h : generateReport env db id =
        { response := { status := 500, message := "Server error generating report" }
          db := db, calls := [Call.generatePDF sub] } := by
      unfold generateReport
      simp only [hfind, hsub]
      rw [if_neg hne]
      simp only [hpdf]
    rw [h]
    exact ⟨rfl, rfl, rfl, hsub⟩
  · intro hd hrep
    cases hpdf : generatePDF env sub with
    | error e =>
      have h : (generateReport env db id).db = db := by
        unfold generateReport
        simp only [hfind, hsub]
        rw [if_neg hne]
        simp only [hpdf]
      rw [h, hsub] at hd
      cases hd
      rw [hst] at hrep
      cases hrep
    | ok info =>
      refine ⟨info, rfl, ?_⟩
      cases hsv : env.saveError
          (preSave env true
            { sub with
              reportPath := some info.path
              reportUrl := some info.url
              status := Status.reported }) with
      | some e =>
        rw [generateReport_save_error env db id sub info e hfind hsub hst hpdf hsv] at hd
        have hd2 : findById db id = some d := hd
        rw [hsub] at hd2
        cases hd2
        rw [hst] at hrep
        cases hrep
      | none =>
        rw [generateReport_save_ok env db id sub info hfind hsub hst hpdf hsv] at hd ⊢
        have hfound := findById_replaceDoc db id sub
          (preSave env true
            { sub with
              reportPath := some info.path
              reportUrl := some info.url
              status := Status.reported }) hsub hid
        have hd2 : findById (replaceDoc db
          (preSave env true
            { sub with
              reportPath := some info.path
              reportUrl := some info.url
              status := Status.reported })) id = some d := hd
        rw [hfound] at hd2
        cases hd2
        rfl

/-- Witness for C8: the disk refuses the write of the report of the annotated
sample submission. -/
theorem generateReport_failure_keeps_status_witness :
    readOnlyDiskEnv.findError "s2" = none ∧
    findById sampleDb "s2" = some annotatedSubmission ∧
    annotatedSubmission.status = Status.annotated ∧
    generatePDF readOnlyDiskEnv annotatedSubmission = .error "EACCES: permission denied" ∧
    (generateReport readOnlyDiskEnv sampleDb "s2").response.status = 500 ∧
    (generateReport readOnlyDiskEnv sampleDb "s2").calls =
      [Call.generatePDF annotatedSubmission] ∧
    (generateReport readOnlyDiskEnv sampleDb "s2").db = sampleDb ∧
    findById (generateReport readOnlyDiskEnv sampleDb "s2").db "s2" = some annotatedSubmission :=
  ⟨rfl, rfl, rfl, rfl,
    (generateReport_failure_keeps_status readOnlyDiskEnv sampleDb "s2" annotatedSubmission
      annotatedSubmission "EACCES: permission denied" rfl rfl rfl).1 rfl⟩

/-- Counterexample to C9 as stated: a successful generate-report for the annotated
sample submission changes a field besides status, reportPath and reportUrl: the
stored `updatedAt` was 1690000000000 and is the time of the save afterwards. -/
theorem generateReport_rewrites_updatedAt :
    (findById sampleDb "s2").map Submission.updatedAt = some 1690000000000 ∧
    (generateReport localEnv sampleDb "s2").response.status = 200 ∧
    (findById (generateReport localEnv sampleDb "s2").db "s2").map Submission.updatedAt =
      some 1700000000250 :=
  ⟨rfl, rfl, rfl⟩

/-- C9 (amended): for an annotated submission, when `generatePDF` succeeds with
`info` and the save succeeds, generate-report answers 200 and the stored
submission is the previous one with status `reported`, reportPath `info.path`,
reportUrl `info.url` and `updatedAt` the time of the save; every other field
(annotationData, adminNotes, the image locators, the patient and review fields,
`createdAt`) is as before, and no other stored submission changes. -/
theorem generateReport_success_sets_report_fields {J : Type} (env : Env J) (db : Db J)
    (id other : String) (sub : Submission J) (info : PdfInfo)
    (hfind : env.findError id = none) (hsub : findById db id = some sub)
    (hst : sub.status = Status.annotated) (hpdf : generatePDF env sub = .ok info)
    (hsave : env.saveError
      { sub with
        reportPath := some info.path
        reportUrl := some info.url
        status := Status.reported
        updatedAt := env.savedAt } = none) :
    (generateReport env db id).response.status = 200 ∧
    findById (generateReport env db id).db id =
      some { sub with
             reportPath := some info.path
             reportUrl := some info.url
             status := Status.reported
             updatedAt := env.savedAt } ∧
    (∃ d, findById (generateReport env db id).db id = some d ∧
      d.status = Status.reported ∧ d.reportPath = some info.path ∧
      d.reportUrl = some info.url ∧ d.updatedAt = env.savedAt ∧
      d.annotationData = sub.annotationData ∧ d.adminNotes = sub.adminNotes ∧
      d.originalImageUrl = sub.originalImageUrl ∧
      d.originalImagePath = sub.originalImagePath ∧
      d.annotatedImageUrl = sub.annotatedImageUrl ∧
      d.annotatedImagePath = sub.annotatedImagePath ∧
      d.patientId = sub.patientId ∧ d.patientName = sub.patientName ∧
      d.patientIdNumber = sub.patientIdNumber ∧ d.email = sub.email ∧ d.note = sub.note ∧
      d.reviewedBy = sub.reviewedBy ∧ d.reviewedAt = sub.reviewedAt ∧
      d.createdAt = sub.createdAt ∧ d._id = sub._id) ∧
    (generateReport env db id).calls =
      [Call.generatePDF sub,
        Call.save { sub with
                    reportPath := some info.path
                    reportUrl := some info.url
                    status := Status.reported
                    updatedAt := env.savedAt }] ∧
    (other ≠ id → findById (generateReport env db id).db other = findById db other) := by
  have hid : sub._id = id := findById_id hsub
  have h := generateReport_save_ok env db id sub info hfind hsub hst hpdf hsave
  rw [h]
  have hfound := findById_replaceDoc db id sub
    (preSave env true
      { sub with
        reportPath := some info.path
        reportUrl := some info.url
        status := Status.reported }) hsub hid
  refine ⟨rfl, hfound, ⟨_, hfound, rfl, rfl, rfl, rfl, rfl, rfl, rfl, rfl, rfl, rfl, rfl, rfl,
    rfl, rfl, rfl, rfl, rfl, rfl, rfl⟩, rfl, fun ho => ?_⟩
  exact findById_replaceDoc_other db other _ (by
    show other ≠ sub._id
    rw [hid]
    exact ho)

/-- Witness for C9 (amended): a report for the annotated sample submission on the
local store. -/
theorem generateReport_success_sets_report_fields_witness :
    localEnv.findError "s2" = none ∧ findById sampleDb "s2" = some annotatedSubmission ∧
    annotatedSubmission.status = Status.annotated ∧
    generatePDF localEnv annotatedSubmission =
      .ok { path := "/srv/uploads/pdfs/oral-health-report-P-001-1700000000000.pdf"
            url := "/uploads/pdfs/oral-health-report-P-001-1700000000000.pdf"
            key := none } ∧
    (generateReport localEnv sampleDb "s2").response.status = 200 ∧
    findById (generateReport localEnv sampleDb "s2").db "s2" =
      some { annotatedSubmission with
             reportPath := some "/srv/uploads/pdfs/oral-health-report-P-001-1700000000000.pdf"
             reportUrl := some "/uploads/pdfs/oral-health-report-P-001-1700000000000.pdf"
             status := Status.reported
             updatedAt := 1700000000250 } :=
  ⟨rfl, rfl, rfl, rfl,
    (generateReport_success_sets_report_fields localEnv sampleDb "s2" "s1" annotatedSubmission
      { path := "/srv/uploads/pdfs/oral-health-report-P-001-1700000000000.pdf"
        url := "/uploads/pdfs/oral-health-report-P-001-1700000000000.pdf"
        key := none } rfl rfl rfl rfl rfl).1,
    (generateReport_success_sets_report_fields localEnv sampleDb "s2" "s1" annotatedSubmission
      { path := "/srv/uploads/pdfs/oral-health-report-P-001-1700000000000.pdf"
        url := "/uploads/pdfs/oral-health-report-P-001-1700000000000.pdf"
        key := none } rfl rfl rfl rfl rfl).2.1⟩

/-- Counterexample to C10 as stated: annotate with the notes `"  new notes \n"`
stores `"new notes"`, not the supplied string: the schema trims `adminNotes`. -/
theorem annotate_trims_adminNotes :
    (annotate localEnv sampleDb "s2"
      { annotationData := some "new annotations", adminNotes := some "  new notes \n" }
      "admin2").response.status = 200 ∧
    (findById (annotate localEnv sampleDb "s2"
      { annotationData := some "new annotations", adminNotes := some "  new notes \n" }
      "admin2").db "s2").map Submission.adminNotes = some (some "new notes") ∧
    (some "new notes" : Option String) ≠ some "  new notes \n" :=
  ⟨rfl, rfl, by decide⟩

/-- The locators `saveAnnotatedImage` returns: the path is the path of the original
image; no image is rendered. -/
theorem saveAnnotatedImage_path {J : Type} (env : Env J) (originalImagePath : String)
    (annotationData : Option J) (submissionId : String) (info : AnnotatedImageInfo)
    (h : saveAnnotatedImage env originalImagePath annotationData submissionId = .ok info) :
    info.path = originalImagePath := by
  unfold saveAnnotatedImage at h
  cases annotationData with
  | none => cases h
  | some data =>
    dsimp only at h
    split at h
    · split at h
      · cases h
      · cases h
        rfl
    · split at h
      · cases h
      · cases h
        rfl

/-- C10 (amended): for an existing submission in any status and any request,
annotate hands to `save` a document whose annotationData is exactly the supplied
value, whose adminNotes are the supplied notes without leading and trailing white
space (the schema trims them) and whose status is `annotated`. When
`saveAnnotatedImage` fails that document is the found one with only these
fields, the review fields and possibly `updatedAt` changed; when it succeeds
the annotated-image path is the path of the original image. When the save
succeeds the route answers 200 and the stored submission is that document. -/
theorem annotate_replaces_annotation_data {J : Type} [DecidableEq J] (env : Env J) (db : Db J)
    (id : String) (body : AnnotateBody J) (userId : String) (sub : Submission J)
    (hfind : env.findError id = none) (hsub : findById db id = some sub) :
    ∃ d : Submission J,
      (annotate env db id body userId).calls =
        [Call.saveAnnotatedImage sub.originalImagePath body.annotationData sub._id,
          Call.save d] ∧
      d.annotationData = body.annotationData ∧
      d.adminNotes = body.adminNotes.map jsTrim ∧
      d.status = Status.annotated ∧
      d.reviewedBy = some userId ∧ d.reviewedAt = some env.now ∧
      ((∃ err, saveAnnotatedImage env sub.originalImagePath body.annotationData sub._id =
          .error err) →
        d = { sub with
              annotationData := body.annotationData
              adminNotes := body.adminNotes.map jsTrim
              status := Status.annotated
              reviewedBy := some userId
              reviewedAt := some env.now
              updatedAt := d.updatedAt }) ∧
      ((∃ info, saveAnnotatedImage env sub.originalImagePath body.annotationData sub._id =
          .ok info) →
        d.annotatedImagePath = some sub.originalImagePath) ∧
      (d.updatedAt = env.savedAt ∨ d = sub) ∧
      (env.saveError d = none →
        (annotate env db id body userId).response.status = 200 ∧
        findById (annotate env db id body userId).db id = some d) := by
  have hid : sub._id = id := findById_id hsub
  cases himg : saveAnnotatedImage env sub.originalImagePath body.annotationData sub._id with
  | error e =>
    refine ⟨preSave env
        (decide (({ sub with
          annotationData := body.annotationData
          adminNotes := body.adminNotes.map jsTrim
          status := Status.annotated
          reviewedBy := some userId
          reviewedAt := some env.now } : Submission J) ≠ sub))
        { sub with
          annotationData := body.annotationData
          adminNotes := body.adminNotes.map jsTrim
          status := Status.annotated
          reviewedBy := some userId
          reviewedAt := some env.now }, ?_, ?_, ?_, ?_, ?_, ?_, ?_, ?_, ?_, ?_⟩
    · unfold annotate
      simp only [hfind, hsub, himg, save]
      split <;> rfl
    · rw [preSave_eq]
    · rw [preSave_eq]
    · rw [preSave_eq]
    · rw [preSave_eq]
    · rw [preSave_eq]
    · intro _
      exact preSave_eq env _ _
    · rintro ⟨info, h⟩
      cases h
    · by_cases hm : ({ sub with
          annotationData := body.annotationData
          adminNotes := body.adminNotes.map jsTrim
          status := Status.annotated
          reviewedBy := some userId
          reviewedAt := some env.now } : Submission J) = sub
      · right
        rw [show decide (({ sub with
          annotationData := body.annotationData
          adminNotes := body.adminNotes.map jsTrim
          status := Status.annotated
          reviewedBy := some userId
          reviewedAt := some env.now } : Submission J) ≠ sub) = false from
          decide_eq_false (fun h => h hm)]
        exact hm
      · left
        rw [show decide (({ sub with
          annotationData := body.annotationData
          adminNotes := body.adminNotes.map jsTrim
          status := Status.annotated
          reviewedBy := some userId
          reviewedAt := some env.now } : Submission J) ≠ sub) = true from
          decide_eq_true hm]
        rfl
    · intro hsv
      unfold annotate
      simp only [hfind, hsub, himg, save, hsv]
      refine ⟨trivial, findById_replaceDoc db id sub _ hsub ?_⟩
      rw [preSave_id]
      exact hid
  | ok info =>
    have hpath := saveAnnotatedImage_path env _ _ _ info himg
    refine ⟨preSave env
        (decide (({ sub with
          annotationData := body.annotationData
          adminNotes := body.adminNotes.map jsTrim
          status := Status.annotated
          reviewedBy := some userId
          reviewedAt := some env.now
          annotatedImagePath := some info.path
          annotatedImageUrl := some info.url } : Submission J) ≠ sub))
        { sub with
          annotationData := body.annotationData
          adminNotes := body.adminNotes.map jsTrim
          status := Status.annotated
          reviewedBy := some userId
          reviewedAt := some env.now
          annotatedImagePath := some info.path
          annotatedImageUrl := some info.url }, ?_, ?_, ?_, ?_, ?_, ?_, ?_, ?_, ?_, ?_⟩
    · unfold annotate
      simp only [hfind, hsub, himg, save]
      split <;> rfl
    · rw [preSave_eq]
    · rw [preSave_eq]
    · rw [preSave_eq]
    · rw [preSave_eq]
    · rw [preSave_eq]
    · rintro ⟨err, h⟩
      cases h
    · intro _
      rw [preSave_eq]
      show some info.path = some sub.originalImagePath
      rw [hpath]
    · by_cases hm : ({ sub with
          annotationData := body.annotationData
          adminNotes := body.adminNotes.map jsTrim
          status := Status.annotated
          reviewedBy := some userId
          reviewedAt := some env.now
          annotatedImagePath := some info.path
          annotatedImageUrl := some info.url } : Submission J) = sub
      · right
        rw [show decide (({ sub with
          annotationData := body.annotationData
          adminNotes := body.adminNotes.map jsTrim
          status := Status.annotated
          reviewedBy := some userId
          reviewedAt := some env.now
          annotatedImagePath := some info.path
          annotatedImageUrl := some info.url } : Submission J) ≠ sub) = false from
          decide_eq_false (fun h => h hm)]
        exact hm
      · left
        rw [show decide (({ sub with
          annotationData := body.annotationData
          adminNotes := body.adminNotes.map jsTrim
          status := Status.annotated
          reviewedBy := some userId
          reviewedAt := some env.now
          annotatedImagePath := some info.path
          annotatedImageUrl := some info.url } : Submission J) ≠ sub) = true from
          decide_eq_true hm]
        rfl
    · intro hsv
      unfold annotate
      simp only [hfind, hsub, himg, save, hsv]
      refine ⟨trivial, findById_replaceDoc db id sub _ hsub ?_⟩
      rw [preSave_id]
      exact hid

/-- Witness for C10 (amended): annotating the already annotated sample submission
with padded notes while the disk refuses the annotation file; the new data
replace the old ones and the notes are stored trimmed. -/
theorem annotate_replaces_annotation_data_witness :
    readOnlyDiskEnv.findError "s2" = none ∧
    findById sampleDb "s2" = some annotatedSubmission ∧
    saveAnnotatedImage readOnlyDiskEnv annotatedSubmission.originalImagePath
      (some "new annotations") annotatedSubmission._id = .error "EACCES: permission denied" ∧
    ∃ d : Submission String,
      d.annotationData = some "new annotations" ∧
      d.adminNotes = some "new notes" ∧
      d.status = Status.annotated ∧
      (readOnlyDiskEnv.saveError d = none →
        (annotate readOnlyDiskEnv sampleDb "s2"
          { annotationData := some "new annotations", adminNotes := some "  new notes \n" }
          "admin2").response.status = 200 ∧
        findById (annotate readOnlyDiskEnv sampleDb "s2"
          { annotationData := some "new annotations", adminNotes := some "  new notes \n" }
          "admin2").db "s2" = some d) :=
  ⟨rfl, rfl, rfl,
    match annotate_replaces_annotation_data readOnlyDiskEnv sampleDb "s2"
      { annotationData := some "new annotations", adminNotes := some "  new notes \n" }
      "admin2" annotatedSubmission rfl rfl with
    | ⟨d, _, h2, h3, h4, _, _, _, _, _, h10⟩ => ⟨d, h2, h3, h4, h10⟩⟩

end Claims

/-! ## The offline renderer never throws -/

section Render

variable {R : Type} [Add R] [Sub R] [Mul R] [Div R] [NatCast R] [DecidableEq R] [JSMath R]
  [JSTrig R]

theorem renderAnnotationsOnImage_ok (env : CanvasEnv R) (imageBuffer : Bytes)
    (annotationData : Option (AnnotationData R)) :
    ∃ buffer, renderAnnotationsOnImage env imageBuffer annotationData = .ok buffer := by
  unfold renderAnnotationsOnImage
  cases renderAnnotationsTry env imageBuffer annotationData with
  | ok b => exact ⟨b, rfl⟩
  | error e => exact ⟨imageBuffer, rfl⟩

theorem renderAnnotationsOnImage_of_try_error (env : CanvasEnv R) (imageBuffer : Bytes)
    (annotationData : Option (AnnotationData R)) (err : String)
    (h : renderAnnotationsTry env imageBuffer annotationData = .error err) :
    renderAnnotationsOnImage env imageBuffer annotationData = .ok imageBuffer := by
  unfold renderAnnotationsOnImage
  rw [h]

theorem renderAnnotationsOnImage_of_try_ok (env : CanvasEnv R) (imageBuffer : Bytes)
    (annotationData : Option (AnnotationData R))
    (h : renderAnnotationsTry env imageBuffer annotationData = .ok imageBuffer) :
    renderAnnotationsOnImage env imageBuffer annotationData = .ok imageBuffer := by
  unfold renderAnnotationsOnImage
  rw [h]

/-- With nothing to draw the `try` block returns the buffer before decoding. -/
theorem renderAnnotationsTry_nothing (env : CanvasEnv R) (imageBuffer : Bytes)
    (annotationData : Option (AnnotationData R))
    (h : annotationData = none ∨
      ∃ data, annotationData = some data ∧
        (data.annotations = none ∨ data.annotations = some [])) :
    renderAnnotationsTry env imageBuffer annotationData = .ok imageBuffer := by
  unfold renderAnnotationsTry
  rcases h with h | ⟨data, h, h2 | h2⟩
  · rw [h]
  · rw [h]
    simp only [h2]
  · rw [h]
    simp only [h2, List.length_nil, if_true]

/-- An undecodable image makes the renderer return the buffer. -/
theorem renderAnnotationsOnImage_load_error (env : CanvasEnv R) (imageBuffer : Bytes)
    (annotationData : Option (AnnotationData R)) (err : String)
    (h : env.loadImage imageBuffer = .error err) :
    renderAnnotationsOnImage env imageBuffer annotationData = .ok imageBuffer := by
  cases annotationData with
  | none => exact renderAnnotationsOnImage_of_try_ok env imageBuffer none rfl
  | some data =>
    cases ha : data.annotations with
    | none =>
      exact renderAnnotationsOnImage_of_try_ok env imageBuffer _
        (renderAnnotationsTry_nothing env imageBuffer _ (Or.inr ⟨data, rfl, Or.inl ha⟩))
    | some annotations =>
      by_cases hl : annotations.length = 0
      · have hnil : annotations = [] := List.length_eq_zero.mp hl
        exact renderAnnotationsOnImage_of_try_ok env imageBuffer _
          (renderAnnotationsTry_nothing env imageBuffer _
            (Or.inr ⟨data, rfl, Or.inr (by rw [ha, hnil])⟩))
      · refine renderAnnotationsOnImage_of_try_error env imageBuffer _ err ?_
        unfold renderAnnotationsTry
        simp only [ha, hl, if_false, h]

/-- A drawing call that throws, or an encoding that fails, makes the renderer
return the buffer. -/
theorem renderAnnotationsOnImage_draw_error (env : CanvasEnv R) (imageBuffer : Bytes)
    (data : AnnotationData R) (annotations : List (Shape R)) (image : Image)
    (ha : data.annotations = some annotations)
    (himg : env.loadImage imageBuffer = .ok image)
    (h : (∃ c err, c ∈ annotations.flatMap renderAnnotationCmds ∧ env.callError c = some err) ∨
      ∃ err, env.toBuffer image (annotations.flatMap renderAnnotationCmds) = .error err) :
    renderAnnotationsOnImage env imageBuffer (some data) = .ok imageBuffer := by
  by_cases hl : annotations.length = 0
  · have hnil : annotations = [] := List.length_eq_zero.mp hl
    exact renderAnnotationsOnImage_of_try_ok env imageBuffer _
      (renderAnnotationsTry_nothing env imageBuffer _
        (Or.inr ⟨data, rfl, Or.inr (by rw [ha, hnil])⟩))
  · cases hf : (annotations.flatMap renderAnnotationCmds).findSome? env.callError with
    | some e =>
      refine renderAnnotationsOnImage_of_try_error env imageBuffer _ e ?_
      unfold renderAnnotationsTry
      simp only [ha, hl, if_false, himg, hf]
    | none =>
      rcases h with ⟨c, err, hc, he⟩ | ⟨err, he⟩
      · rw [List.findSome?_eq_none_iff] at hf
        have := hf c hc
        rw [he] at this
        cases this
      · refine renderAnnotationsOnImage_of_try_error env imageBuffer _ err ?_
        unfold renderAnnotationsTry
        simp only [ha, hl, if_false, himg, hf, he]

end Render

section RenderClaims

variable {R : Type} [Add R] [Sub R] [Mul R] [Div R] [NatCast R] [DecidableEq R] [JSMath R]
  [JSTrig R]

/-- C11: `renderAnnotationsOnImage` never throws: it always returns a buffer. When
the image cannot be decoded, when a drawing call throws or when the encoding
fails, the buffer it returns is the input buffer itself; and so it is when the
annotation data is absent or its annotation list is missing or empty. -/
theorem renderAnnotationsOnImage_never_throws (env : CanvasEnv R) (imageBuffer : Bytes)
    (annotationData : Option (AnnotationData R)) (data : AnnotationData R)
    (annotations : List (Shape R)) (image : Image) (err : String) :
    (∃ buffer, renderAnnotationsOnImage env imageBuffer annotationData = .ok buffer) ∧
    (env.loadImage imageBuffer = .error err →
      renderAnnotationsOnImage env imageBuffer annotationData = .ok imageBuffer) ∧
    (data.annotations = some annotations → env.loadImage imageBuffer = .ok image →
      ((∃ c e, c ∈ annotations.flatMap renderAnnotationCmds ∧ env.callError c = some e) ∨
        ∃ e, env.toBuffer image (annotations.flatMap renderAnnotationCmds) = .error e) →
      renderAnnotationsOnImage env imageBuffer (some data) = .ok imageBuffer) ∧
    ((annotationData = none ∨
        ∃ d, annotationData = some d ∧ (d.annotations = none ∨ d.annotations = some [])) →
      renderAnnotationsOnImage env imageBuffer annotationData = .ok imageBuffer) := by
  refine ⟨renderAnnotationsOnImage_ok env imageBuffer annotationData, ?_, ?_, ?_⟩
  · intro h
    exact renderAnnotationsOnImage_load_error env imageBuffer annotationData err h
  · intro ha himg h
    exact renderAnnotationsOnImage_draw_error env imageBuffer data annotations image ha himg h
  · intro h
    exact renderAnnotationsOnImage_of_try_ok env imageBuffer annotationData
      (renderAnnotationsTry_nothing env imageBuffer annotationData h)

end RenderClaims

/-- Witness for C11: an undecodable image, a drawing call that throws, and absent
annotation data. -/
theorem renderAnnotationsOnImage_never_throws_witness :
    canvasUndecodable.loadImage [1, 2, 3] = .error "Unsupported image type" ∧
    renderAnnotationsOnImage canvasUndecodable [1, 2, 3] (some sampleData) = .ok [1, 2, 3] ∧
    renderAnnotationsOnImage canvasThrowing [1, 2, 3] (some sampleData) = .ok [1, 2, 3] ∧
    renderAnnotationsOnImage canvasOk [1, 2, 3] none = .ok [1, 2, 3] :=
  ⟨rfl,
    (renderAnnotationsOnImage_never_throws canvasUndecodable [1, 2, 3] (some sampleData)
      sampleData [rectA, circleC] { width := 800, height := 600 }
      "Unsupported image type").2.1 rfl,
    (renderAnnotationsOnImage_never_throws canvasThrowing [1, 2, 3] (some sampleData)
      sampleData [rectA, circleC] { width := 800, height := 600 }
      "strokeRect failed").2.2.1 rfl rfl
      (Or.inl ⟨Cmd.strokeRect (some 20) (some 30) (some 30) (some 20), "strokeRect failed",
        by simp [renderAnnotationCmds, rectA], rfl⟩),
    (renderAnnotationsOnImage_never_throws canvasOk [1, 2, 3] none
      sampleData [rectA, circleC] { width := 800, height := 600 } "").2.2.2 (Or.inl rfl)⟩

/-! ## Paths and geometry -/

section Paths

variable {R : Type}

theorem geometry_append (l1 l2 : List (Cmd R)) :
    geometry (l1 ++ l2) = geometry l1 ++ geometry l2 := by
  unfold geometry
  rw [List.filter_append]

theorem geometry_flatMap {α : Type} (f : α → List (Cmd R)) (l : List α) :
    geometry (l.flatMap f) = l.flatMap fun a => geometry (f a) := by
  induction l with
  | nil => rfl
  | cons a l ih => rw [List.flatMap_cons, List.flatMap_cons, geometry_append, ih]

theorem geometry_style (c : String) (w : R) (f : String) :
    geometry [Cmd.strokeStyle c, Cmd.lineWidth w, Cmd.fillStyle f] = [] := rfl

theorem geometry_lineTos (qs : List (Pos R)) :
    geometry (qs.map fun p => Cmd.lineTo (some p.x) (some p.y)) =
      qs.map fun p => Cmd.lineTo (some p.x) (some p.y) := by
  unfold geometry
  rw [List.filter_eq_self]
  intro c hc
  obtain ⟨p, -, rfl⟩ := List.mem_map.mp hc
  rfl

theorem strokedSegments_style (c : String) (w : R) (f : String) (rest : List (Cmd R)) :
    strokedSegments ([Cmd.strokeStyle c, Cmd.lineWidth w, Cmd.fillStyle f] ++ rest) =
      strokedSegments rest := rfl

theorem foldl_lineTos (qs : List (Pos R)) (c : Pos R) (path stroked : List (Segment R)) :
    (qs.map fun p => Cmd.lineTo (some p.x) (some p.y)).foldl pathStep
        { path := path, current := some c, stroked := stroked } =
      { path := path ++ List.zipWith Segment.mk (c :: qs) qs
        current := some ((c :: qs).getLast (List.cons_ne_nil c qs))
        stroked := stroked } := by
  induction qs generalizing c path with
  | nil => simp
  | cons q qs ih =>
    rw [List.map_cons, List.foldl_cons]
    have hstep : pathStep { path := path, current := some c, stroked := stroked }
        (Cmd.lineTo (some q.x) (some q.y)) =
        { path := path ++ [{ a := c, b := q }], current := some q, stroked := stroked } := rfl
    rw [hstep, ih]
    simp

/-- The segments stroked by the freehand calls: consecutive points, in order. -/
theorem strokedSegments_polyline (p0 : Pos R) (qs : List (Pos R)) :
    strokedSegments
        ([Cmd.beginPath, Cmd.moveTo (some p0.x) (some p0.y)] ++
          (qs.map fun p => Cmd.lineTo (some p.x) (some p.y)) ++ [Cmd.stroke]) =
      List.zipWith Segment.mk (p0 :: qs) qs := by
  unfold strokedSegments
  rw [List.foldl_append, List.foldl_append]
  have h0 : ([Cmd.beginPath, Cmd.moveTo (some p0.x) (some p0.y)] : List (Cmd R)).foldl pathStep
      { path := [], current := none, stroked := [] } =
      { path := [], current := some p0, stroked := [] } := rfl
  rw [h0, foldl_lineTos]
  simp [pathStep]

end Paths

/-! ## The two renderers, shape by shape -/

section Shapes

variable {R : Type}

/-- The path calls both renderers make for a list of freehand points. -/
theorem freehand_calls (ps : List (Pos R)) (h : 2 ≤ ps.length) :
    ∃ p0 qs, ps = p0 :: qs ∧
      ([Cmd.beginPath, Cmd.moveTo (ps[0]?.map Pos.x) (ps[0]?.map Pos.y)] ++
        (ps.drop 1).map (fun p => Cmd.lineTo (some p.x) (some p.y)) ++ [Cmd.stroke] :
          List (Cmd R)) =
      [Cmd.beginPath, Cmd.moveTo (some p0.x) (some p0.y)] ++
        (qs.map fun p => Cmd.lineTo (some p.x) (some p.y)) ++ [Cmd.stroke] := by
  cases ps with
  | nil => simp at h
  | cons p0 qs => exact ⟨p0, qs, rfl, by simp⟩

theorem drawAnnotationCmds_freehand [Add R] [Sub R] [Mul R] [Div R] [NatCast R] [OfScientific R]
    [DecidableEq R] [JSTrig R] (currentColor : String) (strokeWidth : R)
    (a : Shape R) (ha : a.type = "freehand") :
    drawAnnotationCmds currentColor strokeWidth a =
      [ Cmd.strokeStyle (orString a.color currentColor),
        Cmd.lineWidth (orNumber a.strokeWidth strokeWidth),
        Cmd.fillStyle (orString a.fillColor "transparent") ] ++
      (match a.points with
        | none => []
        | some points =>
          if points.length > 1 then
            [Cmd.beginPath, Cmd.moveTo (points[0]?.map Pos.x) (points[0]?.map Pos.y)] ++
              (points.drop 1).map (fun p => Cmd.lineTo (some p.x) (some p.y)) ++ [Cmd.stroke]
          else []) := by
  unfold drawAnnotationCmds
  simp [ha]

theorem renderAnnotationCmds_freehand [Add R] [Sub R] [Mul R] [Div R] [NatCast R]
    [DecidableEq R] [JSMath R] [JSTrig R] (a : Shape R) (ha : a.type = "freehand") :
    renderAnnotationCmds a =
      [ Cmd.strokeStyle (orString a.color "#ff0000"),
        Cmd.lineWidth (orNumber a.strokeWidth ((2 : Nat) : R)),
        Cmd.fillStyle "transparent" ] ++
      (match a.points with
        | none => []
        | some points =>
          if points.length > 1 then
            [Cmd.beginPath, Cmd.moveTo (points[0]?.map Pos.x) (points[0]?.map Pos.y)] ++
              (points.drop 1).map (fun p => Cmd.lineTo (some p.x) (some p.y)) ++ [Cmd.stroke]
          else []) := by
  unfold renderAnnotationCmds
  simp [ha]

end Shapes

section FreehandClaim

variable {R : Type}

/-- The geometry and the stroked segments of a sequence of calls made of the three
style assignments followed by freehand path calls. -/
theorem freehand_geometry (c : String) (w : R) (f : String) (ps : List (Pos R))
    (h : 2 ≤ ps.length) :
    geometry ([Cmd.strokeStyle c, Cmd.lineWidth w, Cmd.fillStyle f] ++
        ([Cmd.beginPath, Cmd.moveTo (ps[0]?.map Pos.x) (ps[0]?.map Pos.y)] ++
          (ps.drop 1).map (fun p => Cmd.lineTo (some p.x) (some p.y)) ++ [Cmd.stroke])) =
      [Cmd.beginPath, Cmd.moveTo (ps[0]?.map Pos.x) (ps[0]?.map Pos.y)] ++
        (ps.drop 1).map (fun p => Cmd.lineTo (some p.x) (some p.y)) ++ [Cmd.stroke] ∧
    strokedSegments ([Cmd.strokeStyle c, Cmd.lineWidth w, Cmd.fillStyle f] ++
        ([Cmd.beginPath, Cmd.moveTo (ps[0]?.map Pos.x) (ps[0]?.map Pos.y)] ++
          (ps.drop 1).map (fun p => Cmd.lineTo (some p.x) (some p.y)) ++ [Cmd.stroke])) =
      List.zipWith Segment.mk ps (ps.drop 1) := by
  constructor
  · rw [geometry_append, geometry_style, List.nil_append, geometry_append, geometry_append,
      geometry_lineTos]
    rfl
  · rw [strokedSegments_style]
    obtain ⟨p0, qs, hps, hcalls⟩ := freehand_calls ps h
    rw [hcalls, strokedSegments_polyline, hps]
    rfl

/-- C17: for a freehand shape, both renderers draw nothing when the point list is
missing or has fewer than two points; with `n ≥ 2` points they make one path,
`moveTo` the first point and `lineTo` every later point in list order, and stroke
it once: the stroked segments are exactly the `n - 1` segments between consecutive
points. -/
theorem freehand_polyline [Add R] [Sub R] [Mul R] [Div R] [NatCast R] [OfScientific R]
    [DecidableEq R] [JSMath R] [JSTrig R]
    (currentColor : String) (strokeWidth : R) (a : Shape R) (ps : List (Pos R))
    (ha : a.type = "freehand") :
    ((a.points = none ∨ (a.points = some ps ∧ ps.length < 2)) →
      geometry (drawAnnotationCmds currentColor strokeWidth a) = [] ∧
      geometry (renderAnnotationCmds a) = [] ∧
      strokedSegments (drawAnnotationCmds currentColor strokeWidth a) = [] ∧
      strokedSegments (renderAnnotationCmds a) = []) ∧
    (a.points = some ps → 2 ≤ ps.length →
      geometry (drawAnnotationCmds currentColor strokeWidth a) =
        [Cmd.beginPath, Cmd.moveTo (ps[0]?.map Pos.x) (ps[0]?.map Pos.y)] ++
          (ps.drop 1).map (fun p => Cmd.lineTo (some p.x) (some p.y)) ++ [Cmd.stroke] ∧
      geometry (renderAnnotationCmds a) =
        [Cmd.beginPath, Cmd.moveTo (ps[0]?.map Pos.x) (ps[0]?.map Pos.y)] ++
          (ps.drop 1).map (fun p => Cmd.lineTo (some p.x) (some p.y)) ++ [Cmd.stroke] ∧
      strokedSegments (drawAnnotationCmds currentColor strokeWidth a) =
        List.zipWith Segment.mk ps (ps.drop 1) ∧
      strokedSegments (renderAnnotationCmds a) = List.zipWith Segment.mk ps (ps.drop 1) ∧
      (List.zipWith Segment.mk ps (ps.drop 1)).length = ps.length - 1) := by
  rw [drawAnnotationCmds_freehand currentColor strokeWidth a ha,
    renderAnnotationCmds_freehand a ha]
  constructor
  · rintro (h | ⟨h, hlen⟩)
    · rw [h]
      exact ⟨rfl, rfl, rfl, rfl⟩
    · rw [h]
      simp only [if_neg (show ¬ ps.length > 1 by omega)]
      exact ⟨rfl, rfl, rfl, rfl⟩
  · intro h hlen
    rw [h]
    simp only [if_pos (show ps.length > 1 by omega)]
    obtain ⟨g1, s1⟩ := freehand_geometry (orString a.color currentColor)
      (orNumber a.strokeWidth strokeWidth) (orString a.fillColor "transparent") ps hlen
    obtain ⟨g2, s2⟩ := freehand_geometry (orString a.color "#ff0000")
      (orNumber a.strokeWidth ((2 : Nat) : R)) "transparent" ps hlen
    refine ⟨g1, g2, s1, s2, ?_⟩
    rw [List.length_zipWith, List.length_drop]
    omega

end FreehandClaim

/-- Witness for C17: a freehand stroke through three points is two segments, and a
single point draws nothing. -/
theorem freehand_polyline_witness :
    freehandF.type = "freehand" ∧ freehandF.points = some threePoints ∧
    2 ≤ threePoints.length ∧
    strokedSegments (drawAnnotationCmds "#ff0000" 2 freehandF) =
      List.zipWith Segment.mk threePoints (threePoints.drop 1) ∧
    strokedSegments (renderAnnotationCmds freehandF) =
      List.zipWith Segment.mk threePoints (threePoints.drop 1) ∧
    geometry (renderAnnotationCmds { freehandF with points := some (threePoints.take 1) }) = [] :=
  ⟨rfl, rfl, by decide,
    ((freehand_polyline "#ff0000" 2 freehandF threePoints rfl).2 rfl (by decide)).2.2.1,
    ((freehand_polyline "#ff0000" 2 freehandF threePoints rfl).2 rfl (by decide)).2.2.2.1,
    ((freehand_polyline "#ff0000" 2 { freehandF with points := some (threePoints.take 1) }
      (threePoints.take 1) rfl).1 (Or.inr ⟨rfl, by decide⟩)).2.1⟩

/-! ## Rectangles, circles, arrows and text in the two renderers -/

section ShapeCalls

variable {R : Type}

theorem num2_none_left (f : R → R → R) (b : Option R) : num2 f none b = none := rfl

theorem num2_none_right (f : R → R → R) (a : Option R) : num2 f a none = none := by
  cases a <;> rfl

theorem num2_some (f : R → R → R) (x y : R) : num2 f (some x) (some y) = some (f x y) := rfl

theorem drawAnnotationCmds_rectangle [Add R] [Sub R] [Mul R] [Div R] [NatCast R]
    [OfScientific R] [DecidableEq R] [JSTrig R] (currentColor : String) (strokeWidth : R)
    (a : Shape R) (ha : a.type = "rectangle") :
    drawAnnotationCmds currentColor strokeWidth a =
      [ Cmd.strokeStyle (orString a.color currentColor),
        Cmd.lineWidth (orNumber a.strokeWidth strokeWidth),
        Cmd.fillStyle (orString a.fillColor "transparent") ] ++
      ([Cmd.strokeRect a.x a.y a.width a.height] ++
        (if hasFill a then
          [Cmd.globalAlpha 0.3, Cmd.fillRect a.x a.y a.width a.height, Cmd.globalAlpha 1.0]
        else [])) := by
  unfold drawAnnotationCmds
  simp [ha]

theorem drawAnnotationCmds_circle [Add R] [Sub R] [Mul R] [Div R] [NatCast R]
    [OfScientific R] [DecidableEq R] [JSTrig R] (currentColor : String) (strokeWidth : R)
    (a : Shape R) (ha : a.type = "circle") :
    drawAnnotationCmds currentColor strokeWidth a =
      [ Cmd.strokeStyle (orString a.color currentColor),
        Cmd.lineWidth (orNumber a.strokeWidth strokeWidth),
        Cmd.fillStyle (orString a.fillColor "transparent") ] ++
      ([ Cmd.beginPath,
         Cmd.arc a.x a.y a.radius (some ((0 : Nat) : R)) (some (((2 : Nat) : R) * JSTrig.pi)),
         Cmd.stroke ] ++
        (if hasFill a then [Cmd.globalAlpha 0.3, Cmd.fill, Cmd.globalAlpha 1.0] else [])) := by
  unfold drawAnnotationCmds
  simp [ha]

theorem drawAnnotationCmds_arrow [Add R] [Sub R] [Mul R] [Div R] [NatCast R]
    [OfScientific R] [DecidableEq R] [JSTrig R] (currentColor : String) (strokeWidth : R)
    (a : Shape R) (ha : a.type = "arrow") :
    drawAnnotationCmds currentColor strokeWidth a =
      [ Cmd.strokeStyle (orString a.color currentColor),
        Cmd.lineWidth (orNumber a.strokeWidth strokeWidth),
        Cmd.fillStyle (orString a.fillColor "transparent") ] ++
      drawArrow a.startX a.startY a.endX a.endY := by
  unfold drawAnnotationCmds
  simp [ha]

theorem drawAnnotationCmds_text [Add R] [Sub R] [Mul R] [Div R] [NatCast R]
    [OfScientific R] [DecidableEq R] [JSTrig R] (currentColor : String) (strokeWidth : R)
    (a : Shape R) (ha : a.type = "text") :
    drawAnnotationCmds currentColor strokeWidth a =
      [ Cmd.strokeStyle (orString a.color currentColor),
        Cmd.lineWidth (orNumber a.strokeWidth strokeWidth),
        Cmd.fillStyle (orString a.fillColor "transparent") ] ++
      [ Cmd.font (orNumber a.fontSize ((16 : Nat) : R)) "Arial",
        Cmd.fillStyle (orString a.color currentColor),
        Cmd.fillText a.text a.x a.y ] := by
  unfold drawAnnotationCmds
  simp [ha]

theorem drawAnnotationCmds_other [Add R] [Sub R] [Mul R] [Div R] [NatCast R]
    [OfScientific R] [DecidableEq R] [JSTrig R] (currentColor : String) (strokeWidth : R)
    (a : Shape R) (h1 : a.type ≠ "rectangle") (h2 : a.type ≠ "circle") (h3 : a.type ≠ "arrow")
    (h4 : a.type ≠ "freehand") (h5 : a.type ≠ "text") :
    drawAnnotationCmds currentColor strokeWidth a =
      [ Cmd.strokeStyle (orString a.color currentColor),
        Cmd.lineWidth (orNumber a.strokeWidth strokeWidth),
        Cmd.fillStyle (orString a.fillColor "transparent") ] := by
  unfold drawAnnotationCmds
  simp [h1, h2, h3, h4, h5]

theorem renderAnnotationCmds_rectangle [Add R] [Sub R] [Mul R] [Div R] [NatCast R]
    [DecidableEq R] [JSMath R] [JSTrig R] (a : Shape R) (ha : a.type = "rectangle") :
    renderAnnotationCmds a =
      [ Cmd.strokeStyle (orString a.color "#ff0000"),
        Cmd.lineWidth (orNumber a.strokeWidth ((2 : Nat) : R)),
        Cmd.fillStyle "transparent" ] ++
      [Cmd.strokeRect a.x a.y a.width a.height] := by
  unfold renderAnnotationCmds
  simp [ha]

theorem renderAnnotationCmds_circle [Add R] [Sub R] [Mul R] [Div R] [NatCast R]
    [DecidableEq R] [JSMath R] [JSTrig R] (a : Shape R) (ha : a.type = "circle") :
    renderAnnotationCmds a =
      [ Cmd.strokeStyle (orString a.color "#ff0000"),
        Cmd.lineWidth (orNumber a.strokeWidth ((2 : Nat) : R)),
        Cmd.fillStyle "transparent" ] ++
      [ Cmd.beginPath,
        Cmd.arc
          (num2 (· + ·) a.x (num2 (· / ·) a.width (some ((2 : Nat) : R))))
          (num2 (· + ·) a.y (num2 (· / ·) a.height (some ((2 : Nat) : R))))
          (num2 (· / ·)
            ((num2 (· + ·) (a.width.map fun w => JSMath.pow w 2)
              (a.height.map fun h => JSMath.pow h 2)).map JSMath.sqrt)
            (some ((2 : Nat) : R)))
          (some ((0 : Nat) : R)) (some (((2 : Nat) : R) * JSTrig.pi)),
        Cmd.stroke ] := by
  unfold renderAnnotationCmds
  simp [ha]

theorem renderAnnotationCmds_arrow [Add R] [Sub R] [Mul R] [Div R] [NatCast R]
    [DecidableEq R] [JSMath R] [JSTrig R] (a : Shape R) (ha : a.type = "arrow") :
    renderAnnotationCmds a =
      [ Cmd.strokeStyle (orString a.color "#ff0000"),
        Cmd.lineWidth (orNumber a.strokeWidth ((2 : Nat) : R)),
        Cmd.fillStyle "transparent" ] ++
      drawArrow a.startX a.startY a.endX a.endY := by
  unfold renderAnnotationCmds drawArrow
  simp [ha]

theorem renderAnnotationCmds_other [Add R] [Sub R] [Mul R] [Div R] [NatCast R]
    [DecidableEq R] [JSMath R] [JSTrig R] (a : Shape R)
    (h1 : a.type ≠ "rectangle") (h2 : a.type ≠ "circle") (h3 : a.type ≠ "arrow")
    (h4 : a.type ≠ "freehand") :
    renderAnnotationCmds a =
      [ Cmd.strokeStyle (orString a.color "#ff0000"),
        Cmd.lineWidth (orNumber a.strokeWidth ((2 : Nat) : R)),
        Cmd.fillStyle "transparent" ] := by
  unfold renderAnnotationCmds
  simp [h1, h2, h3, h4]

end ShapeCalls

section CircleAndText

variable {R : Type}

/-- For a circle shape without `width` and `height` (every circle the authoring
component creates), the offline renderer passes `NaN` as centre and radius. -/
theorem renderAnnotationCmds_circle_geometry [Add R] [Sub R] [Mul R] [Div R] [NatCast R]
    [DecidableEq R] [JSMath R] [JSTrig R] (a : Shape R) (ha : a.type = "circle")
    (hw : a.width = none) (hh : a.height = none) :
    geometry (renderAnnotationCmds a) =
      [ Cmd.beginPath,
        Cmd.arc none none none (some ((0 : Nat) : R)) (some (((2 : Nat) : R) * JSTrig.pi)),
        Cmd.stroke ] := by
  rw [renderAnnotationCmds_circle a ha, geometry_append, geometry_style, hw, hh]
  simp only [num2_none_left, num2_none_right, Option.map_none']
  rfl

/-- The offline renderer draws nothing for a text shape. -/
theorem renderAnnotationCmds_text_geometry [Add R] [Sub R] [Mul R] [Div R] [NatCast R]
    [DecidableEq R] [JSMath R] [JSTrig R] (a : Shape R) (ha : a.type = "text") :
    geometry (renderAnnotationCmds a) = [] := by
  rw [renderAnnotationCmds_other a (by rw [ha]; decide) (by rw [ha]; decide)
    (by rw [ha]; decide) (by rw [ha]; decide)]
  rfl

end CircleAndText

/-- C14, the code at a circle: the live preview strokes the arc of centre (50, 50)
and radius 5 stored in the shape, while the offline renderer computes centre and
radius from the `width` and `height` that a circle does not have, and calls `arc`
with `NaN` centre and radius. -/
theorem offline_circle_ignores_radius :
    circleC.type = "circle" ∧ circleC.x = some 50 ∧ circleC.y = some 50 ∧
    circleC.radius = some 5 ∧
    geometry (drawAnnotationCmds "#ff0000" 2 circleC) =
      [ Cmd.beginPath,
        Cmd.arc (some 50) (some 50) (some 5) (some ((0 : Nat) : ℚ))
          (some (((2 : Nat) : ℚ) * JSTrig.pi)),
        Cmd.stroke ] ∧
    geometry (renderAnnotationCmds circleC) =
      [ Cmd.beginPath,
        Cmd.arc none none none (some ((0 : Nat) : ℚ)) (some (((2 : Nat) : ℚ) * JSTrig.pi)),
        Cmd.stroke ] ∧
    strokedSegments (renderAnnotationCmds circleC) = [] := by
  refine ⟨rfl, rfl, rfl, rfl, ?_, renderAnnotationCmds_circle_geometry circleC rfl rfl rfl, ?_⟩
  · rw [drawAnnotationCmds_circle "#ff0000" 2 circleC rfl, geometry_append, geometry_style]
    rfl
  · rw [renderAnnotationCmds_circle circleC rfl, strokedSegments_style]
    rfl

/-- C18, the code at a text shape: the live preview draws the string at (10, 20)
in the shape's colour and font size, while the offline renderer has no case for
text and makes no drawing call. -/
theorem offline_text_not_drawn :
    textT.type = "text" ∧
    drawAnnotationCmds "#0000ff" 2 textT =
      [ Cmd.strokeStyle "#ff0000", Cmd.lineWidth 2, Cmd.fillStyle "transparent",
        Cmd.font 16 "Arial", Cmd.fillStyle "#ff0000",
        Cmd.fillText (some "Caries") (some 10) (some 20) ] ∧
    geometry (renderAnnotationCmds textT) = [] ∧
    ¬ Cmd.fillText (some "Caries") (some 10) (some 20) ∈ renderAnnotationCmds textT := by
  refine ⟨rfl, ?_, renderAnnotationCmds_text_geometry textT rfl, ?_⟩
  · rw [drawAnnotationCmds_text "#0000ff" 2 textT rfl]
    simp [textT, orString, orNumber]
  · rw [renderAnnotationCmds_other textT (by decide) (by decide) (by decide) (by decide)]
    simp

/-! ## Fills and the global alpha -/

section Alpha

variable {R : Type}

theorem isPathCall_facts (c : Cmd R) (h : isPathCall c = true) :
    setsAlpha c = false ∧ isFill c = false := by
  cases c <;> first | exact ⟨rfl, rfl⟩ | cases h

theorem drawArrow_pathCalls [Add R] [Sub R] [Mul R] [Div R] [NatCast R] [JSTrig R]
    (sx sy ex ey : Option R) : ∀ c ∈ drawArrow sx sy ex ey, isPathCall c = true := by
  intro c hc
  unfold drawArrow at hc
  simp only [List.mem_cons, List.mem_singleton, List.not_mem_nil, or_false] at hc
  rcases hc with rfl | rfl | rfl | rfl | rfl | rfl | rfl | rfl | rfl | rfl <;> rfl

theorem freehand_pathCalls (m : Cmd R) (hm : isPathCall m = true) (qs : List (Pos R)) :
    ∀ c ∈ [Cmd.beginPath, m] ++ (qs.map fun p => Cmd.lineTo (some p.x) (some p.y)) ++
      [Cmd.stroke], isPathCall c = true := by
  intro c hc
  simp only [List.mem_append, List.mem_cons, List.mem_singleton, List.not_mem_nil, or_false,
    List.mem_map] at hc
  rcases hc with ((rfl | rfl) | ⟨p, -, rfl⟩) | rfl
  · rfl
  · exact hm
  · rfl
  · rfl

theorem alphaAfter_append (a0 : R) (l1 l2 : List (Cmd R)) :
    alphaAfter a0 (l1 ++ l2) = alphaAfter (alphaAfter a0 l1) l2 := by
  unfold alphaAfter
  rw [List.foldl_append]

theorem alphaAfter_noAlpha (a0 : R) (l : List (Cmd R))
    (h : ∀ c ∈ l, setsAlpha c = false) : alphaAfter a0 l = a0 := by
  induction l with
  | nil => rfl
  | cons c l ih =>
    have hc := h c (List.mem_cons_self c l)
    have hl : ∀ d ∈ l, setsAlpha d = false := fun d hd => h d (List.mem_cons_of_mem c hd)
    have hstep : alphaAfter a0 (c :: l) = alphaAfter a0 l := by
      cases c <;> first | rfl | cases hc
    rw [hstep, ih hl]

theorem alphaAfter_pathCalls (a0 : R) (l : List (Cmd R))
    (h : ∀ c ∈ l, isPathCall c = true) : alphaAfter a0 l = a0 :=
  alphaAfter_noAlpha a0 l fun c hc => (isPathCall_facts c (h c hc)).1

theorem alphaAfter_flatMap {α : Type} (a0 : R) (f : α → List (Cmd R)) (l : List α)
    (h : ∀ x ∈ l, alphaAfter a0 (f x) = a0) : alphaAfter a0 (l.flatMap f) = a0 := by
  induction l with
  | nil => rfl
  | cons x l ih =>
    rw [List.flatMap_cons, alphaAfter_append, h x (List.mem_cons_self x l),
      ih fun y hy => h y (List.mem_cons_of_mem x hy)]

/-- The calls of the offline renderer for one shape never assign the global alpha
and never fill. -/
theorem renderAnnotationCmds_noAlpha_noFill [Add R] [Sub R] [Mul R] [Div R] [NatCast R]
    [DecidableEq R] [JSMath R] [JSTrig R] (a : Shape R) :
    ∀ c ∈ renderAnnotationCmds a, setsAlpha c = false ∧ isFill c = false := by
  intro c hc
  by_cases h1 : a.type = "rectangle"
  · rw [renderAnnotationCmds_rectangle a h1] at hc
    simp only [List.mem_append, List.mem_cons, List.mem_singleton, List.not_mem_nil,
      or_false] at hc
    rcases hc with (rfl | rfl | rfl) | rfl <;> exact ⟨rfl, rfl⟩
  · by_cases h2 : a.type = "circle"
    · rw [renderAnnotationCmds_circle a h2] at hc
      simp only [List.mem_append, List.mem_cons, List.mem_singleton, List.not_mem_nil,
        or_false] at hc
      rcases hc with (rfl | rfl | rfl) | rfl | rfl | rfl <;> exact ⟨rfl, rfl⟩
    · by_cases h3 : a.type = "arrow"
      · rw [renderAnnotationCmds_arrow a h3] at hc
        rcases List.mem_append.mp hc with hs | hp
        · simp only [List.mem_cons, List.mem_singleton, List.not_mem_nil, or_false] at hs
          rcases hs with rfl | rfl | rfl <;> exact ⟨rfl, rfl⟩
        · exact isPathCall_facts c (drawArrow_pathCalls _ _ _ _ c hp)
      · by_cases h4 : a.type = "freehand"
        · rw [renderAnnotationCmds_freehand a h4] at hc
          rcases List.mem_append.mp hc with hs | hp
          · simp only [List.mem_cons, List.mem_singleton, List.not_mem_nil, or_false] at hs
            rcases hs with rfl | rfl | rfl <;> exact ⟨rfl, rfl⟩
          · cases hpts : a.points with
            | none =>
              rw [hpts] at hp
              cases hp
            | some ps =>
              rw [hpts] at hp
              by_cases hl : ps.length > 1
              · simp only [if_pos hl] at hp
                exact isPathCall_facts c
                  (freehand_pathCalls (Cmd.moveTo (ps[0]?.map Pos.x) (ps[0]?.map Pos.y)) rfl _ c hp)
              · simp only [if_neg hl] at hp
                cases hp
        · rw [renderAnnotationCmds_other a h1 h2 h3 h4] at hc
          simp only [List.mem_cons, List.mem_singleton, List.not_mem_nil, or_false] at hc
          rcases hc with rfl | rfl | rfl <;> exact ⟨rfl, rfl⟩

/-- Every shape drawn by the live preview from global alpha 1.0 leaves it at 1.0. -/
theorem drawAnnotationCmds_alphaAfter [Add R] [Sub R] [Mul R] [Div R] [NatCast R]
    [OfScientific R] [DecidableEq R] [JSTrig R] (currentColor : String) (strokeWidth : R)
    (a : Shape R) :
    alphaAfter (1.0 : R) (drawAnnotationCmds currentColor strokeWidth a) = 1.0 := by
  by_cases h1 : a.type = "rectangle"
  · rw [drawAnnotationCmds_rectangle currentColor strokeWidth a h1]
    cases hasFill a <;> rfl
  · by_cases h2 : a.type = "circle"
    · rw [drawAnnotationCmds_circle currentColor strokeWidth a h2]
      cases hasFill a <;> rfl
    · by_cases h3 : a.type = "arrow"
      · rw [drawAnnotationCmds_arrow currentColor strokeWidth a h3, alphaAfter_append]
        exact alphaAfter_pathCalls _ _ (drawArrow_pathCalls _ _ _ _)
      · by_cases h4 : a.type = "freehand"
        · rw [drawAnnotationCmds_freehand currentColor strokeWidth a h4, alphaAfter_append]
          cases hpts : a.points with
          | none => rfl
          | some ps =>
            by_cases hl : ps.length > 1
            · simp only [if_pos hl]
              exact alphaAfter_pathCalls _ _
                (freehand_pathCalls (Cmd.moveTo (ps[0]?.map Pos.x) (ps[0]?.map Pos.y)) rfl _)
            · simp only [if_neg hl]
              rfl
        · by_cases h5 : a.type = "text"
          · rw [drawAnnotationCmds_text currentColor strokeWidth a h5]
            rfl
          · rw [drawAnnotationCmds_other currentColor strokeWidth a h1 h2 h3 h4 h5]
            rfl

end Alpha

section FillClaim

variable {R : Type}

/-- C19 as the code has it: for a rectangle or circle shape the live preview fills
exactly when `fillColor` is set and is not `'transparent'`, the filling call comes
after the outline is stroked and is made at global alpha 0.3, and after every
shape list the global alpha is 1.0 again. The offline renderer never fills and
never assigns the global alpha, which stays what it was. -/
theorem fill_after_stroke_in_live_preview [Add R] [Sub R] [Mul R] [Div R] [NatCast R]
    [OfScientific R] [DecidableEq R] [JSMath R] [JSTrig R]
    (currentColor : String) (strokeWidth a0 : R) (a : Shape R) (s : State R)
    (shapes : List (Shape R)) (ha : a.type = "rectangle" ∨ a.type = "circle") :
    (drawAnnotationCmds currentColor strokeWidth a).any isFill = hasFill a ∧
    fillAlphas a0 (drawAnnotationCmds currentColor strokeWidth a) =
      (if hasFill a then [(0.3 : R)] else []) ∧
    (a.type = "rectangle" →
      geometry (drawAnnotationCmds currentColor strokeWidth a) =
        [Cmd.strokeRect a.x a.y a.width a.height] ++
          (if hasFill a then [Cmd.fillRect a.x a.y a.width a.height] else [])) ∧
    (a.type = "circle" →
      geometry (drawAnnotationCmds currentColor strokeWidth a) =
        [ Cmd.beginPath,
          Cmd.arc a.x a.y a.radius (some ((0 : Nat) : R)) (some (((2 : Nat) : R) * JSTrig.pi)),
          Cmd.stroke ] ++ (if hasFill a then [Cmd.fill] else [])) ∧
    alphaAfter (1.0 : R) (drawAnnotations s) = 1.0 ∧
    (renderAnnotationCmds a).any isFill = false ∧
    alphaAfter a0 (shapes.flatMap renderAnnotationCmds) = a0 := by
  have hoff : (renderAnnotationCmds a).any isFill = false := by
    rw [List.any_eq_false]
    intro c hc
    rw [(renderAnnotationCmds_noAlpha_noFill a c hc).2]
    exact Bool.false_ne_true
  have hoffAlpha : alphaAfter a0 (shapes.flatMap renderAnnotationCmds) = a0 :=
    alphaAfter_flatMap a0 _ shapes fun x _ =>
      alphaAfter_noAlpha a0 _ fun c hc => (renderAnnotationCmds_noAlpha_noFill x c hc).1
  have hlive : alphaAfter (1.0 : R) (drawAnnotations s) = 1.0 := by
    unfold drawAnnotations
    cases s.annotations with
    | none => rfl
    | some l =>
      exact alphaAfter_flatMap _ _ l fun x _ =>
        drawAnnotationCmds_alphaAfter s.currentColor s.strokeWidth x
  rcases ha with h | h
  · have hc : ¬ a.type = "circle" := by rw [h]; decide
    rw [drawAnnotationCmds_rectangle currentColor strokeWidth a h]
    refine ⟨?_, ?_, fun _ => ?_, fun h2 => absurd h2 hc, hlive, hoff, hoffAlpha⟩
    · cases hasFill a <;> rfl
    · cases hasFill a <;> rfl
    · cases hasFill a <;> rfl
  · have hr : ¬ a.type = "rectangle" := by rw [h]; decide
    rw [drawAnnotationCmds_circle currentColor strokeWidth a h]
    refine ⟨?_, ?_, fun h2 => absurd h2 hr, fun _ => ?_, hlive, hoff, hoffAlpha⟩
    · cases hasFill a <;> rfl
    · cases hasFill a <;> rfl
    · cases hasFill a <;> rfl

end FillClaim

/-- Witness for C19 as corrected: the rectangle with a fill colour. -/
theorem fill_after_stroke_in_live_preview_witness :
    (filledRect.type = "rectangle" ∨ filledRect.type = "circle") ∧
    (drawAnnotationCmds "#ff0000" 2 filledRect).any isFill = hasFill filledRect ∧
    fillAlphas 1.0 (drawAnnotationCmds "#ff0000" 2 filledRect) =
      (if hasFill filledRect then [(0.3 : ℚ)] else []) ∧
    (renderAnnotationCmds filledRect).any isFill = false :=
  ⟨Or.inl rfl,
    (fill_after_stroke_in_live_preview "#ff0000" 2 1.0 filledRect
      (stateWith [filledRect] [] (-1) false) [filledRect] (Or.inl rfl)).1,
    (fill_after_stroke_in_live_preview "#ff0000" 2 1.0 filledRect
      (stateWith [filledRect] [] (-1) false) [filledRect] (Or.inl rfl)).2.1,
    (fill_after_stroke_in_live_preview "#ff0000" 2 1.0 filledRect
      (stateWith [filledRect] [] (-1) false) [filledRect] (Or.inl rfl)).2.2.2.2.2.1⟩

/-- Counterexample to C19 as stated: the rectangle has a fill colour that is not
transparent, and the offline renderer makes no filling call for it. -/
theorem offline_renderer_never_fills :
    filledRect.type = "rectangle" ∧ filledRect.fillColor = some "#00ff00" ∧
    hasFill filledRect = true ∧
    (renderAnnotationCmds filledRect).any isFill = false ∧
    renderAnnotationCmds filledRect =
      [ Cmd.strokeStyle "#ff0000", Cmd.lineWidth 2, Cmd.fillStyle "transparent",
        Cmd.strokeRect (some 20) (some 30) (some 30) (some 20) ] := by
  have h : renderAnnotationCmds filledRect =
      [ Cmd.strokeStyle "#ff0000", Cmd.lineWidth 2, Cmd.fillStyle "transparent",
        Cmd.strokeRect (some 20) (some 30) (some 30) (some 20) ] := by
    rw [renderAnnotationCmds_rectangle filledRect rfl]
    simp [filledRect, rectA, orString, orNumber]
  refine ⟨rfl, rfl, by decide, ?_, h⟩
  rw [h]
  rfl

/-! ## Dependence of the live preview on the session -/

section Session

variable {R : Type}

theorem orString_own (c : String) (fallback : String) (h : (c != "") = true) :
    orString (some c) fallback = c := by
  unfold orString
  have hc : c ≠ "" := by simpa using h
  simp [hc]

theorem orNumber_own [NatCast R] [DecidableEq R] (w fallback : R) (h : w ≠ ((0 : Nat) : R)) :
    orNumber (some w) fallback = w := by
  unfold orNumber
  simp [h]

/-- A shape that carries its own style is drawn by the live preview in the same
way whatever the current colour and stroke width are. -/
theorem drawAnnotationCmds_ownStyle [Add R] [Sub R] [Mul R] [Div R] [NatCast R]
    [OfScientific R] [DecidableEq R] [JSTrig R] (c1 c2 : String) (w1 w2 : R) (a : Shape R)
    (h : hasOwnStyle a = true) :
    drawAnnotationCmds c1 w1 a = drawAnnotationCmds c2 w2 a := by
  unfold hasOwnStyle at h
  rw [Bool.and_eq_true] at h
  obtain ⟨hc, hw⟩ := h
  cases hcol : a.color with
  | none =>
    rw [hcol] at hc
    cases hc
  | some c =>
    cases hwid : a.strokeWidth with
    | none =>
      rw [hwid] at hw
      cases hw
    | some w =>
      rw [hcol] at hc
      rw [hwid] at hw
      have hw2 : w ≠ ((0 : Nat) : R) := by simpa using hw
      unfold drawAnnotationCmds
      rw [hcol, hwid, orString_own c c1 hc, orString_own c c2 hc, orNumber_own w w1 hw2,
        orNumber_own w w2 hw2]

theorem flatMap_ownStyle [Add R] [Sub R] [Mul R] [Div R] [NatCast R]
    [OfScientific R] [DecidableEq R] [JSTrig R] (c1 c2 : String) (w1 w2 : R)
    (l : List (Shape R)) (h : ∀ a ∈ l, hasOwnStyle a = true) :
    l.flatMap (drawAnnotationCmds c1 w1) = l.flatMap (drawAnnotationCmds c2 w2) := by
  induction l with
  | nil => rfl
  | cons a l ih =>
    rw [List.flatMap_cons, List.flatMap_cons,
      drawAnnotationCmds_ownStyle c1 c2 w1 w2 a (h a (List.mem_cons_self a l)),
      ih fun b hb => h b (List.mem_cons_of_mem a hb)]

end Session

section SessionClaim

variable {R : Type}

/-- C13 as the code has it: the offline renderer takes the image buffer and the
annotation data only, so the session does not reach it; the live preview of two
sessions with the same working set makes the same calls whenever every shape of
the set carries its own colour and stroke width, whatever the current tool, colour
and stroke width of the two sessions are. -/
theorem drawAnnotations_independent_of_session [Add R] [Sub R] [Mul R] [Div R] [NatCast R]
    [OfScientific R] [DecidableEq R] [JSMath R] [JSTrig R]
    (s1 s2 : State R) (shapes : List (Shape R)) (env : CanvasEnv R) (imageBuffer : Bytes)
    (t1 t2 : Option String)
    (h1 : s1.annotations = some shapes) (h2 : s2.annotations = some shapes)
    (hstyle : ∀ a ∈ shapes, hasOwnStyle a = true) :
    drawAnnotations s1 = drawAnnotations s2 ∧
    renderAnnotationsOnImage env imageBuffer
        (some { annotations := s1.annotations, timestamp := t1 }) =
      renderAnnotationsOnImage env imageBuffer
        (some { annotations := s2.annotations, timestamp := t2 }) := by
  constructor
  · unfold drawAnnotations
    rw [h1, h2]
    exact flatMap_ownStyle s1.currentColor s2.currentColor s1.strokeWidth s2.strokeWidth
      shapes hstyle
  · rw [h1, h2]
    rfl

end SessionClaim

/-- Witness for C13 as corrected: two sessions with different current tool, colour
and stroke width and the same working set of styled shapes. -/
theorem drawAnnotations_independent_of_session_witness :
    (stateWith [rectA, arrowB] [] (-1) false).annotations = some [rectA, arrowB] ∧
    ({ stateWith [rectA, arrowB] [] (-1) false with
        currentTool := "circle", currentColor := "#0000ff", strokeWidth := 7 } :
      State ℚ).annotations = some [rectA, arrowB] ∧
    drawAnnotations (stateWith [rectA, arrowB] [] (-1) false) =
      drawAnnotations ({ stateWith [rectA, arrowB] [] (-1) false with
        currentTool := "circle", currentColor := "#0000ff", strokeWidth := 7 } : State ℚ) :=
  ⟨rfl, rfl,
    (drawAnnotations_independent_of_session (stateWith [rectA, arrowB] [] (-1) false)
      ({ stateWith [rectA, arrowB] [] (-1) false with
        currentTool := "circle", currentColor := "#0000ff", strokeWidth := 7 } : State ℚ)
      [rectA, arrowB] canvasOk [1, 2, 3] none none rfl rfl
      (by
        intro a ha
        simp only [List.mem_cons, List.mem_singleton, List.not_mem_nil, or_false] at ha
        rcases ha with rfl | rfl <;> decide)).1⟩

/-- Counterexample to C13 as stated: the same working set, a rectangle without a
colour of its own, is drawn in the current colour of the session, so two sessions
with different current colours make different calls. -/
theorem drawAnnotations_uses_current_colour :
    (stateWith [bareRect] [] (-1) false).annotations =
      ({ stateWith [bareRect] [] (-1) false with currentColor := "#0000ff" } :
        State ℚ).annotations ∧
    (drawAnnotations (stateWith [bareRect] [] (-1) false)).head? =
      some (Cmd.strokeStyle "#ff0000") ∧
    (drawAnnotations ({ stateWith [bareRect] [] (-1) false with currentColor := "#0000ff" } :
      State ℚ)).head? = some (Cmd.strokeStyle "#0000ff") ∧
    drawAnnotations (stateWith [bareRect] [] (-1) false) ≠
      drawAnnotations ({ stateWith [bareRect] [] (-1) false with currentColor := "#0000ff" } :
        State ℚ) := by
  refine ⟨rfl, rfl, rfl, fun h => ?_⟩
  have h2 := congrArg List.head? h
  have h3 : (some (Cmd.strokeStyle "#ff0000") : Option (Cmd ℚ)) =
      some (Cmd.strokeStyle "#0000ff") := h2
  injection h3 with h4
  injection h4 with h5
  exact absurd h5 (by decide)

/-! ## Agreement of the two renderers on geometry -/

section Agreement

variable {R : Type}

theorem geometry_subset (l : List (Cmd R)) : ∀ c ∈ geometry l, c ∈ l := by
  intro c hc
  unfold geometry at hc
  exact List.mem_of_mem_filter hc

theorem filter_noFill_pathCalls (l : List (Cmd R)) (h : ∀ c ∈ l, isPathCall c = true) :
    (geometry l).filter (fun c => !isFill c) = geometry l := by
  rw [List.filter_eq_self]
  intro c hc
  rw [(isPathCall_facts c (h c (geometry_subset l c hc))).2]
  rfl

/-- One shape that is neither a circle nor a text: the stroked primitives of the
live preview are the primitives of the offline renderer, and so are all its
primitives when the shape has no fill. -/
theorem shape_geometry_agrees [Add R] [Sub R] [Mul R] [Div R] [NatCast R]
    [OfScientific R] [DecidableEq R] [JSMath R] [JSTrig R]
    (currentColor : String) (strokeWidth : R) (a : Shape R)
    (h2 : a.type ≠ "circle") (h5 : a.type ≠ "text") :
    (geometry (drawAnnotationCmds currentColor strokeWidth a)).filter (fun c => !isFill c) =
      geometry (renderAnnotationCmds a) ∧
    (hasFill a = false →
      geometry (drawAnnotationCmds currentColor strokeWidth a) =
        geometry (renderAnnotationCmds a)) := by
  by_cases h1 : a.type = "rectangle"
  · rw [drawAnnotationCmds_rectangle currentColor strokeWidth a h1,
      renderAnnotationCmds_rectangle a h1]
    constructor
    · cases hasFill a <;> rfl
    · intro hf
      rw [hf]
      rfl
  · by_cases h3 : a.type = "arrow"
    · rw [drawAnnotationCmds_arrow currentColor strokeWidth a h3,
        renderAnnotationCmds_arrow a h3, geometry_append, geometry_append, geometry_style,
        geometry_style, List.nil_append]
      exact ⟨filter_noFill_pathCalls _ (drawArrow_pathCalls _ _ _ _), fun _ => rfl⟩
    · by_cases h4 : a.type = "freehand"
      · rw [drawAnnotationCmds_freehand currentColor strokeWidth a h4,
          renderAnnotationCmds_freehand a h4, geometry_append, geometry_append,
          geometry_style, geometry_style, List.nil_append]
        refine ⟨?_, fun _ => rfl⟩
        cases a.points with
        | none => rfl
        | some ps =>
          by_cases hl : ps.length > 1
          · simp only [if_pos hl]
            exact filter_noFill_pathCalls _
              (freehand_pathCalls (Cmd.moveTo (ps[0]?.map Pos.x) (ps[0]?.map Pos.y)) rfl _)
          · simp only [if_neg hl]
            rfl
      · rw [drawAnnotationCmds_other currentColor strokeWidth a h1 h2 h3 h4 h5,
          renderAnnotationCmds_other a h1 h2 h3 h4]
        exact ⟨rfl, fun _ => rfl⟩

theorem list_geometry_agrees [Add R] [Sub R] [Mul R] [Div R] [NatCast R]
    [OfScientific R] [DecidableEq R] [JSMath R] [JSTrig R]
    (currentColor : String) (strokeWidth : R) (shapes : List (Shape R))
    (hty : ∀ a ∈ shapes, a.type ≠ "circle" ∧ a.type ≠ "text") :
    (geometry (shapes.flatMap (drawAnnotationCmds currentColor strokeWidth))).filter
        (fun c => !isFill c) = geometry (shapes.flatMap renderAnnotationCmds) ∧
    ((∀ a ∈ shapes, hasFill a = false) →
      geometry (shapes.flatMap (drawAnnotationCmds currentColor strokeWidth)) =
        geometry (shapes.flatMap renderAnnotationCmds)) := by
  induction shapes with
  | nil => exact ⟨rfl, fun _ => rfl⟩
  | cons a l ih =>
    obtain ⟨i1, i2⟩ := ih fun b hb => hty b (List.mem_cons_of_mem a hb)
    obtain ⟨t2, t5⟩ := hty a (List.mem_cons_self a l)
    obtain ⟨e1, e2⟩ := shape_geometry_agrees currentColor strokeWidth a t2 t5
    rw [List.flatMap_cons, List.flatMap_cons, geometry_append, geometry_append]
    constructor
    · rw [List.filter_append, e1, i1]
    · intro hf
      rw [e2 (hf a (List.mem_cons_self a l)),
        i2 fun b hb => hf b (List.mem_cons_of_mem a hb)]

end Agreement

section AgreementClaim

variable {R : Type}

/-- C12 as the code has it: for every ordered shape list without circle and text
shapes, the live preview and the offline renderer emit the same stroked primitives
with the same coordinates in the same order; filled primitives are emitted by the
live preview only, so the complete sequences of primitives agree when no shape has
a fill colour. -/
theorem renderers_agree_without_circle_and_text [Add R] [Sub R] [Mul R] [Div R] [NatCast R]
    [OfScientific R] [DecidableEq R] [JSMath R] [JSTrig R]
    (s : State R) (shapes : List (Shape R)) (hs : s.annotations = some shapes)
    (hty : ∀ a ∈ shapes, a.type ≠ "circle" ∧ a.type ≠ "text") :
    (geometry (drawAnnotations s)).filter (fun c => !isFill c) =
      geometry (shapes.flatMap renderAnnotationCmds) ∧
    ((∀ a ∈ shapes, hasFill a = false) →
      geometry (drawAnnotations s) = geometry (shapes.flatMap renderAnnotationCmds)) := by
  unfold drawAnnotations
  rw [hs]
  exact list_geometry_agrees s.currentColor s.strokeWidth shapes hty

end AgreementClaim

/-- Witness for C12 as corrected: a rectangle, an arrow and a freehand stroke. -/
theorem renderers_agree_without_circle_and_text_witness :
    (stateWith [rectA, arrowB, freehandF] [] (-1) false).annotations =
      some [rectA, arrowB, freehandF] ∧
    geometry (drawAnnotations (stateWith [rectA, arrowB, freehandF] [] (-1) false)) =
      geometry ([rectA, arrowB, freehandF].flatMap renderAnnotationCmds) :=
  ⟨rfl,
    (renderers_agree_without_circle_and_text (stateWith [rectA, arrowB, freehandF] [] (-1) false)
      [rectA, arrowB, freehandF] rfl
      (by
        intro a ha
        simp only [List.mem_cons, List.mem_singleton, List.not_mem_nil, or_false] at ha
        rcases ha with rfl | rfl | rfl <;> decide)).2
      (by
        intro a ha
        simp only [List.mem_cons, List.mem_singleton, List.not_mem_nil, or_false] at ha
        rcases ha with rfl | rfl | rfl <;> rfl)⟩

/-- Counterexample to C12 as stated: for the list holding one circle the live
preview traces the arc of centre (50, 50) and radius 5 and the offline renderer an
arc with `NaN` centre and radius, so the two sequences of primitives differ. -/
theorem renderers_disagree_on_circle :
    (stateWith [circleC] [] (-1) false).annotations = some [circleC] ∧
    geometry (drawAnnotations (stateWith [circleC] [] (-1) false)) ≠
      geometry ([circleC].flatMap renderAnnotationCmds) := by
  refine ⟨rfl, fun h => ?_⟩
  have hl : geometry (drawAnnotations (stateWith [circleC] [] (-1) false)) =
      [ Cmd.beginPath,
        Cmd.arc (some 50) (some 50) (some 5) (some ((0 : Nat) : ℚ))
          (some (((2 : Nat) : ℚ) * JSTrig.pi)),
        Cmd.stroke ] := by
    have hd : drawAnnotations (stateWith [circleC] [] (-1) false) =
        drawAnnotationCmds "#ff0000" 2 circleC ++ [] := rfl
    rw [hd, List.append_nil, drawAnnotationCmds_circle "#ff0000" 2 circleC rfl,
      geometry_append, geometry_style]
    rfl
  have hr : geometry ([circleC].flatMap renderAnnotationCmds) =
      [ Cmd.beginPath,
        Cmd.arc none none none (some ((0 : Nat) : ℚ)) (some (((2 : Nat) : ℚ) * JSTrig.pi)),
        Cmd.stroke ] := by
    have hd : [circleC].flatMap renderAnnotationCmds = renderAnnotationCmds circleC ++ [] := rfl
    rw [hd, List.append_nil]
    exact renderAnnotationCmds_circle_geometry circleC rfl rfl rfl
  rw [hl, hr] at h
  injection h with _ h2
  injection h2 with h3 _
  injection h3 with h4
  cases h4

/-! ## Pointer positions -/

section Pointer

variable {R : Type}

/-- C20 as the code has it: `getMousePos` multiplies the device offset by the
ratio of raster size to displayed size in each axis, so the displayed rectangle
is mapped onto the raster: its origin to (0, 0) and its far corner to (W, H).
`handleMouseDown` stores that position as the start position. -/
theorem getMousePos_multiplies_by_ratio [LinearOrderedField R] (e : MouseEvent R)
    (s : State R) (hw : 0 < e.rect.width) (hh : 0 < e.rect.height) :
    (getMousePos e).x = (e.clientX - e.rect.left) * (e.canvasWidth / e.rect.width) ∧
    (getMousePos e).y = (e.clientY - e.rect.top) * (e.canvasHeight / e.rect.height) ∧
    (handleMouseDown s e).startPos = getMousePos e ∧
    (e.clientX = e.rect.left → (getMousePos e).x = 0) ∧
    (e.clientY = e.rect.top → (getMousePos e).y = 0) ∧
    (e.clientX = e.rect.left + e.rect.width → (getMousePos e).x = e.canvasWidth) ∧
    (e.clientY = e.rect.top + e.rect.height → (getMousePos e).y = e.canvasHeight) := by
  have hx : (getMousePos e).x = (e.clientX - e.rect.left) * (e.canvasWidth / e.rect.width) :=
    rfl
  have hy : (getMousePos e).y = (e.clientY - e.rect.top) * (e.canvasHeight / e.rect.height) :=
    rfl
  have hd : (handleMouseDown s e).startPos = getMousePos e := by
    unfold handleMouseDown
    by_cases hf : s.currentTool = "freehand" <;> simp [hf]
  refine ⟨hx, hy, hd, ?_, ?_, ?_, ?_⟩
  · intro h
    rw [hx, h, sub_self, zero_mul]
  · intro h
    rw [hy, h, sub_self, zero_mul]
  · intro h
    rw [hx, h, add_sub_cancel_left, mul_div_cancel₀ _ (ne_of_gt hw)]
  · intro h
    rw [hy, h, add_sub_cancel_left, mul_div_cancel₀ _ (ne_of_gt hh)]

end Pointer

/-- Witness for C20 as corrected: a pointer at the far corner of a canvas of raster
size 800 x 600 displayed at 400 x 300. -/
theorem getMousePos_multiplies_by_ratio_witness :
    (0 : ℚ) < (pointerAt 400 300).rect.width ∧ (0 : ℚ) < (pointerAt 400 300).rect.height ∧
    (getMousePos (pointerAt 400 300)).x =
      ((pointerAt 400 300).clientX - (pointerAt 400 300).rect.left) *
        ((pointerAt 400 300).canvasWidth / (pointerAt 400 300).rect.width) ∧
    (getMousePos (pointerAt 400 300)).x = (pointerAt 400 300).canvasWidth ∧
    (getMousePos (pointerAt 400 300)).y = (pointerAt 400 300).canvasHeight :=
  ⟨by norm_num [pointerAt], by norm_num [pointerAt],
    (getMousePos_multiplies_by_ratio (pointerAt 400 300) (stateWith [] [] (-1) false)
      (by norm_num [pointerAt]) (by norm_num [pointerAt])).1,
    (getMousePos_multiplies_by_ratio (pointerAt 400 300) (stateWith [] [] (-1) false)
      (by norm_num [pointerAt]) (by norm_num [pointerAt])).2.2.2.2.2.1
      (by norm_num [pointerAt]),
    (getMousePos_multiplies_by_ratio (pointerAt 400 300) (stateWith [] [] (-1) false)
      (by norm_num [pointerAt]) (by norm_num [pointerAt])).2.2.2.2.2.2
      (by norm_num [pointerAt])⟩

/-- Counterexample to C20 as stated: on a canvas of raster width 800 displayed at
width 400, the pointer at device offset 10 is at image position 20, not at
10 / (800 / 400) = 5. -/
theorem getMousePos_is_not_a_division :
    (0 : ℚ) < (pointerAt 10 10).rect.width ∧ (0 : ℚ) < (pointerAt 10 10).rect.height ∧
    (getMousePos (pointerAt 10 10)).x = 20 ∧
    ((pointerAt 10 10).clientX - (pointerAt 10 10).rect.left) /
      ((pointerAt 10 10).canvasWidth / (pointerAt 10 10).rect.width) = 5 ∧
    (getMousePos (pointerAt 10 10)).x ≠
      ((pointerAt 10 10).clientX - (pointerAt 10 10).rect.left) /
        ((pointerAt 10 10).canvasWidth / (pointerAt 10 10).rect.width) := by
  refine ⟨by norm_num [pointerAt], by norm_num [pointerAt], ?_, ?_, ?_⟩ <;>
    norm_num [getMousePos, pointerAt]

/-! ## Rectangles and drag direction -/

section Rectangles

variable {R : Type}

/-- The outline of a rectangle, edge by edge. -/
theorem rectOutline_eq [Add R] (x y w h : R) :
    rectOutline x y w h =
      [ { a := { x := x, y := y }, b := { x := x + w, y := y } },
        { a := { x := x + w, y := y }, b := { x := x + w, y := y + h } },
        { a := { x := x + w, y := y + h }, b := { x := x, y := y + h } },
        { a := { x := x, y := y + h }, b := { x := x, y := y } } ] := rfl

theorem strokedRects_append [Add R] (xs ys : List (Cmd R)) :
    strokedRects (xs ++ ys) = strokedRects xs ++ strokedRects ys :=
  List.flatMap_append xs ys _

/-- The outline the offline renderer strokes for a rectangle shape. -/
theorem strokedRects_render [Add R] [Sub R] [Mul R] [Div R] [NatCast R]
    [DecidableEq R] [JSMath R] [JSTrig R] (a : Shape R) (x y w h : R)
    (ha : a.type = "rectangle") (hx : a.x = some x) (hy : a.y = some y)
    (hw : a.width = some w) (hh : a.height = some h) :
    strokedRects (renderAnnotationCmds a) = rectOutline x y w h := by
  rw [renderAnnotationCmds_rectangle a ha, hx, hy, hw, hh]
  simp [strokedRects]

/-- The outline the live preview strokes for a rectangle shape. -/
theorem strokedRects_draw [Add R] [Sub R] [Mul R] [Div R] [NatCast R] [OfScientific R]
    [DecidableEq R] [JSTrig R] (currentColor : String) (strokeWidth : R) (a : Shape R)
    (x y w h : R) (ha : a.type = "rectangle") (hx : a.x = some x) (hy : a.y = some y)
    (hw : a.width = some w) (hh : a.height = some h) :
    strokedRects (drawAnnotationCmds currentColor strokeWidth a) = rectOutline x y w h := by
  rw [drawAnnotationCmds_rectangle currentColor strokeWidth a ha, hx, hy, hw, hh]
  cases hasFill a <;> simp [strokedRects]

/-- A rectangle described from the same or from the opposite corner, with its far
corner computed exactly, has the same edges. -/
theorem rectOutline_sameEdges [Add R] (x y w h x' y' w' h' : R)
    (hX : (x' = x ∧ x' + w' = x + w) ∨ (x' = x + w ∧ x' + w' = x))
    (hY : (y' = y ∧ y' + h' = y + h) ∨ (y' = y + h ∧ y' + h' = y)) :
    SameEdges (rectOutline x y w h) (rectOutline x' y' w' h') := by
  rw [rectOutline_eq, rectOutline_eq]
  rcases hX with ⟨h1, h2⟩ | ⟨h1, h2⟩ <;> rcases hY with ⟨h3, h4⟩ | ⟨h3, h4⟩ <;>
    rw [h2, h4, h1, h3] <;>
    constructor <;> intro s hs <;>
    simp only [List.mem_cons, List.mem_singleton, List.not_mem_nil, or_false] at hs <;>
    rcases hs with rfl | rfl | rfl | rfl <;> simp [Segment.reverse]

end Rectangles

section RectangleClaim

variable {R : Type}

/-- C15 (amended): both renderers pass a rectangle shape `(x, y, w, h)`, with `w`
and `h` of either sign, as it is to `strokeRect` (and `fillRect`); neither
normalises it. The outline stroked goes through `(x, y)`, `(x + w, y)`,
`(x + w, y + h)`, `(x, y + h)`. A rectangle `(x', y', w', h')` that describes
the same box from the same or the opposite corner, its far corner `x' + w'`,
`y' + h'` being computed exactly, is rendered with the same edges by both
renderers; in exact arithmetic the normalised rectangle
`(min x (x + w), min y (y + h), |w|, |h|)` is such a rectangle, and its width and
height are not negative. -/
theorem rectangle_invariant_to_drag_direction [Add R] [Sub R] [Mul R] [Div R] [NatCast R]
    [OfScientific R] [DecidableEq R] [JSMath R] [JSTrig R]
    (currentColor : String) (strokeWidth : R) (a b : Shape R) (x y w h x' y' w' h' : R)
    (ha : a.type = "rectangle") (hx : a.x = some x) (hy : a.y = some y)
    (hw : a.width = some w) (hh : a.height = some h)
    (hb : b.type = "rectangle") (hx' : b.x = some x') (hy' : b.y = some y')
    (hw' : b.width = some w') (hh' : b.height = some h')
    (hX : (x' = x ∧ x' + w' = x + w) ∨ (x' = x + w ∧ x' + w' = x))
    (hY : (y' = y ∧ y' + h' = y + h) ∨ (y' = y + h ∧ y' + h' = y)) :
    geometry (renderAnnotationCmds a) =
      [Cmd.strokeRect (some x) (some y) (some w) (some h)] ∧
    geometry (drawAnnotationCmds currentColor strokeWidth a) =
      [Cmd.strokeRect (some x) (some y) (some w) (some h)] ++
        (if hasFill a then [Cmd.fillRect (some x) (some y) (some w) (some h)] else []) ∧
    strokedRects (renderAnnotationCmds a) =
      [ { a := { x := x, y := y }, b := { x := x + w, y := y } },
        { a := { x := x + w, y := y }, b := { x := x + w, y := y + h } },
        { a := { x := x + w, y := y + h }, b := { x := x, y := y + h } },
        { a := { x := x, y := y + h }, b := { x := x, y := y } } ] ∧
    strokedRects (drawAnnotationCmds currentColor strokeWidth a) =
      strokedRects (renderAnnotationCmds a) ∧
    SameEdges (strokedRects (renderAnnotationCmds a)) (strokedRects (renderAnnotationCmds b)) ∧
    SameEdges (strokedRects (drawAnnotationCmds currentColor strokeWidth a))
      (strokedRects (drawAnnotationCmds currentColor strokeWidth b)) ∧
    (∀ (F : Type) [LinearOrderedField F] (u v : F),
      0 ≤ |v| ∧
      ((min u (u + v) = u ∧ min u (u + v) + |v| = u + v) ∨
        (min u (u + v) = u + v ∧ min u (u + v) + |v| = u))) := by
  have ra := strokedRects_render a x y w h ha hx hy hw hh
  have rb := strokedRects_render b x' y' w' h' hb hx' hy' hw' hh'
  have da := strokedRects_draw currentColor strokeWidth a x y w h ha hx hy hw hh
  have db := strokedRects_draw currentColor strokeWidth b x' y' w' h' hb hx' hy' hw' hh'
  refine ⟨?_, ?_, ?_, ?_, ?_, ?_, ?_⟩
  · rw [renderAnnotationCmds_rectangle a ha, geometry_append, geometry_style, hx, hy, hw, hh]
    rfl
  · rw [drawAnnotationCmds_rectangle currentColor strokeWidth a ha, geometry_append,
      geometry_style, hx, hy, hw, hh]
    cases hasFill a <;> rfl
  · rw [ra, rectOutline_eq]
  · rw [da, ra]
  · rw [ra, rb]
    exact rectOutline_sameEdges x y w h x' y' w' h' hX hY
  · rw [da, db]
    exact rectOutline_sameEdges x y w h x' y' w' h' hX hY
  · intro F _ u v
    refine ⟨abs_nonneg v, ?_⟩
    rcases le_or_lt 0 v with hv | hv
    · left
      rw [min_eq_left (by linarith), abs_of_nonneg hv]
      exact ⟨rfl, rfl⟩
    · right
      rw [min_eq_right (by linarith), abs_of_neg hv]
      exact ⟨rfl, by ring⟩

end RectangleClaim

/-- Witness for C15 (amended): the rectangle dragged from (50, 50) up and to the
left by (30, 20) and the rectangle (20, 30, 30, 20) have the same edges. -/
theorem rectangle_invariant_to_drag_direction_witness :
    reversedRect.type = "rectangle" ∧ reversedRect.x = some 50 ∧ reversedRect.y = some 50 ∧
    reversedRect.width = some (-30) ∧ reversedRect.height = some (-20) ∧
    rectA.type = "rectangle" ∧ rectA.x = some 20 ∧ rectA.y = some 30 ∧
    rectA.width = some 30 ∧ rectA.height = some 20 ∧
    SameEdges (strokedRects (renderAnnotationCmds reversedRect))
      (strokedRects (renderAnnotationCmds rectA)) ∧
    SameEdges (strokedRects (drawAnnotationCmds "#0000ff" 3 reversedRect))
      (strokedRects (drawAnnotationCmds "#0000ff" 3 rectA)) :=
  ⟨rfl, rfl, rfl, rfl, rfl, rfl, rfl, rfl, rfl, rfl,
    (rectangle_invariant_to_drag_direction "#0000ff" 3 reversedRect rectA 50 50 (-30) (-20)
      20 30 30 20 rfl rfl rfl rfl rfl rfl rfl rfl rfl rfl
      (Or.inr ⟨by norm_num, by norm_num⟩) (Or.inr ⟨by norm_num, by norm_num⟩)).2.2.2.2.1,
    (rectangle_invariant_to_drag_direction "#0000ff" 3 reversedRect rectA 50 50 (-30) (-20)
      20 30 30 20 rfl rfl rfl rfl rfl rfl rfl rfl rfl rfl
      (Or.inr ⟨by norm_num, by norm_num⟩) (Or.inr ⟨by norm_num, by norm_num⟩)).2.2.2.2.2.1⟩

/-- Counterexample to C15 as stated, in double-precision arithmetic: the rectangle
`(0.1, 0.1, -0.5, -0.5)` and its normalised rectangle `(-0.4, -0.4, 0.5, 0.5)` are
not rendered as the same box. The far corner of the normalised rectangle is
`-0.4 + 0.5`, which is `0.09999999999999998` (`900719925474099 / 2 ^ 53`) and
not `0.1`, so the corner `(0.1, 0.1)` of the first outline is no corner of the
second. This holds whatever the remaining arithmetic of the renderer is. -/
theorem rectangle_box_differs_from_normalised :
    Dbl.tenth + -Dbl.half = ⟨-3602879701896397, -53⟩ ∧
    (Dbl.tenth + -Dbl.half) + Dbl.half = ⟨900719925474099, -53⟩ ∧
    (Dbl.tenth + -Dbl.half) + Dbl.half ≠ Dbl.tenth ∧
    (∀ [Mul Dbl] [Div Dbl] [NatCast Dbl] [JSMath Dbl] [JSTrig Dbl],
      ¬ SameEdges (strokedRects (renderAnnotationCmds offGridRect))
        (strokedRects (renderAnnotationCmds offGridRectNormalised))) := by
  refine ⟨by decide, by decide, by decide, ?_⟩
  intro _ _ _ _ _
  rw [strokedRects_render offGridRect Dbl.tenth Dbl.tenth (-Dbl.half) (-Dbl.half)
      rfl rfl rfl rfl rfl,
    strokedRects_render offGridRectNormalised (Dbl.tenth + -Dbl.half) (Dbl.tenth + -Dbl.half)
      Dbl.half Dbl.half rfl rfl rfl rfl rfl]
  decide

/-! ## Arrowheads -/

section Arrows

/-- The trigonometric identities behind the arrowhead: a head segment has length 10
and makes the angle `π / 6` with the shaft, on the side given by the sign. -/
theorem arrowhead_identities (sx sy ex ey θ L tx ty σ : ℝ)
    (hc : L * Real.cos θ = ex - sx) (hs : L * Real.sin θ = ey - sy)
    (hσ : σ = 1 ∨ σ = -1)
    (htx : tx = ex - 10 * Real.cos (θ - σ * (Real.pi / 6)))
    (hty : ty = ey - 10 * Real.sin (θ - σ * (Real.pi / 6))) :
    (tx - ex) ^ 2 + (ty - ey) ^ 2 = 10 ^ 2 ∧
    (tx - ex) * (sx - ex) + (ty - ey) * (sy - ey) = 10 * L * Real.cos (Real.pi / 6) ∧
    (sx - ex) * (ty - ey) - (sy - ey) * (tx - ex) = -(σ * (5 * L)) := by
  have h1 := Real.cos_sq_add_sin_sq (θ - σ * (Real.pi / 6))
  have h2 := Real.cos_sq_add_sin_sq θ
  have h3 := Real.cos_sq_add_sin_sq (Real.pi / 6)
  have hsin6 : Real.sin (Real.pi / 6) = 1 / 2 := Real.sin_pi_div_six
  have hcs : Real.cos (σ * (Real.pi / 6)) = Real.cos (Real.pi / 6) := by
    rcases hσ with h | h <;> rw [h] <;> simp
  have hss : Real.sin (σ * (Real.pi / 6)) = σ * (1 / 2) := by
    rcases hσ with h | h <;> rw [h] <;> simp [hsin6]
  have hcd := Real.cos_sub θ (σ * (Real.pi / 6))
  have hsd := Real.sin_sub θ (σ * (Real.pi / 6))
  rw [hcs, hss] at hcd hsd
  have hsx : sx - ex = -(L * Real.cos θ) := by linarith
  have hsy : sy - ey = -(L * Real.sin θ) := by linarith
  have hσ2 : σ ^ 2 = 1 := by
    rcases hσ with h | h <;> rw [h] <;> norm_num
  refine ⟨?_, ?_, ?_⟩
  · rw [htx, hty]
    linear_combination 100 * h1
  · rw [htx, hty, hsx, hsy, hcd, hsd]
    linear_combination (10 * L * Real.cos (Real.pi / 6)) * h2
  · rw [htx, hty, hsx, hsy, hcd, hsd]
    linear_combination (-(5 * L * σ)) * h2

end Arrows

section ArrowClaim

/-- The polar form of the shaft: with `θ = atan2 (ey - sy) (ex - sx)` and `L` the
length of the shaft, `L cos θ = ex - sx` and `L sin θ = ey - sy`. -/
theorem shaft_polar (sx sy ex ey : ℝ) :
    Real.sqrt ((ex - sx) ^ 2 + (ey - sy) ^ 2) *
        Real.cos (Complex.arg ⟨ex - sx, ey - sy⟩) = ex - sx ∧
    Real.sqrt ((ex - sx) ^ 2 + (ey - sy) ^ 2) *
        Real.sin (Complex.arg ⟨ex - sx, ey - sy⟩) = ey - sy := by
  have habs : Complex.abs ⟨ex - sx, ey - sy⟩ = Real.sqrt ((ex - sx) ^ 2 + (ey - sy) ^ 2) := by
    rw [Complex.abs_apply, Complex.normSq_mk]
    congr 1
    ring
  rw [← habs]
  exact ⟨Complex.abs_mul_cos_arg _, Complex.abs_mul_sin_arg _⟩

theorem shaft_length_pos (sx sy ex ey : ℝ) (hne : sx ≠ ex ∨ sy ≠ ey) :
    0 < Real.sqrt ((ex - sx) ^ 2 + (ey - sy) ^ 2) := by
  apply Real.sqrt_pos.mpr
  rcases hne with h | h
  · have : ex - sx ≠ 0 := sub_ne_zero.mpr (Ne.symm h)
    positivity
  · have : ey - sy ≠ 0 := sub_ne_zero.mpr (Ne.symm h)
    positivity

/-- The exact geometry of the arrowhead formulas: for a shaft from `(px, py)` to a
different point `(qx, qy)`, with `θ` the direction of the shaft and `L` its
length, the points `q - 10 (cos (θ ∓ π/6), sin (θ ∓ π/6))` are at distance 10
from `q`, and the segments from `q` to them make the angle `π / 6` with the
shaft as seen from `q`, one on each side. -/
theorem arrowhead_exact (px py qx qy θ L t1x t1y t2x t2y : ℝ)
    (hne : px ≠ qx ∨ py ≠ qy)
    (hθ : θ = Complex.arg ⟨qx - px, qy - py⟩)
    (hL : L = Real.sqrt ((qx - px) ^ 2 + (qy - py) ^ 2))
    (h1x : t1x = qx - 10 * Real.cos (θ - Real.pi / 6))
    (h1y : t1y = qy - 10 * Real.sin (θ - Real.pi / 6))
    (h2x : t2x = qx - 10 * Real.cos (θ + Real.pi / 6))
    (h2y : t2y = qy - 10 * Real.sin (θ + Real.pi / 6)) :
    0 < L ∧
    (t1x - qx) ^ 2 + (t1y - qy) ^ 2 = 10 ^ 2 ∧
    (t2x - qx) ^ 2 + (t2y - qy) ^ 2 = 10 ^ 2 ∧
    Real.arccos (((t1x - qx) * (px - qx) + (t1y - qy) * (py - qy)) / (10 * L)) =
      Real.pi / 6 ∧
    Real.arccos (((t2x - qx) * (px - qx) + (t2y - qy) * (py - qy)) / (10 * L)) =
      Real.pi / 6 ∧
    (px - qx) * (t1y - qy) - (py - qy) * (t1x - qx) = -(5 * L) ∧
    (px - qx) * (t2y - qy) - (py - qy) * (t2x - qx) = 5 * L := by
  have hLpos : 0 < L := by
    rw [hL]
    exact shaft_length_pos px py qx qy hne
  obtain ⟨pc, ps⟩ := shaft_polar px py qx qy
  rw [← hL, ← hθ] at pc ps
  obtain ⟨a1, a2, a3⟩ := arrowhead_identities px py qx qy θ L t1x t1y 1 pc ps (Or.inl rfl)
    (by rw [h1x, one_mul]) (by rw [h1y, one_mul])
  obtain ⟨b1, b2, b3⟩ := arrowhead_identities px py qx qy θ L t2x t2y (-1) pc ps (Or.inr rfl)
    (by rw [h2x]; congr 2; ring_nf) (by rw [h2y]; congr 2; ring_nf)
  have hangle : ∀ d : ℝ, d = 10 * L * Real.cos (Real.pi / 6) →
      Real.arccos (d / (10 * L)) = Real.pi / 6 := by
    intro d hd
    have h10 : (10 * L) ≠ 0 := by positivity
    rw [hd, mul_div_cancel_left₀ _ h10]
    exact Real.arccos_cos (by positivity) (by linarith [Real.pi_pos])
  refine ⟨hLpos, a1, b1, hangle _ a2, hangle _ b2, ?_, ?_⟩
  · rw [a3]
    ring
  · rw [b3]
    ring

end ArrowClaim

section ArrowGeometry

variable {R : Type}

/-- The calls of `drawArrow` for defined coordinates. -/
theorem drawArrow_some [Add R] [Sub R] [Mul R] [Div R] [NatCast R] [JSTrig R]
    (sx sy ex ey : R) :
    drawArrow (some sx) (some sy) (some ex) (some ey) =
      [ Cmd.beginPath, Cmd.moveTo (some sx) (some sy), Cmd.lineTo (some ex) (some ey),
        Cmd.stroke, Cmd.beginPath, Cmd.moveTo (some ex) (some ey),
        Cmd.lineTo
          (some (ex - ((10 : Nat) : R) *
            JSTrig.cos (JSTrig.atan2 (ey - sy) (ex - sx) - JSTrig.pi / ((6 : Nat) : R))))
          (some (ey - ((10 : Nat) : R) *
            JSTrig.sin (JSTrig.atan2 (ey - sy) (ex - sx) - JSTrig.pi / ((6 : Nat) : R)))),
        Cmd.moveTo (some ex) (some ey),
        Cmd.lineTo
          (some (ex - ((10 : Nat) : R) *
            JSTrig.cos (JSTrig.atan2 (ey - sy) (ex - sx) + JSTrig.pi / ((6 : Nat) : R))))
          (some (ey - ((10 : Nat) : R) *
            JSTrig.sin (JSTrig.atan2 (ey - sy) (ex - sx) + JSTrig.pi / ((6 : Nat) : R)))),
        Cmd.stroke ] := by
  unfold drawArrow
  simp only [num2_some, Option.map_some']

/-- The segments stroked for an arrow by the offline renderer. -/
theorem strokedSegments_render_arrow [Add R] [Sub R] [Mul R] [Div R] [NatCast R]
    [DecidableEq R] [JSMath R] [JSTrig R] (a : Shape R) (sx sy ex ey : R)
    (ha : a.type = "arrow") (hsx : a.startX = some sx) (hsy : a.startY = some sy)
    (hex : a.endX = some ex) (hey : a.endY = some ey) :
    strokedSegments (renderAnnotationCmds a) =
      [ { a := { x := sx, y := sy }, b := { x := ex, y := ey } },
        { a := { x := ex, y := ey },
          b := { x := ex - ((10 : Nat) : R) *
                   JSTrig.cos (JSTrig.atan2 (ey - sy) (ex - sx) - JSTrig.pi / ((6 : Nat) : R))
                 y := ey - ((10 : Nat) : R) *
                   JSTrig.sin (JSTrig.atan2 (ey - sy) (ex - sx) - JSTrig.pi / ((6 : Nat) : R)) } },
        { a := { x := ex, y := ey },
          b := { x := ex - ((10 : Nat) : R) *
                   JSTrig.cos (JSTrig.atan2 (ey - sy) (ex - sx) + JSTrig.pi / ((6 : Nat) : R))
                 y := ey - ((10 : Nat) : R) *
                   JSTrig.sin (JSTrig.atan2 (ey - sy) (ex - sx) + JSTrig.pi / ((6 : Nat) : R)) } } ] := by
  rw [renderAnnotationCmds_arrow a ha, strokedSegments_style, hsx, hsy, hex, hey,
    drawArrow_some]
  rfl

/-- C16 (amended): for every arrow, both renderers stroke the shaft from start to
end and two arrowhead segments from the end point to the tips
`end - 10 (cos (θ ∓ π/6), sin (θ ∓ π/6))`, where `θ = atan2 (ey - sy) (ex - sx)`,
all computed with the arithmetic and the `Math` functions of the program. In
exact real arithmetic, for an arrow whose start and end differ, these tips are
at distance 10 from the end point and the head segments make the angle `π / 6`
(30 degrees) with the shaft, one on each side, pointing back toward the start. -/
theorem arrowhead_length_and_angle [Add R] [Sub R] [Mul R] [Div R] [NatCast R]
    [OfScientific R] [DecidableEq R] [JSMath R] [JSTrig R]
    (currentColor : String) (strokeWidth : R) (a : Shape R) (sx sy ex ey : R)
    (ha : a.type = "arrow") (hsx : a.startX = some sx) (hsy : a.startY = some sy)
    (hex : a.endX = some ex) (hey : a.endY = some ey) :
    strokedSegments (renderAnnotationCmds a) =
      [ { a := { x := sx, y := sy }, b := { x := ex, y := ey } },
        { a := { x := ex, y := ey },
          b := { x := ex - ((10 : Nat) : R) *
                   JSTrig.cos (JSTrig.atan2 (ey - sy) (ex - sx) - JSTrig.pi / ((6 : Nat) : R))
                 y := ey - ((10 : Nat) : R) *
                   JSTrig.sin (JSTrig.atan2 (ey - sy) (ex - sx) - JSTrig.pi / ((6 : Nat) : R)) } },
        { a := { x := ex, y := ey },
          b := { x := ex - ((10 : Nat) : R) *
                   JSTrig.cos (JSTrig.atan2 (ey - sy) (ex - sx) + JSTrig.pi / ((6 : Nat) : R))
                 y := ey - ((10 : Nat) : R) *
                   JSTrig.sin (JSTrig.atan2 (ey - sy) (ex - sx) + JSTrig.pi / ((6 : Nat) : R)) } } ] ∧
    strokedSegments (drawAnnotationCmds currentColor strokeWidth a) =
      strokedSegments (renderAnnotationCmds a) ∧
    geometry (drawAnnotationCmds currentColor strokeWidth a) =
      geometry (renderAnnotationCmds a) ∧
    (∀ px py qx qy θ L t1x t1y t2x t2y : ℝ,
      (px ≠ qx ∨ py ≠ qy) →
      θ = Complex.arg ⟨qx - px, qy - py⟩ →
      L = Real.sqrt ((qx - px) ^ 2 + (qy - py) ^ 2) →
      t1x = qx - 10 * Real.cos (θ - Real.pi / 6) →
      t1y = qy - 10 * Real.sin (θ - Real.pi / 6) →
      t2x = qx - 10 * Real.cos (θ + Real.pi / 6) →
      t2y = qy - 10 * Real.sin (θ + Real.pi / 6) →
      0 < L ∧
      (t1x - qx) ^ 2 + (t1y - qy) ^ 2 = 10 ^ 2 ∧
      (t2x - qx) ^ 2 + (t2y - qy) ^ 2 = 10 ^ 2 ∧
      Real.arccos (((t1x - qx) * (px - qx) + (t1y - qy) * (py - qy)) / (10 * L)) =
        Real.pi / 6 ∧
      Real.arccos (((t2x - qx) * (px - qx) + (t2y - qy) * (py - qy)) / (10 * L)) =
        Real.pi / 6 ∧
      (px - qx) * (t1y - qy) - (py - qy) * (t1x - qx) = -(5 * L) ∧
      (px - qx) * (t2y - qy) - (py - qy) * (t2x - qx) = 5 * L) := by
  refine ⟨strokedSegments_render_arrow a sx sy ex ey ha hsx hsy hex hey, ?_, ?_, ?_⟩
  · rw [drawAnnotationCmds_arrow currentColor strokeWidth a ha, renderAnnotationCmds_arrow a ha,
      strokedSegments_style, strokedSegments_style]
  · rw [drawAnnotationCmds_arrow currentColor strokeWidth a ha, renderAnnotationCmds_arrow a ha,
      geometry_append, geometry_append, geometry_style, geometry_style]
  · intro px py qx qy θ L t1x t1y t2x t2y hne hθ hL h1x h1y h2x h2y
    exact arrowhead_exact px py qx qy θ L t1x t1y t2x t2y hne hθ hL h1x h1y h2x h2y

end ArrowGeometry

theorem arg_of_horizontal_shaft : (0 : ℝ) = Complex.arg ⟨100 - 0, 0 - 0⟩ := by
  have h : (⟨100 - 0, 0 - 0⟩ : ℂ) = ((100 : ℝ) : ℂ) := by
    apply Complex.ext <;> simp
  rw [h, Complex.arg_ofReal_of_nonneg (by norm_num)]

theorem length_of_horizontal_shaft :
    (100 : ℝ) = Real.sqrt (((100 : ℝ) - 0) ^ 2 + ((0 : ℝ) - 0) ^ 2) := by
  have h : ((100 : ℝ) - 0) ^ 2 + ((0 : ℝ) - 0) ^ 2 = 100 ^ 2 := by norm_num
  rw [h, Real.sqrt_sq (by norm_num)]

/-- Witness for C16 (amended): the arrow from (0, 0) to (100, 0). Run in rational
arithmetic, both renderers stroke the same three segments, the first of which is
the shaft; in exact real arithmetic the tip formulas give
`(100 - 10 cos 30°, 5)` and `(100 - 10 cos 30°, -5)`, at distance 10 from the
end point and at the angle `π / 6` from the shaft. -/
theorem arrowhead_length_and_angle_witness :
    arrowB.type = "arrow" ∧ arrowB.startX = some 0 ∧ arrowB.startY = some 0 ∧
    arrowB.endX = some 100 ∧ arrowB.endY = some 0 ∧
    strokedSegments (drawAnnotationCmds "#ff0000" 2 arrowB) =
      strokedSegments (renderAnnotationCmds arrowB) ∧
    (strokedSegments (renderAnnotationCmds arrowB)).head? =
      some { a := { x := 0, y := 0 }, b := { x := 100, y := 0 } } ∧
    ((100 - 10 * Real.cos (Real.pi / 6) - 100) ^ 2 + ((5 : ℝ) - 0) ^ 2 = 10 ^ 2) ∧
    ((100 - 10 * Real.cos (Real.pi / 6) - 100) ^ 2 + ((-5 : ℝ) - 0) ^ 2 = 10 ^ 2) ∧
    Real.arccos (((100 - 10 * Real.cos (Real.pi / 6) - 100) * (0 - 100) +
      ((5 : ℝ) - 0) * (0 - 0)) / (10 * 100)) = Real.pi / 6 :=
  ⟨rfl, rfl, rfl, rfl, rfl,
    (arrowhead_length_and_angle "#ff0000" 2 arrowB 0 0 100 0 rfl rfl rfl rfl rfl).2.1,
    by rw [(arrowhead_length_and_angle "#ff0000" 2 arrowB 0 0 100 0 rfl rfl rfl rfl rfl).1]
       rfl,
    ((arrowhead_length_and_angle "#ff0000" 2 arrowB 0 0 100 0 rfl rfl rfl rfl rfl).2.2.2
      0 0 100 0 0 100 (100 - 10 * Real.cos (Real.pi / 6)) 5
      (100 - 10 * Real.cos (Real.pi / 6)) (-5) (Or.inl (by norm_num))
      arg_of_horizontal_shaft length_of_horizontal_shaft
      (by rw [zero_sub, Real.cos_neg])
      (by rw [show (0 : ℝ) - Real.pi / 6 = -(Real.pi / 6) by ring, Real.sin_neg,
        Real.sin_pi_div_six]; norm_num)
      (by rw [zero_add])
      (by rw [zero_add, Real.sin_pi_div_six]; norm_num)).2.1,
    ((arrowhead_length_and_angle "#ff0000" 2 arrowB 0 0 100 0 rfl rfl rfl rfl rfl).2.2.2
      0 0 100 0 0 100 (100 - 10 * Real.cos (Real.pi / 6)) 5
      (100 - 10 * Real.cos (Real.pi / 6)) (-5) (Or.inl (by norm_num))
      arg_of_horizontal_shaft length_of_horizontal_shaft
      (by rw [zero_sub, Real.cos_neg])
      (by rw [show (0 : ℝ) - Real.pi / 6 = -(Real.pi / 6) by ring, Real.sin_neg,
        Real.sin_pi_div_six]; norm_num)
      (by rw [zero_add])
      (by rw [zero_add, Real.sin_pi_div_six]; norm_num)).2.2.1,
    ((arrowhead_length_and_angle "#ff0000" 2 arrowB 0 0 100 0 rfl rfl rfl rfl rfl).2.2.2
      0 0 100 0 0 100 (100 - 10 * Real.cos (Real.pi / 6)) 5
      (100 - 10 * Real.cos (Real.pi / 6)) (-5) (Or.inl (by norm_num))
      arg_of_horizontal_shaft length_of_horizontal_shaft
      (by rw [zero_sub, Real.cos_neg])
      (by rw [show (0 : ℝ) - Real.pi / 6 = -(Real.pi / 6) by ring, Real.sin_neg,
        Real.sin_pi_div_six]; norm_num)
      (by rw [zero_add])
      (by rw [zero_add, Real.sin_pi_div_six]; norm_num)).2.2.2.1⟩

/-- The value of a double is never `100 - 10 cos 30°`, which is irrational. -/
theorem dbl_ne_claimed_tip (d : Dbl) :
    ((d.toRat : ℚ) : ℝ) ≠ 100 - 10 * Real.cos (Real.pi / 6) := by
  intro h
  rw [Real.cos_pi_div_six] at h
  have hirr : Irrational (Real.sqrt 3) := Nat.prime_three.irrational_sqrt
  apply hirr
  refine ⟨(100 - d.toRat) / 5, ?_⟩
  push_cast
  rw [h]
  ring

/-- A segment whose end points have rational coordinates does not both have the
length 10 and make the angle 30° with the shaft that runs from (0, 0) to
(100, 0): that would put its horizontal extent at `-5 √3`. -/
theorem rational_head_is_not_exact (vx vy : ℚ) :
    ¬ (((vx : ℝ)) ^ 2 + ((vy : ℝ)) ^ 2 = 10 ^ 2 ∧
      Real.arccos ((((vx : ℝ)) * (0 - 100) + ((vy : ℝ)) * (0 - 0)) / (10 * 100)) =
        Real.pi / 6) := by
  rintro ⟨hlen, hang⟩
  have hsq : ((vx : ℝ)) ^ 2 ≤ 10 ^ 2 := by nlinarith [sq_nonneg ((vy : ℝ))]
  have habs : |((vx : ℝ))| ≤ 10 := by
    have := abs_le_of_sq_le_sq hsq (by norm_num)
    simpa using this
  obtain ⟨hlo, hhi⟩ := abs_le.mp habs
  have hcos := Real.cos_arccos
    (show (-1 : ℝ) ≤ (((vx : ℝ)) * (0 - 100) + ((vy : ℝ)) * (0 - 0)) / (10 * 100) by
      rw [le_div_iff₀ (by norm_num)]; linarith)
    (show (((vx : ℝ)) * (0 - 100) + ((vy : ℝ)) * (0 - 0)) / (10 * 100) ≤ 1 by
      rw [div_le_iff₀ (by norm_num)]; linarith)
  rw [hang, Real.cos_pi_div_six] at hcos
  have hirr : Irrational (Real.sqrt 3) := Nat.prime_three.irrational_sqrt
  apply hirr
  refine ⟨-vx / 5, ?_⟩
  push_cast
  linarith

/-- Counterexample to C16 as stated: for the arrow from (0, 0) to (100, 0) in
double-precision numbers the renderers stroke three segments; no end point of a
stroked segment has the abscissa `100 - 10 cos 30°` of the claimed tips
`(100 - 10 cos 30°, ±5)`, and no stroked segment has both the length 10 and the
angle 30° with the shaft: either would need an irrational coordinate, and every
double is a rational number. This holds whatever `Math.atan2`, `Math.cos` and
`Math.sin` return and whatever the rounding of the products is. -/
theorem arrowhead_tips_are_not_exact :
    Dbl.hundred.toRat = 100 ∧ Dbl.zero.toRat = 0 ∧
    (∀ [Mul Dbl] [Div Dbl] [NatCast Dbl] [OfScientific Dbl] [JSMath Dbl] [JSTrig Dbl],
      (strokedSegments (renderAnnotationCmds horizontalArrow)).length = 3 ∧
      (strokedSegments (renderAnnotationCmds horizontalArrow)).head? =
        some { a := { x := Dbl.zero, y := Dbl.zero },
               b := { x := Dbl.hundred, y := Dbl.zero } } ∧
      strokedSegments (drawAnnotationCmds "#ff0000" Dbl.two horizontalArrow) =
        strokedSegments (renderAnnotationCmds horizontalArrow) ∧
      (∀ seg ∈ strokedSegments (renderAnnotationCmds horizontalArrow),
        ((seg.b.x.toRat : ℚ) : ℝ) ≠ 100 - 10 * Real.cos (Real.pi / 6)) ∧
      (∀ seg ∈ strokedSegments (renderAnnotationCmds horizontalArrow),
        ¬ ((((seg.b.x.toRat - seg.a.x.toRat : ℚ) : ℝ)) ^ 2 +
            (((seg.b.y.toRat - seg.a.y.toRat : ℚ) : ℝ)) ^ 2 = 10 ^ 2 ∧
          Real.arccos (((((seg.b.x.toRat - seg.a.x.toRat : ℚ) : ℝ)) * (0 - 100) +
            (((seg.b.y.toRat - seg.a.y.toRat : ℚ) : ℝ)) * (0 - 0)) / (10 * 100)) =
            Real.pi / 6))) := by
  refine ⟨by norm_num [Dbl.toRat, Dbl.hundred], by norm_num [Dbl.toRat, Dbl.zero], ?_⟩
  intro _ _ _ _ _ _
  have hdraw : strokedSegments (drawAnnotationCmds "#ff0000" Dbl.two horizontalArrow) =
      strokedSegments (renderAnnotationCmds horizontalArrow) := by
    rw [drawAnnotationCmds_arrow "#ff0000" Dbl.two horizontalArrow rfl,
      renderAnnotationCmds_arrow horizontalArrow rfl, strokedSegments_style,
      strokedSegments_style]
  refine ⟨?_, ?_, hdraw, fun seg _ => dbl_ne_claimed_tip seg.b.x,
    fun seg _ => rational_head_is_not_exact _ _⟩
  · rw [strokedSegments_render_arrow horizontalArrow Dbl.zero Dbl.zero Dbl.hundred Dbl.zero
      rfl rfl rfl rfl rfl]
    rfl
  · rw [strokedSegments_render_arrow horizontalArrow Dbl.zero Dbl.zero Dbl.hundred Dbl.zero
      rfl rfl rfl rfl rfl]
    rfl

/-! ## The session invariant is kept by every event -/

section Invariant

variable {R : Type}

theorem sessionInv_of_same (a0 : List (Shape R)) (s t : State R)
    (h1 : t.history = s.history) (h2 : t.historyIndex = s.historyIndex)
    (h3 : t.annotations = s.annotations) (h : SessionInv a0 s) : SessionInv a0 t := by
  unfold SessionInv HistoryOk at *
  rw [h1, h2, h3]
  exact h

theorem sessionInv_atCursor (a0 : List (Shape R)) (s : State R) (i : Int)
    (h : SessionInv a0 s) (h0 : 0 ≤ i) (h1 : i < (s.history.length : Int)) :
    SessionInv a0 (atCursor s i) := by
  obtain ⟨-, -, -, hfirst, hchain⟩ := h
  refine ⟨⟨?_, h1⟩, ?_, fun _ => ⟨h0, rfl⟩, hfirst, hchain⟩
  · show -1 ≤ i
    omega
  · intro hnil
    have hh : s.history = [] := hnil
    rw [hh] at h1
    simp at h1
    omega

/-- A pointer-up leaves history, cursor and working set alone, or commits the
working set extended by the new shape. -/
theorem handleMouseUp_cases [Add R] [Sub R] [Mul R] [Div R] [JSMath R]
    (s : State R) (e : MouseEvent R) :
    ((handleMouseUp s e).history = s.history ∧
      (handleMouseUp s e).historyIndex = s.historyIndex ∧
      (handleMouseUp s e).annotations = s.annotations) ∨
    (s.isDrawing = true ∧ ∃ ws, s.annotations = some ws ∧
      (handleMouseUp s e).annotations = some (ws ++ [ newAnnotation s (getMousePos e)]) ∧
      (handleMouseUp s e).history =
        (addToHistory s.history s.historyIndex
          (ws ++ [ newAnnotation s (getMousePos e)])).1 ∧
      (handleMouseUp s e).historyIndex =
        (addToHistory s.history s.historyIndex
          (ws ++ [ newAnnotation s (getMousePos e)])).2) := by
  by_cases hd : s.isDrawing = true
  · cases ha : s.annotations with
    | none =>
      left
      unfold handleMouseUp
      by_cases hf : s.currentTool = "freehand" <;> simp [hd, ha, hf]
    | some ws =>
      right
      obtain ⟨u1, u2, u3, -⟩ := handleMouseUp_drawing s e ws hd ha
      exact ⟨hd, ws, rfl, u1, u2, u3⟩
  · left
    unfold handleMouseUp
    simp [hd]

/-- A commit keeps the session invariant. -/
theorem sessionInv_commit (a0 : List (Shape R)) (s t : State R) (ws : List (Shape R))
    (shape : Shape R) (h : SessionInv a0 s) (hws : s.annotations = some ws)
    (hth : t.history = (addToHistory s.history s.historyIndex (ws ++ [shape])).1)
    (hti : t.historyIndex = (addToHistory s.history s.historyIndex (ws ++ [shape])).2)
    (hta : t.annotations = some (ws ++ [shape])) : SessionInv a0 t := by
  obtain ⟨⟨hlo, hhi⟩, hempty, hfull, hfirst, hchain⟩ := h
  have g1 := addToHistory_fst s.history s.historyIndex (ws ++ [shape]) hlo
  have g2 := addToHistory_snd s.history s.historyIndex (ws ++ [shape]) hlo hhi
  rw [g1] at hth
  rw [g2] at hti
  have hn : (s.history.take (s.historyIndex + 1).toNat).length = (s.historyIndex + 1).toNat := by
    rw [List.length_take]
    omega
  have hlast : t.history[(s.historyIndex + 1).toNat]? = some (ws ++ [shape]) := by
    rw [hth, List.getElem?_append_right (by omega), hn]
    simp
  have hlen : t.history.length = (s.historyIndex + 1).toNat + 1 := by
    rw [hth, List.length_append, hn, List.length_singleton]
  have hpre : ∀ i : Nat, i < (s.historyIndex + 1).toNat → t.history[i]? = s.history[i]? := by
    intro i hi
    rw [hth, List.getElem?_append_left (by omega), List.getElem?_take_of_lt hi]
  refine ⟨⟨by rw [hti]; omega, by rw [hti, hlen]; omega⟩, ?_, ?_, ?_, ?_⟩
  · intro hnil
    rw [hnil] at hlen
    simp at hlen
  · intro _
    refine ⟨by rw [hti]; omega, ?_⟩
    rw [hta, hti, jsIndex_of_nonneg _ _ (by omega), hlast]
  · intro first hf
    by_cases hz : (s.historyIndex + 1).toNat = 0
    · rw [hz] at hlast
      rw [hlast] at hf
      have hnil : s.history = [] := by
        by_contra hne
        have := (hfull hne).1
        omega
      have hw := hempty hnil
      rw [hws] at hw
      injection hw with hw
      injection hf with hf
      exact ⟨shape, by rw [← hf, hw]⟩
    · rw [hpre 0 (by omega)] at hf
      exact hfirst first hf
  · intro i a b hia hib
    by_cases hi : i + 1 < (s.historyIndex + 1).toNat
    · rw [hpre i (by omega)] at hia
      rw [hpre (i + 1) hi] at hib
      exact hchain i a b hia hib
    · by_cases hi2 : i + 1 = (s.historyIndex + 1).toNat
      · rw [hi2, hlast] at hib
        rw [hpre i (by omega)] at hia
        have hne : s.history ≠ [] := by
          intro hnil
          rw [hnil] at hhi
          simp at hhi
          omega
        have hann := (hfull hne).2
        rw [hws, jsIndex_of_nonneg _ _ (hfull hne).1] at hann
        have hidx : s.historyIndex.toNat = i := by omega
        rw [hidx, hia] at hann
        injection hann with hann
        injection hib with hib
        exact ⟨shape, by rw [← hib, hann]⟩
      · have : t.history[i + 1]? = none := by
          rw [List.getElem?_eq_none_iff, hlen]
          omega
        rw [this] at hib
        cases hib

theorem step_sessionInv [Add R] [Sub R] [Mul R] [Div R] [JSMath R]
    (a0 : List (Shape R)) (s : State R) (ev : Event R) (h : SessionInv a0 s) :
    SessionInv a0 (step s ev) := by
  cases ev with
  | mouseDown e =>
    obtain ⟨d1, d2, d3, -⟩ := handleMouseDown_frame s e
    exact sessionInv_of_same a0 s _ d1 d2 d3 h
  | mouseMove e =>
    obtain ⟨d1, d2, d3, -⟩ := handleMouseMove_frame s e
    exact sessionInv_of_same a0 s _ d1 d2 d3 h
  | mouseUp e =>
    rcases handleMouseUp_cases s e with ⟨h1, h2, h3⟩ | ⟨-, ws, hws, u1, u2, u3⟩
    · exact sessionInv_of_same a0 s _ h1 h2 h3 h
    · exact sessionInv_commit a0 s _ ws _ h hws u2 u3 u1
  | undo =>
    show SessionInv a0 (handleUndo s)
    rw [handleUndo_eq]
    split_ifs with hc
    · exact sessionInv_atCursor a0 s _ h (by omega) (by have := h.1.2; omega)
    · exact h
  | redo =>
    show SessionInv a0 (handleRedo s)
    rw [handleRedo_eq]
    split_ifs with hc
    · exact sessionInv_atCursor a0 s _ h (by have := h.1.1; omega) (by omega)
    · exact h
  | setCurrentTool id => exact sessionInv_of_same a0 s _ rfl rfl rfl h
  | setCurrentColor c => exact sessionInv_of_same a0 s _ rfl rfl rfl h
  | setStrokeWidth w => exact sessionInv_of_same a0 s _ rfl rfl rfl h

theorem run_sessionInv [Add R] [Sub R] [Mul R] [Div R] [JSMath R]
    (a0 : List (Shape R)) (tr : List (Event R)) (s : State R) (h : SessionInv a0 s) :
    SessionInv a0 (run s tr) := by
  induction tr generalizing s with
  | nil => exact h
  | cons ev tr ih => exact ih (step s ev) (step_sessionInv a0 s ev h)

theorem sessionStart_inv [OfNat R 0] [OfNat R 2] (ad : Option (AnnotationData R)) :
    SessionInv (loadedAnnotations ad) (sessionStart ad) := by
  have hh : (sessionStart ad).history = [] := (sessionStart_facts ad).1
  have hi : (sessionStart ad).historyIndex = -1 := (sessionStart_facts ad).2.1
  have ha : (sessionStart ad).annotations = some (loadedAnnotations ad) := by
    cases ad with
    | none => rfl
    | some d => rfl
  refine ⟨⟨by rw [hi], by rw [hi, hh]; simp⟩, fun _ => ha, fun hne => absurd hh hne, ?_, ?_⟩
  · intro first hf
    rw [hh] at hf
    cases hf
  · intro i a b hia
    rw [hh] at hia
    cases hia

/-- In a session that started with `a0`, the entry at index `i` has `i + 1` shapes
more than `a0`. -/
theorem sessionInv_entry_length (a0 : List (Shape R)) (s : State R) (h : SessionInv a0 s) :
    ∀ (i : Nat) (a : List (Shape R)), s.history[i]? = some a →
      a.length = a0.length + 1 + i := by
  obtain ⟨-, -, -, hfirst, hchain⟩ := h
  intro i
  induction i with
  | zero =>
    intro a ha
    obtain ⟨shape, rfl⟩ := hfirst a ha
    simp
  | succ i ih =>
    intro b hb
    have hlt : i + 1 < s.history.length := by
      by_contra hge
      rw [List.getElem?_eq_none (by omega)] at hb
      cases hb
    have hi : i < s.history.length := by omega
    have ha : s.history[i]? = some (s.history.get ⟨i, hi⟩) := by
      rw [List.getElem?_eq_getElem hi]
      rfl
    obtain ⟨shape, rfl⟩ := hchain i _ b ha hb
    rw [List.length_append, ih _ ha]
    simp
    omega

end Invariant

section InvariantFacts

variable {R : Type}

theorem step_history_ne_nil [Add R] [Sub R] [Mul R] [Div R] [JSMath R]
    (s : State R) (ev : Event R) (h : s.history ≠ []) : (step s ev).history ≠ [] := by
  cases ev with
  | mouseDown e =>
    show (handleMouseDown s e).history ≠ []
    rw [(handleMouseDown_frame s e).1]
    exact h
  | mouseMove e =>
    show (handleMouseMove s e).history ≠ []
    rw [(handleMouseMove_frame s e).1]
    exact h
  | mouseUp e =>
    show (handleMouseUp s e).history ≠ []
    rcases handleMouseUp_cases s e with ⟨h1, -, -⟩ | ⟨-, ws, -, -, u2, -⟩
    · rw [h1]
      exact h
    · rw [u2]
      unfold addToHistory
      simp
  | undo =>
    show (handleUndo s).history ≠ []
    rw [handleUndo_history]
    exact h
  | redo =>
    show (handleRedo s).history ≠ []
    rw [handleRedo_history]
    exact h
  | setCurrentTool id => exact h
  | setCurrentColor c => exact h
  | setStrokeWidth w => exact h

theorem run_history_ne_nil [Add R] [Sub R] [Mul R] [Div R] [JSMath R]
    (tr : List (Event R)) (s : State R) (h : s.history ≠ []) : (run s tr).history ≠ [] := by
  induction tr generalizing s with
  | nil => exact h
  | cons ev tr ih => exact ih (step s ev) (step_history_ne_nil s ev h)

/-- Under the session invariant with a non-empty history the working set is an
entry of the history, longer than the set the session started with. -/
theorem sessionInv_working_set (a0 : List (Shape R)) (s : State R) (h : SessionInv a0 s)
    (hne : s.history ≠ []) :
    ∃ a, s.annotations = some a ∧ a ∈ s.history ∧
      s.history[s.historyIndex.toNat]? = some a ∧ a0.length < a.length := by
  obtain ⟨h0, hann⟩ := h.2.2.1 hne
  obtain ⟨a, ha, hmem⟩ := jsIndex_isSome s.history s.historyIndex h0 h.1.2
  have hget : s.history[s.historyIndex.toNat]? = some a := by
    rw [← jsIndex_of_nonneg _ _ h0]
    exact ha
  refine ⟨a, hann.trans ha, hmem, hget, ?_⟩
  rw [sessionInv_entry_length a0 s h _ a hget]
  omega

end InvariantFacts

section InvariantClaims

variable {R : Type}

/-- C27: in every state reached from the start of a session, the cursor satisfies
`-1 ≤ cursor < length history`, it is `-1` exactly when the history is empty, and
whenever it is at least 0 the working set is the history entry under it. -/
theorem session_cursor_invariant [Add R] [Sub R] [Mul R] [Div R] [JSMath R]
    [OfNat R 0] [OfNat R 2] (ad : Option (AnnotationData R)) (tr : List (Event R)) :
    -1 ≤ (run (sessionStart ad) tr).historyIndex ∧
    (run (sessionStart ad) tr).historyIndex <
      ((run (sessionStart ad) tr).history.length : Int) ∧
    ((run (sessionStart ad) tr).historyIndex = -1 ↔ (run (sessionStart ad) tr).history = []) ∧
    (0 ≤ (run (sessionStart ad) tr).historyIndex →
      (run (sessionStart ad) tr).annotations =
        jsIndex (run (sessionStart ad) tr).history (run (sessionStart ad) tr).historyIndex ∧
      ∃ a, (run (sessionStart ad) tr).annotations = some a ∧
        a ∈ (run (sessionStart ad) tr).history) := by
  have h := run_sessionInv (loadedAnnotations ad) tr (sessionStart ad) (sessionStart_inv ad)
  have hne : 0 ≤ (run (sessionStart ad) tr).historyIndex →
      (run (sessionStart ad) tr).history ≠ [] := by
    intro h0 hnil
    have := h.1.2
    rw [hnil] at this
    simp at this
    omega
  refine ⟨h.1.1, h.1.2, ⟨?_, ?_⟩, ?_⟩
  · intro hm
    by_contra hnil
    have := (h.2.2.1 hnil).1
    omega
  · intro hnil
    have h1 := h.1.1
    have h2 := h.1.2
    rw [hnil] at h2
    simp at h2
    omega
  · intro h0
    obtain ⟨a, ha, hmem, -, -⟩ := sessionInv_working_set _ _ h (hne h0)
    exact ⟨(h.2.2.1 (hne h0)).2, a, ha, hmem⟩

/-- C28: in every state reached from the start of a session, each history entry is
its predecessor extended by exactly one shape; a successful undo removes exactly
the last shape of the working set, and a successful redo appends exactly one
shape to it. -/
theorem history_entries_extend_by_one [Add R] [Sub R] [Mul R] [Div R] [JSMath R]
    [OfNat R 0] [OfNat R 2] (ad : Option (AnnotationData R)) (tr : List (Event R))
    (i : Nat) (a b : List (Shape R)) :
    ((run (sessionStart ad) tr).history[i]? = some a →
      (run (sessionStart ad) tr).history[i + 1]? = some b → ∃ shape, b = a ++ [shape]) ∧
    (0 < (run (sessionStart ad) tr).historyIndex →
      ∃ ws shape, (run (sessionStart ad) tr).annotations = some (ws ++ [shape]) ∧
        (handleUndo (run (sessionStart ad) tr)).annotations = some ws) ∧
    ((run (sessionStart ad) tr).historyIndex <
        ((run (sessionStart ad) tr).history.length : Int) - 1 →
      ∃ ws shape, (run (sessionStart ad) tr).annotations = some ws ∧
        (handleRedo (run (sessionStart ad) tr)).annotations = some (ws ++ [shape])) := by
  have h := run_sessionInv (loadedAnnotations ad) tr (sessionStart ad) (sessionStart_inv ad)
  generalize run (sessionStart ad) tr = s at h ⊢
  obtain ⟨⟨hlo, hhi⟩, -, hfull, -, hchain⟩ := h
  refine ⟨hchain i a b, ?_, ?_⟩
  · intro hpos
    have hne : s.history ≠ [] := by
      intro hnil
      rw [hnil] at hhi
      simp at hhi
      omega
    obtain ⟨-, hann⟩ := hfull hne
    obtain ⟨cur, hcur, -⟩ := jsIndex_isSome s.history s.historyIndex (by omega) hhi
    obtain ⟨prev, hprev, -⟩ := jsIndex_isSome s.history (s.historyIndex - 1) (by omega)
      (by omega)
    have hc := hcur
    have hp := hprev
    rw [jsIndex_of_nonneg _ _ (by omega)] at hc hp
    have hidx : s.historyIndex.toNat = (s.historyIndex - 1).toNat + 1 := by omega
    rw [hidx] at hc
    obtain ⟨shape, hshape⟩ := hchain _ prev cur hp hc
    refine ⟨prev, shape, by rw [hann, hcur, hshape], ?_⟩
    rw [handleUndo_eq, if_pos hpos]
    exact hprev
  · intro hlt
    have hne : s.history ≠ [] := by
      intro hnil
      rw [hnil] at hlt
      simp at hlt
      omega
    obtain ⟨h0, hann⟩ := hfull hne
    obtain ⟨cur, hcur, -⟩ := jsIndex_isSome s.history s.historyIndex h0 hhi
    obtain ⟨next, hnext, -⟩ := jsIndex_isSome s.history (s.historyIndex + 1) (by omega)
      (by omega)
    have hc := hcur
    have hn := hnext
    rw [jsIndex_of_nonneg _ _ (by omega)] at hc hn
    have hidx : (s.historyIndex + 1).toNat = s.historyIndex.toNat + 1 := by omega
    rw [hidx] at hn
    obtain ⟨shape, hshape⟩ := hchain _ cur next hc hn
    refine ⟨cur, shape, by rw [hann, hcur], ?_⟩
    rw [handleRedo_eq, if_pos hlt]
    show jsIndex s.history (s.historyIndex + 1) = _
    rw [hnext, hshape]

/-- C29: in every state reached from the start of a session, no history entry is
the working set the session started with (every entry is longer), and the first
entry is that set extended by the first committed shape. Once the history is not
empty it stays so through every later sequence of events, undos and redos
included, the cursor never goes below index 0, and the working set is never
again the set the session started with. -/
theorem pre_session_set_is_not_an_entry [Add R] [Sub R] [Mul R] [Div R] [JSMath R]
    [OfNat R 0] [OfNat R 2] (ad : Option (AnnotationData R)) (tr later : List (Event R))
    (entry first : List (Shape R)) :
    (entry ∈ (run (sessionStart ad) tr).history →
      entry ≠ loadedAnnotations ad ∧ (loadedAnnotations ad).length < entry.length) ∧
    ((run (sessionStart ad) tr).history[0]? = some first →
      ∃ shape, first = loadedAnnotations ad ++ [shape]) ∧
    ((run (sessionStart ad) tr).history ≠ [] →
      (run (sessionStart ad) (tr ++ later)).history ≠ [] ∧
      0 ≤ (run (sessionStart ad) (tr ++ later)).historyIndex ∧
      (run (sessionStart ad) (tr ++ later)).annotations ≠ some (loadedAnnotations ad)) := by
  have h := run_sessionInv (loadedAnnotations ad) tr (sessionStart ad) (sessionStart_inv ad)
  have h2 := run_sessionInv (loadedAnnotations ad) (tr ++ later) (sessionStart ad)
    (sessionStart_inv ad)
  refine ⟨?_, h.2.2.2.1 first, ?_⟩
  · intro hmem
    obtain ⟨n, hn⟩ := List.mem_iff_getElem?.mp hmem
    have hl := sessionInv_entry_length _ _ h n entry hn
    refine ⟨?_, by omega⟩
    intro heq
    rw [heq] at hl
    omega
  · intro hne
    have hne2 : (run (sessionStart ad) (tr ++ later)).history ≠ [] := by
      rw [run_append]
      exact run_history_ne_nil later _ hne
    obtain ⟨a, ha, -, -, hlen⟩ := sessionInv_working_set _ _ h2 hne2
    refine ⟨hne2, (h2.2.2.1 hne2).1, ?_⟩
    rw [ha]
    intro heq
    injection heq with heq
    rw [heq] at hlen
    omega

end InvariantClaims

/-- Witness for C27: after two completed gestures the cursor is at index 1 of a
history of two entries and the working set is the second entry. -/
theorem session_cursor_invariant_witness :
    0 ≤ (run (sessionStart (none : Option (AnnotationData ℚ))) twoGestures).historyIndex ∧
    (run (sessionStart (none : Option (AnnotationData ℚ))) twoGestures).annotations =
      jsIndex (run (sessionStart (none : Option (AnnotationData ℚ))) twoGestures).history
        (run (sessionStart (none : Option (AnnotationData ℚ))) twoGestures).historyIndex :=
  ⟨by decide,
    ((session_cursor_invariant (none : Option (AnnotationData ℚ)) twoGestures).2.2.2
      (by decide)).1⟩

section Settings

variable {R : Type}

theorem newAnnotation_style [Sub R] [Add R] [JSMath R] (s : State R) (pos : Pos R) :
    ( newAnnotation s pos).type = s.currentTool ∧
    ( newAnnotation s pos).color = some s.currentColor ∧
    ( newAnnotation s pos).strokeWidth = some s.strokeWidth := by
  unfold newAnnotation
  dsimp only
  split_ifs <;> exact ⟨rfl, rfl, rfl⟩

theorem run_moves_settings [Add R] [Sub R] [Mul R] [Div R] [JSMath R]
    (moves : List (MouseEvent R)) (s : State R) :
    (run s (moves.map Event.mouseMove)).currentTool = s.currentTool ∧
    (run s (moves.map Event.mouseMove)).currentColor = s.currentColor ∧
    (run s (moves.map Event.mouseMove)).strokeWidth = s.strokeWidth ∧
    (run s (moves.map Event.mouseMove)).startPos = s.startPos := by
  induction moves generalizing s with
  | nil => exact ⟨rfl, rfl, rfl, rfl⟩
  | cons e moves ih =>
    have h : (handleMouseMove s e).currentTool = s.currentTool ∧
        (handleMouseMove s e).currentColor = s.currentColor ∧
        (handleMouseMove s e).strokeWidth = s.strokeWidth ∧
        (handleMouseMove s e).startPos = s.startPos := by
      unfold handleMouseMove
      dsimp only
      split_ifs <;> exact ⟨rfl, rfl, rfl, rfl⟩
    obtain ⟨h1, h2, h3, h4⟩ := ih (handleMouseMove s e)
    exact ⟨h1.trans h.1, h2.trans h.2.1, h3.trans h.2.2.1, h4.trans h.2.2.2⟩

/-- In a state reached from the start of a session the working set is defined. -/
theorem sessionInv_annotations (a0 : List (Shape R)) (s : State R) (h : SessionInv a0 s) :
    ∃ ws, s.annotations = some ws := by
  by_cases hne : s.history = []
  · exact ⟨a0, h.2.1 hne⟩
  · obtain ⟨a, ha, -⟩ := sessionInv_working_set a0 s h hne
    exact ⟨a, ha⟩

end Settings

section PointerUp

variable {R : Type}

/-- C21: in every state of a session in which a gesture is in progress, pointer-up
makes the working set the previous working set with exactly one shape appended
(the earlier shapes unchanged, in the same order); the new shape has the current
tool as type, the current colour and the current stroke width; the new set is
pushed on the history after the entries up to the cursor and the cursor points
at it; and no gesture is in progress afterwards. -/
theorem pointer_up_appends_one_shape [Add R] [Sub R] [Mul R] [Div R] [JSMath R]
    [OfNat R 0] [OfNat R 2] (ad : Option (AnnotationData R)) (tr : List (Event R))
    (e : MouseEvent R) (hd : (run (sessionStart ad) tr).isDrawing = true) :
    ∃ ws shape,
      (run (sessionStart ad) tr).annotations = some ws ∧
      (handleMouseUp (run (sessionStart ad) tr) e).annotations = some (ws ++ [shape]) ∧
      (ws ++ [shape]).take ws.length = ws ∧
      (ws ++ [shape]).length = ws.length + 1 ∧
      shape.type = (run (sessionStart ad) tr).currentTool ∧
      shape.color = some (run (sessionStart ad) tr).currentColor ∧
      shape.strokeWidth = some (run (sessionStart ad) tr).strokeWidth ∧
      (handleMouseUp (run (sessionStart ad) tr) e).history =
        (run (sessionStart ad) tr).history.take
          ((run (sessionStart ad) tr).historyIndex + 1).toNat ++ [ws ++ [shape]] ∧
      (handleMouseUp (run (sessionStart ad) tr) e).historyIndex =
        (run (sessionStart ad) tr).historyIndex + 1 ∧
      jsIndex (handleMouseUp (run (sessionStart ad) tr) e).history
        (handleMouseUp (run (sessionStart ad) tr) e).historyIndex = some (ws ++ [shape]) ∧
      (handleMouseUp (run (sessionStart ad) tr) e).isDrawing = false := by
  have h := run_sessionInv (loadedAnnotations ad) tr (sessionStart ad) (sessionStart_inv ad)
  generalize run (sessionStart ad) tr = s at h hd ⊢
  obtain ⟨ws, hws⟩ := sessionInv_annotations _ s h
  obtain ⟨h1, h2, h3, h4⟩ := handleMouseUp_drawing s e ws hd hws
  obtain ⟨t1, t2, t3⟩ := newAnnotation_style s (getMousePos e)
  have hhist := addToHistory_fst s.history s.historyIndex
    (ws ++ [ newAnnotation s (getMousePos e)]) h.1.1
  have hidx := addToHistory_snd s.history s.historyIndex
    (ws ++ [ newAnnotation s (getMousePos e)]) h.1.1 h.1.2
  refine ⟨ws, newAnnotation s (getMousePos e), hws, h1, by simp, by simp, t1, t2, t3,
    h2.trans hhist, h3.trans hidx, ?_, h4⟩
  rw [h2, h3, hhist, hidx, jsIndex_of_nonneg _ _ (by have := h.1.1; omega)]
  have hlen : (List.take (s.historyIndex + 1).toNat s.history).length =
      (s.historyIndex + 1).toNat := by
    rw [List.length_take]
    have := h.1.1
    have := h.1.2
    omega
  rw [List.getElem?_append_right (by omega)]
  simp [hlen]

end PointerUp

/-- Witness for C21: the two gestures of `twoGestures` followed by a pointer-down
leave a gesture in progress, and the pointer-up that follows appends one shape. -/
theorem pointer_up_appends_one_shape_witness :
    (run (sessionStart (none : Option (AnnotationData ℚ)))
      (twoGestures ++ [Event.mouseDown (pointerAt 4 4)])).isDrawing = true ∧
    ∃ ws shape,
      (handleMouseUp (run (sessionStart (none : Option (AnnotationData ℚ)))
        (twoGestures ++ [Event.mouseDown (pointerAt 4 4)])) (pointerAt 7 8)).annotations =
        some (ws ++ [shape]) ∧
      (handleMouseUp (run (sessionStart (none : Option (AnnotationData ℚ)))
        (twoGestures ++ [Event.mouseDown (pointerAt 4 4)])) (pointerAt 7 8)).isDrawing = false :=
  ⟨rfl,
    match pointer_up_appends_one_shape (none : Option (AnnotationData ℚ))
      (twoGestures ++ [Event.mouseDown (pointerAt 4 4)]) (pointerAt 7 8) rfl with
    | ⟨ws, shape, _, h2, _, _, _, _, _, _, _, _, h11⟩ => ⟨ws, shape, h2, h11⟩⟩

/-- Counterexample to C22 as stated: after pointer-down with the rectangle tool,
the colour `#ff0000` and the stroke width 2, the controls change the colour, the
tool and the stroke width while the gesture is in progress; the changes are
applied, and pointer-up commits an arrow of colour `#0000ff` and stroke width 5. -/
theorem settings_change_during_gesture_is_applied :
    (run (sessionStart (none : Option (AnnotationData ℚ)))
      (settingsChangedMidGesture.take 1)).isDrawing = true ∧
    (run (sessionStart (none : Option (AnnotationData ℚ)))
      (settingsChangedMidGesture.take 1)).currentTool = "rectangle" ∧
    (run (sessionStart (none : Option (AnnotationData ℚ)))
      (settingsChangedMidGesture.take 1)).currentColor = "#ff0000" ∧
    (run (sessionStart (none : Option (AnnotationData ℚ)))
      (settingsChangedMidGesture.take 1)).strokeWidth = 2 ∧
    (run (sessionStart (none : Option (AnnotationData ℚ)))
      (settingsChangedMidGesture.take 4)).isDrawing = true ∧
    (run (sessionStart (none : Option (AnnotationData ℚ)))
      (settingsChangedMidGesture.take 4)).currentTool = "arrow" ∧
    (run (sessionStart (none : Option (AnnotationData ℚ)))
      (settingsChangedMidGesture.take 4)).currentColor = "#0000ff" ∧
    (run (sessionStart (none : Option (AnnotationData ℚ)))
      (settingsChangedMidGesture.take 4)).strokeWidth = 5 ∧
    (run (sessionStart (none : Option (AnnotationData ℚ)))
      settingsChangedMidGesture).annotations = some [midGestureArrow] :=
  ⟨rfl, rfl, rfl, rfl, rfl, rfl, rfl, rfl, by
    simp [settingsChangedMidGesture, midGestureArrow, run, step, sessionStart, fetchSubmission,
      initialState, handleMouseDown, handleMouseUp, addToHistory, newAnnotation, getMousePos,
      pointerAt]
    norm_num⟩

section SettingsClaims

variable {R : Type}

/-- C22 (amended): the tool, colour and stroke-width controls are applied in every
state, also while a gesture is in progress, and leave the gesture in progress.
The shape finalised at pointer-up has the tool type, colour and stroke width
that are current at pointer-up: the values chosen during the gesture when the
controls were used, and those selected at pointer-down when only pointer-moves
happened in between. -/
theorem settings_apply_in_every_state [Add R] [Sub R] [Mul R] [Div R] [JSMath R]
    (s : State R) (ws : List (Shape R)) (id color : String) (w : R)
    (moves : List (MouseEvent R)) (e : MouseEvent R)
    (hd : s.isDrawing = true) (ha : s.annotations = some ws) :
    (step s (Event.setCurrentTool id)).currentTool = id ∧
    (step s (Event.setCurrentColor color)).currentColor = color ∧
    (step s (Event.setStrokeWidth w)).strokeWidth = w ∧
    (step s (Event.setCurrentTool id)).isDrawing = true ∧
    (step s (Event.setCurrentColor color)).isDrawing = true ∧
    (step s (Event.setStrokeWidth w)).isDrawing = true ∧
    (∃ shape,
      (run s [Event.setCurrentTool id, Event.setCurrentColor color, Event.setStrokeWidth w,
        Event.mouseUp e]).annotations = some (ws ++ [shape]) ∧
      shape.type = id ∧ shape.color = some color ∧ shape.strokeWidth = some w) ∧
    (∃ shape,
      (run s (moves.map Event.mouseMove ++ [Event.mouseUp e])).annotations =
        some (ws ++ [shape]) ∧
      shape.type = s.currentTool ∧ shape.color = some s.currentColor ∧
      shape.strokeWidth = some s.strokeWidth) := by
  refine ⟨rfl, rfl, rfl, hd, hd, hd, ?_, ?_⟩
  · have h := handleMouseUp_drawing
      { s with currentTool := id, currentColor := color, strokeWidth := w } e ws hd ha
    exact ⟨_, h.1, (newAnnotation_style _ _).1, (newAnnotation_style _ _).2.1,
      (newAnnotation_style _ _).2.2⟩
  · rw [run_append]
    obtain ⟨-, -, m3, m4⟩ := run_moves_frame moves s
    obtain ⟨n1, n2, n3, -⟩ := run_moves_settings moves s
    have h := handleMouseUp_drawing (run s (moves.map Event.mouseMove)) e ws
      (m4.trans hd) (m3.trans ha)
    obtain ⟨t1, t2, t3⟩ := newAnnotation_style (run s (moves.map Event.mouseMove))
      (getMousePos e)
    exact ⟨_, h.1, t1.trans n1, t2.trans (congrArg some n2), t3.trans (congrArg some n3)⟩

/-- C23: changing the tool, the colour or the stroke width changes neither the
working set nor the history nor the cursor. A shape created by a gesture stores
the colour and stroke width current at pointer-up and is still in the working
set, unchanged, after later changes of the selection; and when that colour is
not empty and that stroke width is not zero (as the palette and the slider
guarantee), the live preview draws the shape in its stored colour and stroke
width whatever the current colour and stroke width are. -/
theorem settings_changes_keep_existing_shapes [Add R] [Sub R] [Mul R] [Div R] [NatCast R]
    [OfScientific R] [DecidableEq R] [JSMath R] [JSTrig R]
    (s : State R) (ws : List (Shape R)) (e : MouseEvent R) (id color : String) (w : R) :
    ((step s (Event.setCurrentTool id)).annotations = s.annotations ∧
      (step s (Event.setCurrentTool id)).history = s.history ∧
      (step s (Event.setCurrentTool id)).historyIndex = s.historyIndex) ∧
    ((step s (Event.setCurrentColor color)).annotations = s.annotations ∧
      (step s (Event.setCurrentColor color)).history = s.history ∧
      (step s (Event.setCurrentColor color)).historyIndex = s.historyIndex) ∧
    ((step s (Event.setStrokeWidth w)).annotations = s.annotations ∧
      (step s (Event.setStrokeWidth w)).history = s.history ∧
      (step s (Event.setStrokeWidth w)).historyIndex = s.historyIndex) ∧
    (s.isDrawing = true → s.annotations = some ws →
      (run (handleMouseUp s e) [Event.setCurrentTool id, Event.setCurrentColor color,
        Event.setStrokeWidth w]).annotations =
        some (ws ++ [ newAnnotation s (getMousePos e)]) ∧
      (run (handleMouseUp s e) [Event.setCurrentTool id, Event.setCurrentColor color,
        Event.setStrokeWidth w]).history = (handleMouseUp s e).history ∧
      ( newAnnotation s (getMousePos e)).color = some s.currentColor ∧
      ( newAnnotation s (getMousePos e)).strokeWidth = some s.strokeWidth ∧
      (s.currentColor ≠ "" → s.strokeWidth ≠ ((0 : Nat) : R) →
        drawAnnotationCmds color w ( newAnnotation s (getMousePos e)) =
          drawAnnotationCmds s.currentColor s.strokeWidth ( newAnnotation s (getMousePos e)) ∧
        (drawAnnotationCmds color w ( newAnnotation s (getMousePos e))).take 2 =
          [Cmd.strokeStyle s.currentColor, Cmd.lineWidth s.strokeWidth])) := by
  refine ⟨⟨rfl, rfl, rfl⟩, ⟨rfl, rfl, rfl⟩, ⟨rfl, rfl, rfl⟩, ?_⟩
  intro hd ha
  obtain ⟨t1, t2, t3⟩ := newAnnotation_style s (getMousePos e)
  refine ⟨(handleMouseUp_drawing s e ws hd ha).1, rfl, t2, t3, ?_⟩
  intro hc hw
  have hown : hasOwnStyle ( newAnnotation s (getMousePos e)) = true := by
    unfold hasOwnStyle
    rw [t2, t3]
    simp [hc, hw]
  refine ⟨drawAnnotationCmds_ownStyle _ _ _ _ _ hown, ?_⟩
  unfold drawAnnotationCmds
  rw [t2, t3]
  simp [orString, orNumber, hc, hw]

end SettingsClaims

/-- Witness for C22 (amended): in the state `drawingState`, where a gesture is in
progress, the controls are applied and the pointer-up that follows commits a
shape with the newly selected tool, colour and stroke width. -/
theorem settings_apply_in_every_state_witness :
    drawingState.isDrawing = true ∧
    ∃ shape,
      (run drawingState [Event.setCurrentTool "circle", Event.setCurrentColor "#00ff00",
        Event.setStrokeWidth 7, Event.mouseUp (pointerAt 3 3)]).annotations =
        some ([rectA, arrowB] ++ [shape]) ∧
      shape.type = "circle" ∧ shape.color = some "#00ff00" ∧ shape.strokeWidth = some 7 :=
  ⟨rfl,
    (settings_apply_in_every_state drawingState [rectA, arrowB] "circle" "#00ff00" 7
      [pointerAt 2 2] (pointerAt 3 3) rfl rfl).2.2.2.2.2.2.1⟩

/-- Witness for C23: the rectangle committed from `drawingState` is drawn in its
stored colour `#ff0000` and stroke width 2 when the current colour is `#00ff00`
and the current stroke width is 7. -/
theorem settings_changes_keep_existing_shapes_witness :
    drawingState.isDrawing = true ∧ drawingState.annotations = some [rectA, arrowB] ∧
    drawingState.currentColor ≠ "" ∧ drawingState.strokeWidth ≠ ((0 : Nat) : ℚ) ∧
    (drawAnnotationCmds "#00ff00" (7 : ℚ)
      ( newAnnotation drawingState (getMousePos (pointerAt 3 3)))).take 2 =
      [Cmd.strokeStyle "#ff0000", Cmd.lineWidth 2] :=
  ⟨rfl, rfl, by decide, by norm_num [drawingState, stateWith, initialState],
    (((settings_changes_keep_existing_shapes drawingState [rectA, arrowB] (pointerAt 3 3)
      "circle" "#00ff00" 7).2.2.2 rfl rfl).2.2.2.2 (by decide)
      (by norm_num [drawingState, stateWith, initialState])).2⟩

/-- Witness for C28: after the two gestures of `twoGestures` the cursor is at
index 1, and undo removes exactly the last shape of the working set. -/
theorem history_entries_extend_by_one_witness :
    0 < (run (sessionStart (none : Option (AnnotationData ℚ))) twoGestures).historyIndex ∧
    ∃ ws shape,
      (run (sessionStart (none : Option (AnnotationData ℚ))) twoGestures).annotations =
        some (ws ++ [shape]) ∧
      (handleUndo (run (sessionStart (none : Option (AnnotationData ℚ)))
        twoGestures)).annotations = some ws :=
  ⟨by decide,
    (history_entries_extend_by_one (none : Option (AnnotationData ℚ)) twoGestures 0 [] []).2.1
      (by decide)⟩

/-- Witness for C29: after the two gestures of `twoGestures` the history is not
empty, and after two undos and a redo the working set is still not the empty set
the session started with. -/
theorem pre_session_set_is_not_an_entry_witness :
    (run (sessionStart (none : Option (AnnotationData ℚ))) twoGestures).history ≠ [] ∧
    (run (sessionStart (none : Option (AnnotationData ℚ)))
      (twoGestures ++ [Event.undo, Event.undo, Event.redo])).annotations ≠
      some (loadedAnnotations (none : Option (AnnotationData ℚ))) :=
  ⟨by simp [twoGestures, run, step, sessionStart, fetchSubmission, initialState, handleMouseDown,
      handleMouseMove, handleMouseUp, addToHistory],
    ((pre_session_set_is_not_an_entry (none : Option (AnnotationData ℚ)) twoGestures
      [Event.undo, Event.undo, Event.redo] [] []).2.2
      (by simp [twoGestures, run, step, sessionStart, fetchSubmission, initialState,
        handleMouseDown, handleMouseMove, handleMouseUp, addToHistory])).2.2⟩

/-! ## The shape a gesture creates -/

section CreatedShape

variable {R : Type}

theorem handleMouseDown_settings [Sub R] [Mul R] [Div R] (s : State R) (e : MouseEvent R) :
    (handleMouseDown s e).currentTool = s.currentTool ∧
    (handleMouseDown s e).currentColor = s.currentColor ∧
    (handleMouseDown s e).strokeWidth = s.strokeWidth ∧
    (handleMouseDown s e).startPos = getMousePos e := by
  unfold handleMouseDown
  dsimp only
  split_ifs <;> exact ⟨rfl, rfl, rfl, rfl⟩

/-- The state in which the pointer-up of a gesture is handled: a gesture is in
progress, the working set, the history and the selection are those before the
pointer-down, and the start position is the position of the pointer-down. -/
theorem before_pointer_up [Add R] [Sub R] [Mul R] [Div R] [JSMath R]
    (s0 : State R) (down : MouseEvent R) (moves : List (MouseEvent R)) :
    (run s0 ([Event.mouseDown down] ++ moves.map Event.mouseMove)).isDrawing = true ∧
    (run s0 ([Event.mouseDown down] ++ moves.map Event.mouseMove)).annotations =
      s0.annotations ∧
    (run s0 ([Event.mouseDown down] ++ moves.map Event.mouseMove)).history = s0.history ∧
    (run s0 ([Event.mouseDown down] ++ moves.map Event.mouseMove)).historyIndex =
      s0.historyIndex ∧
    (run s0 ([Event.mouseDown down] ++ moves.map Event.mouseMove)).currentTool =
      s0.currentTool ∧
    (run s0 ([Event.mouseDown down] ++ moves.map Event.mouseMove)).currentColor =
      s0.currentColor ∧
    (run s0 ([Event.mouseDown down] ++ moves.map Event.mouseMove)).strokeWidth =
      s0.strokeWidth ∧
    (run s0 ([Event.mouseDown down] ++ moves.map Event.mouseMove)).startPos =
      getMousePos down := by
  rw [run_append]
  show (run (handleMouseDown s0 down) (moves.map Event.mouseMove)).isDrawing = true ∧ _
  obtain ⟨m1, m2, m3, m4⟩ := run_moves_frame moves (handleMouseDown s0 down)
  obtain ⟨n1, n2, n3, n4⟩ := run_moves_settings moves (handleMouseDown s0 down)
  obtain ⟨d1, d2, d3, d4⟩ := handleMouseDown_frame s0 down
  obtain ⟨e1, e2, e3, e4⟩ := handleMouseDown_settings s0 down
  exact ⟨m4.trans d4, m3.trans d3, m1.trans d1, m2.trans d2, n1.trans e1, n2.trans e2,
    n3.trans e3, n4.trans e4⟩

theorem newAnnotation_rectangle [Sub R] [Add R] [JSMath R] (s : State R) (pos : Pos R)
    (h : s.currentTool = "rectangle") :
    newAnnotation s pos =
      { type := s.currentTool, color := some s.currentColor, strokeWidth := some s.strokeWidth
        x := some s.startPos.x, y := some s.startPos.y
        width := some (pos.x - s.startPos.x), height := some (pos.y - s.startPos.y) } := by
  unfold newAnnotation
  simp [h]

theorem newAnnotation_circle [Sub R] [Add R] [JSMath R] (s : State R) (pos : Pos R)
    (h : s.currentTool = "circle") :
    newAnnotation s pos =
      { type := s.currentTool, color := some s.currentColor, strokeWidth := some s.strokeWidth
        x := some s.startPos.x, y := some s.startPos.y
        radius := some (JSMath.sqrt (JSMath.pow (pos.x - s.startPos.x) 2 +
          JSMath.pow (pos.y - s.startPos.y) 2)) } := by
  unfold newAnnotation
  simp [h]

theorem newAnnotation_arrow [Sub R] [Add R] [JSMath R] (s : State R) (pos : Pos R)
    (h : s.currentTool = "arrow") :
    newAnnotation s pos =
      { type := s.currentTool, color := some s.currentColor, strokeWidth := some s.strokeWidth
        startX := some s.startPos.x, startY := some s.startPos.y
        endX := some pos.x, endY := some pos.y } := by
  unfold newAnnotation
  simp [h]

end CreatedShape

section CircleClaim

variable {R : Type}

/-- C25 (amended): a circle gesture with pointer-down at `down` and pointer-up at
`up` appends a circle whose centre is the position of the pointer-down and whose
radius is `Math.sqrt(Math.pow(dx, 2) + Math.pow(dy, 2))`, with `dx` and `dy` the
coordinate differences of the two positions, computed with the arithmetic and
the `Math` functions of the program; the circle has no other size property. The
radius depends on the two positions only: another session state, working set or
sequence of pointer-moves gives the same centre and radius. In exact real
arithmetic this value is the Euclidean distance: it is not negative and its
square is `dx ^ 2 + dy ^ 2`. -/
theorem circle_radius_is_drag_distance [Add R] [Sub R] [Mul R] [Div R] [JSMath R]
    (s0 s0' : State R) (ws ws' : List (Shape R)) (down up : MouseEvent R)
    (moves moves' : List (MouseEvent R))
    (htool : s0.currentTool = "circle") (ha : s0.annotations = some ws)
    (htool' : s0'.currentTool = "circle") (ha' : s0'.annotations = some ws') :
    ∃ shape shape',
      (run s0 ([Event.mouseDown down] ++ moves.map Event.mouseMove ++
        [Event.mouseUp up])).annotations = some (ws ++ [shape]) ∧
      (run s0' ([Event.mouseDown down] ++ moves'.map Event.mouseMove ++
        [Event.mouseUp up])).annotations = some (ws' ++ [shape']) ∧
      shape.type = "circle" ∧
      shape.x = some (getMousePos down).x ∧ shape.y = some (getMousePos down).y ∧
      shape.radius =
        some (JSMath.sqrt
          (JSMath.pow ((getMousePos up).x - (getMousePos down).x) 2 +
            JSMath.pow ((getMousePos up).y - (getMousePos down).y) 2)) ∧
      shape.width = none ∧ shape.height = none ∧
      shape'.x = shape.x ∧ shape'.y = shape.y ∧ shape'.radius = shape.radius ∧
      (∀ dx dy : ℝ,
        0 ≤ Real.sqrt (dx ^ 2 + dy ^ 2) ∧ Real.sqrt (dx ^ 2 + dy ^ 2) ^ 2 = dx ^ 2 + dy ^ 2) := by
  obtain ⟨b1, b2, -, -, b5, -, -, b8⟩ := before_pointer_up s0 down moves
  obtain ⟨c1, c2, -, -, c5, -, -, c8⟩ := before_pointer_up s0' down moves'
  have hup := (handleMouseUp_drawing
    (run s0 ([Event.mouseDown down] ++ moves.map Event.mouseMove)) up ws b1 (b2.trans ha)).1
  have hup' := (handleMouseUp_drawing
    (run s0' ([Event.mouseDown down] ++ moves'.map Event.mouseMove)) up ws' c1
    (c2.trans ha')).1
  have hshape := newAnnotation_circle
    (run s0 ([Event.mouseDown down] ++ moves.map Event.mouseMove)) (getMousePos up)
    (b5.trans htool)
  have hshape' := newAnnotation_circle
    (run s0' ([Event.mouseDown down] ++ moves'.map Event.mouseMove)) (getMousePos up)
    (c5.trans htool')
  rw [b8] at hshape
  rw [c8] at hshape'
  refine ⟨ newAnnotation (run s0 ([Event.mouseDown down] ++ moves.map Event.mouseMove))
      (getMousePos up),
    newAnnotation (run s0' ([Event.mouseDown down] ++ moves'.map Event.mouseMove))
      (getMousePos up), ?_, ?_, ?_, ?_, ?_, ?_, ?_, ?_, ?_, ?_, ?_, ?_⟩
  · rw [run_append]
    exact hup
  · rw [run_append]
    exact hup'
  · rw [hshape]
    exact b5.trans htool
  · rw [hshape]
  · rw [hshape]
  · rw [hshape]
  · rw [hshape]
  · rw [hshape]
  · rw [hshape, hshape']
  · rw [hshape, hshape']
  · rw [hshape, hshape']
  · intro dx dy
    exact ⟨Real.sqrt_nonneg _, Real.sq_sqrt (by positivity)⟩

end CircleClaim

/-- Witness for C25 (amended): with the circle tool, pointer-down at (20, 20) and
pointer-up at (26, 28) of the canvas give a circle of centre (20, 20); in
rational arithmetic its radius is 10. -/
theorem circle_radius_is_drag_distance_witness :
    ∃ shape : Shape ℚ,
      (run (stateWith [] [] (-1) false)
        ([Event.setCurrentTool "circle", Event.mouseDown (pointerAt 10 10)] ++
          [Event.mouseUp (pointerAt 13 14)])).annotations = some ([] ++ [shape]) ∧
      shape.type = "circle" ∧ shape.x = some 20 ∧ shape.y = some 20 ∧
      shape.radius = some 10 :=
  match circle_radius_is_drag_distance
      (step (stateWith [] [] (-1) false) (Event.setCurrentTool "circle"))
      (step (stateWith [] [] (-1) false) (Event.setCurrentTool "circle")) [] []
      (pointerAt 10 10) (pointerAt 13 14) [] [] rfl rfl rfl rfl with
  | ⟨shape, _, h1, _, h3, h4, h5, h6, _, _, _, _, _, _⟩ =>
    ⟨shape, h1, h3,
      by rw [h4]; norm_num [getMousePos, pointerAt],
      by rw [h5]; norm_num [getMousePos, pointerAt],
      by
        rw [h6]
        have e : JSMath.pow ((getMousePos (pointerAt 13 14)).x - (getMousePos (pointerAt 10 10)).x) 2 +
            JSMath.pow ((getMousePos (pointerAt 13 14)).y - (getMousePos (pointerAt 10 10)).y) 2 =
            (10 : ℚ) * 10 := by
          norm_num [JSMath.pow, getMousePos, pointerAt]
        rw [e]
        show some (Rat.sqrt (10 * 10)) = some 10
        rw [Rat.sqrt_eq]
        norm_num⟩

/-- No rational number has the square 2. -/
theorem rat_sq_ne_two (q : ℚ) : q ^ 2 ≠ 2 := by
  intro h
  have hr : ((q : ℝ)) ^ 2 = 2 := by exact_mod_cast h
  apply irrational_sqrt_two
  refine ⟨|q|, ?_⟩
  rw [← hr, Real.sqrt_sq_eq_abs]
  push_cast
  rfl

/-- Counterexample to C25 as stated, in double-precision numbers: the circle built
at pointer-up from the start position (0, 0) and the release position (1, 1) has
`dx = dy = 1`, and the square of its radius is not `dx ^ 2 + dy ^ 2 = 2`: the
radius is a double, hence a rational number, whatever `Math.sqrt` and `Math.pow`
return, and no rational number has the square 2. -/
theorem circle_radius_squared_is_not_exact :
    Dbl.one - Dbl.zero = Dbl.one ∧
    (Dbl.one - Dbl.zero).toRat ^ 2 + (Dbl.one - Dbl.zero).toRat ^ 2 = 2 ∧
    (∀ [Mul Dbl] [Div Dbl] [JSMath Dbl],
      (∀ e : MouseEvent Dbl,
        (handleMouseUp circleDragState e).annotations =
          some [ newAnnotation circleDragState (getMousePos e)]) ∧
      ( newAnnotation circleDragState { x := Dbl.one, y := Dbl.one }).type = "circle" ∧
      ( newAnnotation circleDragState { x := Dbl.one, y := Dbl.one }).x = some Dbl.zero ∧
      ( newAnnotation circleDragState { x := Dbl.one, y := Dbl.one }).y = some Dbl.zero ∧
      (( newAnnotation circleDragState { x := Dbl.one, y := Dbl.one }).radius.map
        fun r => r.toRat ^ 2) ≠
        some ((Dbl.one - Dbl.zero).toRat ^ 2 + (Dbl.one - Dbl.zero).toRat ^ 2)) := by
  have hone : Dbl.one - Dbl.zero = Dbl.one := by decide
  have hval : (Dbl.one - Dbl.zero).toRat ^ 2 + (Dbl.one - Dbl.zero).toRat ^ 2 = 2 := by
    rw [hone]
    norm_num [Dbl.toRat, Dbl.one]
  refine ⟨hone, hval, ?_⟩
  intro _ _ _
  have hshape := newAnnotation_circle circleDragState { x := Dbl.one, y := Dbl.one } rfl
  refine ⟨fun e => (handleMouseUp_drawing circleDragState e [] rfl rfl).1, ?_, ?_, ?_, ?_⟩
  · rw [hshape]
    rfl
  · rw [hshape]
    rfl
  · rw [hshape]
    rfl
  · rw [hshape, hval]
    intro h
    injection h with h
    exact rat_sq_ne_two _ h

section ZeroDisplacement

variable {R : Type}

/-- C26: a gesture whose pointer-up position equals its pointer-down position still
commits a shape: a rectangle with width 0 and height 0, a circle with radius 0,
or an arrow whose end is its start. The working set gets that one shape appended
and the history gets the new set pushed after the entries up to the cursor,
exactly as for a gesture released anywhere else (one more entry when the cursor
was on the last entry). Arithmetic is that of a field, `Math.sqrt(0)` is 0 and
`Math.pow(x, 2)` the square. -/
theorem zero_displacement_commits [Field R] [JSMath R]
    (hsqrt : JSMath.sqrt (0 : R) = 0) (hpow : ∀ x : R, JSMath.pow x 2 = x ^ 2)
    (s0 : State R) (ws : List (Shape R)) (down up other : MouseEvent R)
    (moves : List (MouseEvent R))
    (ha : s0.annotations = some ws) (hzero : getMousePos up = getMousePos down) :
    ∃ shape shape2,
      (run s0 ([Event.mouseDown down] ++ moves.map Event.mouseMove ++
        [Event.mouseUp up])).annotations = some (ws ++ [shape]) ∧
      (run s0 ([Event.mouseDown down] ++ moves.map Event.mouseMove ++
        [Event.mouseUp up])).history =
        jsSlice0 s0.history (s0.historyIndex + 1) ++ [ws ++ [shape]] ∧
      (run s0 ([Event.mouseDown down] ++ moves.map Event.mouseMove ++
        [Event.mouseUp up])).isDrawing = false ∧
      (s0.currentTool = "rectangle" →
        shape.type = "rectangle" ∧ shape.x = some (getMousePos down).x ∧
        shape.y = some (getMousePos down).y ∧ shape.width = some 0 ∧ shape.height = some 0) ∧
      (s0.currentTool = "circle" →
        shape.type = "circle" ∧ shape.x = some (getMousePos down).x ∧
        shape.y = some (getMousePos down).y ∧ shape.radius = some 0) ∧
      (s0.currentTool = "arrow" →
        shape.type = "arrow" ∧ shape.startX = some (getMousePos down).x ∧
        shape.startY = some (getMousePos down).y ∧ shape.endX = shape.startX ∧
        shape.endY = shape.startY) ∧
      (run s0 ([Event.mouseDown down] ++ moves.map Event.mouseMove ++
        [Event.mouseUp other])).annotations = some (ws ++ [shape2]) ∧
      (run s0 ([Event.mouseDown down] ++ moves.map Event.mouseMove ++
        [Event.mouseUp other])).history =
        jsSlice0 s0.history (s0.historyIndex + 1) ++ [ws ++ [shape2]] ∧
      (s0.historyIndex = (s0.history.length : Int) - 1 →
        (run s0 ([Event.mouseDown down] ++ moves.map Event.mouseMove ++
          [Event.mouseUp up])).history.length = s0.history.length + 1) := by
  obtain ⟨b1, b2, b3, b4, b5, -, -, b8⟩ := before_pointer_up s0 down moves
  obtain ⟨u1, u2, -, u4⟩ := handleMouseUp_drawing
    (run s0 ([Event.mouseDown down] ++ moves.map Event.mouseMove)) up ws b1 (b2.trans ha)
  obtain ⟨o1, o2, -, -⟩ := handleMouseUp_drawing
    (run s0 ([Event.mouseDown down] ++ moves.map Event.mouseMove)) other ws b1 (b2.trans ha)
  rw [b3, b4] at u2 o2
  have hhist : (run s0 ([Event.mouseDown down] ++ moves.map Event.mouseMove ++
      [Event.mouseUp up])).history = jsSlice0 s0.history (s0.historyIndex + 1) ++
        [ws ++ [ newAnnotation (run s0 ([Event.mouseDown down] ++ moves.map Event.mouseMove))
          (getMousePos up)]] := by
    rw [run_append]
    exact u2
  refine ⟨ newAnnotation (run s0 ([Event.mouseDown down] ++ moves.map Event.mouseMove))
      (getMousePos up),
    newAnnotation (run s0 ([Event.mouseDown down] ++ moves.map Event.mouseMove))
      (getMousePos other), ?_, hhist, ?_, ?_, ?_, ?_, ?_, ?_, ?_⟩
  · rw [run_append]
    exact u1
  · rw [run_append]
    exact u4
  · intro htool
    rw [newAnnotation_rectangle _ _ (b5.trans htool), b8, hzero]
    exact ⟨b5.trans htool, rfl, rfl, by simp, by simp⟩
  · intro htool
    rw [newAnnotation_circle _ _ (b5.trans htool), b8, hzero]
    refine ⟨b5.trans htool, rfl, rfl, ?_⟩
    simp [hpow, hsqrt]
  · intro htool
    rw [newAnnotation_arrow _ _ (b5.trans htool), b8, hzero]
    exact ⟨b5.trans htool, rfl, rfl, rfl, rfl⟩
  · rw [run_append]
    exact o1
  · rw [run_append]
    exact o2
  · intro htip
    rw [hhist, jsSlice0_of_nonneg _ _ (by omega)]
    simp
    omega

end ZeroDisplacement

/-- Witness for C26: a click at (1, 1) with the rectangle tool, in a fresh
session, commits a rectangle of width 0 and height 0 at canvas position (2, 2). -/
theorem zero_displacement_commits_witness :
    getMousePos (pointerAt 1 1) = getMousePos (pointerAt 1 1) ∧
    ∃ shape : Shape ℚ,
      (run (sessionStart (none : Option (AnnotationData ℚ)))
        ([Event.mouseDown (pointerAt 1 1)] ++ [].map Event.mouseMove ++
          [Event.mouseUp (pointerAt 1 1)])).annotations = some ([] ++ [shape]) ∧
      shape.type = "rectangle" ∧ shape.width = some 0 ∧ shape.height = some 0 :=
  ⟨rfl,
    match zero_displacement_commits (by norm_num [JSMath.sqrt]) (fun _ => rfl)
      (sessionStart (none : Option (AnnotationData ℚ))) [] (pointerAt 1 1) (pointerAt 1 1)
      (pointerAt 3 3) [] rfl rfl with
    | ⟨shape, _, h1, _, _, h4, _, _, _, _, _⟩ =>
      ⟨shape, h1, (h4 rfl).1, (h4 rfl).2.2.2.1, (h4 rfl).2.2.2.2⟩⟩

/-! ## Stroke colours and line widths in the two renderers -/

section Strokes

variable {R : Type}

theorem strokeCalls_append (xs ys : List (Cmd R)) :
    strokeCalls (xs ++ ys) = strokeCalls xs ++ strokeCalls ys :=
  List.filter_append xs ys

theorem strokeCalls_style (c : String) (w : R) (f : String) (rest : List (Cmd R)) :
    strokeCalls ([Cmd.strokeStyle c, Cmd.lineWidth w, Cmd.fillStyle f] ++ rest) =
      [Cmd.strokeStyle c, Cmd.lineWidth w] ++ strokeCalls rest := rfl

/-- A shape with its own colour and stroke width has a non-empty colour and a
non-zero stroke width. -/
theorem hasOwnStyle_iff [NatCast R] [DecidableEq R] (a : Shape R) (h : hasOwnStyle a = true) :
    ∃ c w, a.color = some c ∧ a.strokeWidth = some w ∧ (c != "") = true ∧
      w ≠ ((0 : Nat) : R) := by
  unfold hasOwnStyle at h
  cases hc : a.color with
  | none => simp [hc] at h
  | some c =>
    cases hw : a.strokeWidth with
    | none => simp [hc, hw] at h
    | some w =>
      simp only [hc, hw, Bool.and_eq_true, decide_eq_true_eq] at h
      exact ⟨c, w, rfl, rfl, h.1, h.2⟩

/-- For a rectangle without fill colour, an arrow or a freehand stroke with its
own colour and stroke width, the two renderers make the same calls up to the
fill colour they assign: the stroke colour, the line width, then the same
geometry. -/
theorem shape_strokes_agree [Add R] [Sub R] [Mul R] [Div R] [NatCast R]
    [OfScientific R] [DecidableEq R] [JSMath R] [JSTrig R]
    (currentColor : String) (strokeWidth : R) (a : Shape R)
    (hkind : (a.type = "rectangle" ∧ a.fillColor = none) ∨ a.type = "arrow" ∨
      a.type = "freehand")
    (hstyle : hasOwnStyle a = true) :
    ∃ c w body, a.color = some c ∧ a.strokeWidth = some w ∧
      drawAnnotationCmds currentColor strokeWidth a =
        [Cmd.strokeStyle c, Cmd.lineWidth w,
          Cmd.fillStyle (orString a.fillColor "transparent")] ++ body ∧
      renderAnnotationCmds a =
        [Cmd.strokeStyle c, Cmd.lineWidth w, Cmd.fillStyle "transparent"] ++ body := by
  obtain ⟨c, w, hc, hw, hc0, hw0⟩ := hasOwnStyle_iff a hstyle
  rcases hkind with ⟨ht, hf⟩ | ht | ht
  · refine ⟨c, w, [Cmd.strokeRect a.x a.y a.width a.height], hc, hw, ?_, ?_⟩
    · rw [drawAnnotationCmds_rectangle _ _ _ ht, hc, hw, orString_own _ _ hc0,
        orNumber_own _ _ hw0]
      simp [hasFill, hf]
    · rw [renderAnnotationCmds_rectangle _ ht, hc, hw, orString_own _ _ hc0,
        orNumber_own _ _ hw0]
  · refine ⟨c, w, drawArrow a.startX a.startY a.endX a.endY, hc, hw, ?_, ?_⟩
    · rw [drawAnnotationCmds_arrow _ _ _ ht, hc, hw, orString_own _ _ hc0,
        orNumber_own _ _ hw0]
    · rw [renderAnnotationCmds_arrow _ ht, hc, hw, orString_own _ _ hc0,
        orNumber_own _ _ hw0]
  · refine ⟨c, w,
      (match a.points with
        | none => []
        | some points =>
          if points.length > 1 then
            [Cmd.beginPath, Cmd.moveTo (points[0]?.map Pos.x) (points[0]?.map Pos.y)] ++
              (points.drop 1).map (fun p => Cmd.lineTo (some p.x) (some p.y)) ++ [Cmd.stroke]
          else []), hc, hw, ?_, ?_⟩
    · rw [drawAnnotationCmds_freehand _ _ _ ht, hc, hw, orString_own _ _ hc0,
        orNumber_own _ _ hw0]
    · rw [renderAnnotationCmds_freehand _ ht, hc, hw, orString_own _ _ hc0,
        orNumber_own _ _ hw0]

/-- C30: for every shape list that holds only rectangles without fill colour,
arrows and freehand strokes, each with a non-empty colour and a non-zero stroke
width, the live preview and the offline renderer emit the same sequence of
stroke primitives with the same coordinates, stroke colours and line widths,
whatever the current colour and stroke width of the session are; the complete
call sequences are equal when no shape has a fill colour. For every arrow both
draw exactly what the arrow helpers of the component and of `imageProcessor.js`
draw: the same shaft and the same two arrowhead end points. -/
theorem stroke_primitives_agree [Add R] [Sub R] [Mul R] [Div R] [NatCast R]
    [OfScientific R] [DecidableEq R] [JSMath R] [JSTrig R]
    (s : State R) (shapes : List (Shape R)) (hs : s.annotations = some shapes)
    (hkind : ∀ a ∈ shapes, (a.type = "rectangle" ∧ a.fillColor = none) ∨ a.type = "arrow" ∨
      a.type = "freehand")
    (hstyle : ∀ a ∈ shapes, hasOwnStyle a = true) :
    strokeCalls (drawAnnotations s) = strokeCalls (shapes.flatMap renderAnnotationCmds) ∧
    ((∀ a ∈ shapes, a.fillColor = none) →
      drawAnnotations s = shapes.flatMap renderAnnotationCmds) ∧
    (∀ a ∈ shapes, ∃ c w, a.color = some c ∧ a.strokeWidth = some w ∧
      (strokeCalls (drawAnnotationCmds s.currentColor s.strokeWidth a)).take 2 =
        [Cmd.strokeStyle c, Cmd.lineWidth w] ∧
      (strokeCalls (renderAnnotationCmds a)).take 2 = [Cmd.strokeStyle c, Cmd.lineWidth w]) ∧
    (∀ a ∈ shapes, a.type = "arrow" →
      geometry (drawAnnotationCmds s.currentColor s.strokeWidth a) =
        drawArrow a.startX a.startY a.endX a.endY ∧
      geometry (renderAnnotationCmds a) =
        ImageProcessor.drawArrow a.startX a.startY a.endX a.endY ∧
      ImageProcessor.drawArrow a.startX a.startY a.endX a.endY =
        drawArrow a.startX a.startY a.endX a.endY) := by
  have hdraw : drawAnnotations s =
      shapes.flatMap (drawAnnotationCmds s.currentColor s.strokeWidth) := by
    unfold drawAnnotations
    rw [hs]
  rw [hdraw]
  refine ⟨?_, ?_, ?_, ?_⟩
  · clear hdraw hs
    induction shapes with
    | nil => rfl
    | cons a l ih =>
      obtain ⟨c, w, body, -, -, e1, e2⟩ := shape_strokes_agree s.currentColor s.strokeWidth a
        (hkind a (List.mem_cons_self a l)) (hstyle a (List.mem_cons_self a l))
      rw [List.flatMap_cons, List.flatMap_cons, strokeCalls_append, strokeCalls_append,
        ih (fun b hb => hkind b (List.mem_cons_of_mem a hb))
          (fun b hb => hstyle b (List.mem_cons_of_mem a hb)),
        e1, e2, strokeCalls_style, strokeCalls_style]
  · intro hfill
    clear hdraw hs
    induction shapes with
    | nil => rfl
    | cons a l ih =>
      obtain ⟨c, w, body, -, -, e1, e2⟩ := shape_strokes_agree s.currentColor s.strokeWidth a
        (hkind a (List.mem_cons_self a l)) (hstyle a (List.mem_cons_self a l))
      rw [List.flatMap_cons, List.flatMap_cons,
        ih (fun b hb => hkind b (List.mem_cons_of_mem a hb))
          (fun b hb => hstyle b (List.mem_cons_of_mem a hb))
          (fun b hb => hfill b (List.mem_cons_of_mem a hb)),
        e1, e2, hfill a (List.mem_cons_self a l)]
      rfl
  · intro a ha
    obtain ⟨c, w, body, hc, hw, e1, e2⟩ := shape_strokes_agree s.currentColor s.strokeWidth a
      (hkind a ha) (hstyle a ha)
    refine ⟨c, w, hc, hw, ?_, ?_⟩
    · rw [e1, strokeCalls_style]
      rfl
    · rw [e2, strokeCalls_style]
      rfl
  · intro a ha ht
    refine ⟨?_, ?_, rfl⟩
    · rw [drawAnnotationCmds_arrow _ _ _ ht, geometry_append, geometry_style, List.nil_append]
      rfl
    · rw [renderAnnotationCmds_arrow _ ht, geometry_append, geometry_style, List.nil_append]
      rfl

end Strokes

/-- Witness for C30: a rectangle, an arrow and a freehand stroke, drawn in a
session whose current colour and stroke width are the initial ones. -/
theorem stroke_primitives_agree_witness :
    (stateWith [rectA, arrowB, freehandF] [] (-1) false).annotations =
      some [rectA, arrowB, freehandF] ∧
    strokeCalls (drawAnnotations (stateWith [rectA, arrowB, freehandF] [] (-1) false)) =
      strokeCalls ([rectA, arrowB, freehandF].flatMap renderAnnotationCmds) ∧
    drawAnnotations (stateWith [rectA, arrowB, freehandF] [] (-1) false) =
      [rectA, arrowB, freehandF].flatMap renderAnnotationCmds :=
  ⟨rfl,
    (stroke_primitives_agree (stateWith [rectA, arrowB, freehandF] [] (-1) false)
      [rectA, arrowB, freehandF] rfl
      (by
        intro a ha
        simp only [List.mem_cons, List.mem_singleton, List.not_mem_nil, or_false] at ha
        rcases ha with rfl | rfl | rfl
        · exact Or.inl ⟨rfl, rfl⟩
        · exact Or.inr (Or.inl rfl)
        · exact Or.inr (Or.inr rfl))
      (by
        intro a ha
        simp only [List.mem_cons, List.mem_singleton, List.not_mem_nil, or_false] at ha
        rcases ha with rfl | rfl | rfl <;> decide)).1,
    (stroke_primitives_agree (stateWith [rectA, arrowB, freehandF] [] (-1) false)
      [rectA, arrowB, freehandF] rfl
      (by
        intro a ha
        simp only [List.mem_cons, List.mem_singleton, List.not_mem_nil, or_false] at ha
        rcases ha with rfl | rfl | rfl
        · exact Or.inl ⟨rfl, rfl⟩
        · exact Or.inr (Or.inl rfl)
        · exact Or.inr (Or.inr rfl))
      (by
        intro a ha
        simp only [List.mem_cons, List.mem_singleton, List.not_mem_nil, or_false] at ha
        rcases ha with rfl | rfl | rfl <;> decide)).2.1
      (by
        intro a ha
        simp only [List.mem_cons, List.mem_singleton, List.not_mem_nil, or_false] at ha
        rcases ha with rfl | rfl | rfl <;> rfl)⟩

/-! ## The report survives a missing image -/

section Report

variable {R : Type}

theorem tryOps_noError (k : PdfEnv R) (ops : List (DocOp R)) :
    ∀ op ∈ tryOps k ops, k.opError op = none := by
  intro op hop
  have h := List.mem_takeWhile_imp hop
  exact Option.isNone_iff_eq_none.mp h

theorem tryOps_of_noError (k : PdfEnv R) (ops : List (DocOp R))
    (h : ∀ op ∈ ops, k.opError op = none) : tryOps k ops = ops := by
  unfold tryOps
  rw [List.takeWhile_eq_self_iff]
  intro op hop
  rw [h op hop]
  rfl

theorem tryOps_of_head_error (k : PdfEnv R) (op : DocOp R) (ops : List (DocOp R)) (e : String)
    (h : k.opError op = some e) : tryOps k (op :: ops) = [] := by
  unfold tryOps
  rw [List.takeWhile_cons, h]
  rfl

theorem drawnTexts_append (xs ys : List (DocOp R)) :
    drawnTexts (xs ++ ys) = drawnTexts xs ++ drawnTexts ys :=
  List.filterMap_append xs ys _

theorem originalImageSlot_eq_none {J : Type} [Add R] [Sub R] [Mul R] [Div R] [NatCast R]
    (k : PdfEnv R) (s3 : Bool) (sub : Submission J) :
    originalImageSlot k s3 sub = none ↔
      sub.originalImageUrl ≠ "" ∧ loadSlotImage k s3 1 sub.originalImageUrl = .pending := by
  unfold originalImageSlot
  by_cases hu : sub.originalImageUrl = ""
  · simp [hu]
  · rw [if_neg hu]
    cases hl : loadSlotImage k s3 1 sub.originalImageUrl with
    | pending => simp [hu]
    | rejected err => simp
    | resolved b => cases b <;> simp

theorem annotatedImageSlot_eq_none [Add R] [Sub R] [Mul R] [Div R] [NatCast R]
    [DecidableEq R] [JSMath R] [JSTrig R] (k : PdfEnv R) (s3 : Bool)
    (sub : Submission (AnnotationData R)) :
    annotatedImageSlot k s3 sub = none ↔
      sub.originalImageUrl ≠ "" ∧ loadSlotImage k s3 2 sub.originalImageUrl = .pending := by
  unfold annotatedImageSlot
  by_cases hu : sub.originalImageUrl = ""
  · simp [hu]
  · rw [if_neg hu]
    cases hl : loadSlotImage k s3 2 sub.originalImageUrl with
    | pending => simp [hu]
    | rejected err => simp
    | resolved b =>
      cases b with
      | none => simp
      | some buf =>
        dsimp only
        split <;> simp

theorem originalImageSlot_noError {J : Type} [Add R] [Sub R] [Mul R] [Div R] [NatCast R]
    (k : PdfEnv R) (s3 : Bool) (sub : Submission J) (slot : List (DocOp R))
    (h : originalImageSlot k s3 sub = some slot) : ∀ op ∈ slot, k.opError op = none := by
  unfold originalImageSlot at h
  split at h
  · cases h
    simp
  · split at h
    · cases h
    · cases h
      simp
    · cases h
      simp
    · cases h
      exact tryOps_noError k _

theorem annotatedImageSlot_noError [Add R] [Sub R] [Mul R] [Div R] [NatCast R]
    [DecidableEq R] [JSMath R] [JSTrig R] (k : PdfEnv R) (s3 : Bool)
    (sub : Submission (AnnotationData R)) (slot : List (DocOp R))
    (h : annotatedImageSlot k s3 sub = some slot) : ∀ op ∈ slot, k.opError op = none := by
  unfold annotatedImageSlot at h
  split at h
  · cases h
    simp
  · split at h
    · cases h
    · cases h
      simp
    · cases h
      simp
    · dsimp only at h
      split at h
      · cases h
        simp
      · cases h
        exact tryOps_noError k _

theorem pdfLayout_resolved [Add R] [Sub R] [Mul R] [Div R] [NatCast R]
    [DecidableEq R] [JSMath R] [JSTrig R] (k : PdfEnv R) (s3 : Bool)
    (sub : Submission (AnnotationData R)) (slot1 slot2 : List (DocOp R))
    (hhead : ∀ op ∈ headerOps k sub, k.opError op = none)
    (hrest : ∀ op ∈ restOps k sub, k.opError op = none)
    (h1 : originalImageSlot k s3 sub = some slot1)
    (h2 : annotatedImageSlot k s3 sub = some slot2) :
    pdfLayout k s3 sub = .resolved (headerOps k sub ++ (slot1 ++ slot2) ++ restOps k sub) := by
  unfold pdfLayout
  rw [List.findSome?_eq_none_iff.mpr hhead, List.findSome?_eq_none_iff.mpr hrest, h1, h2]

theorem pdfLayout_pending [Add R] [Sub R] [Mul R] [Div R] [NatCast R]
    [DecidableEq R] [JSMath R] [JSTrig R] (k : PdfEnv R) (s3 : Bool)
    (sub : Submission (AnnotationData R))
    (hhead : ∀ op ∈ headerOps k sub, k.opError op = none)
    (h : originalImageSlot k s3 sub = none ∨ annotatedImageSlot k s3 sub = none) :
    pdfLayout k s3 sub = .pending := by
  unfold pdfLayout
  rw [List.findSome?_eq_none_iff.mpr hhead]
  cases h1 : originalImageSlot k s3 sub with
  | none => rfl
  | some slot1 =>
    rcases h with h | h
    · rw [h1] at h
      cases h
    · dsimp only
      rw [h]

/-- C24 (amended): when the calls that lay out the rest of the report do not throw,
a failure in an image slot never makes `generatePDF` reject. A slot whose
download, local read or transcoding fails draws nothing, and so does a slot whose
`doc.image` throws. When both slots finish, the layout consists of the header,
what the two slots drew, then the legend (six colour squares with their texts),
the treatment heading and its six rows, the notes when there are any, the footer
and `doc.end()`, and `generatePDF` rejects only when storing the finished
document fails. A slot does not finish exactly when its download stays pending
for ever; `generatePDF` then stays pending too: it does not reject, and it does
not finish the document. -/
theorem generatePDF_survives_image_failures [Add R] [Sub R] [Mul R] [Div R] [NatCast R]
    [DecidableEq R] [JSMath R] [JSTrig R] (env : Env (AnnotationData R)) (k : PdfEnv R)
    (sub : Submission (AnnotationData R))
    (hhead : ∀ op ∈ headerOps k sub, k.opError op = none)
    (hrest : ∀ op ∈ restOps k sub, k.opError op = none) :
    (∀ err, loadSlotImage k env.isS3Configured 1 sub.originalImageUrl = .rejected err →
      originalImageSlot k env.isS3Configured sub = some []) ∧
    (∀ err, loadSlotImage k env.isS3Configured 2 sub.originalImageUrl = .rejected err →
      annotatedImageSlot k env.isS3Configured sub = some []) ∧
    (∀ buffer err,
      loadSlotImage k env.isS3Configured 1 sub.originalImageUrl = .resolved (some buffer) →
      k.opError (DocOp.image buffer (imageStartX k) imagesY imageWidth imageHeight) = some err →
      originalImageSlot k env.isS3Configured sub = some []) ∧
    (∀ buffer,
      sub.originalImageUrl ≠ "" →
      loadSlotImage k env.isS3Configured 1 sub.originalImageUrl = .resolved (some buffer) →
      (∀ op ∈ originalImageOps k buffer, k.opError op = none) →
      originalImageSlot k env.isS3Configured sub = some (originalImageOps k buffer) ∧
      drawnImages (originalImageOps k buffer) = [buffer] ∧
      drawnTexts (originalImageOps k buffer) = ["Upper Teeth"]) ∧
    (∀ slot1 slot2,
      originalImageSlot k env.isS3Configured sub = some slot1 →
      annotatedImageSlot k env.isS3Configured sub = some slot2 →
      pdfLayout k env.isS3Configured sub =
        .resolved (headerOps k sub ++ (slot1 ++ slot2) ++
          (legendOps k ++ treatmentOps k ++ notesOps k sub ++ footerOps k sub ++
            [DocOp.endDocument])) ∧
      (∀ op ∈ slot1 ++ slot2, k.opError op = none) ∧
      PdfGenerator.generatePDF env k sub ≠ .pending ∧
      ((∃ err, PdfGenerator.generatePDF env k sub = .rejected err) ↔
        ∃ err,
          (env.isS3Configured = true ∧
            env.uploadBufferToS3
              (k.render (headerOps k sub ++ (slot1 ++ slot2) ++ restOps k sub))
              ("reports/" ++ ("oral-health-report-" ++ sub.patientIdNumber ++ "-" ++
                toString env.now ++ ".pdf")) "application/pdf" = .error err) ∨
          (env.isS3Configured = false ∧
            env.writeFileSync
              (pathJoin env.pdfsDir ("oral-health-report-" ++ sub.patientIdNumber ++ "-" ++
                toString env.now ++ ".pdf"))
              (k.render (headerOps k sub ++ (slot1 ++ slot2) ++ restOps k sub)) =
              .error err))) ∧
    drawnTexts (headerOps k sub) =
      ["Oral Health Screening", "Report", "Name: " ++ sub.patientName,
        "Mail: " ++ sub.email, "Date: " ++ k.toLocaleDateString sub.createdAt,
        "SCREENING REPORT:"] ∧
    drawnTexts (legendOps k) =
      ["Inflammed / Red gums", "Misaligned", "Receded gums", "Stains", "Attrition",
        "Crowns"] ∧
    fillColours (legendOps k) =
      ["#8B4513", "#FFD700", "#8B4513", "#FF0000", "#00FFFF", "#FF1493"] ∧
    drawnTexts (treatmentOps k) =
      ["TREATMENT RECOMMENDATIONS:",
        "Inflammed or Red gums", ":", "Scaling.",
        "Misaligned", ":", "Braces or Clear Aligner.",
        "Receded gums", ":", "Gum Surgery.",
        "Stains", ":", "Teeth cleaning and polishing.",
        "Attrition", ":", "Filling/ Night Guard.",
        "Crowns", ":",
        "If the crown is loose or broken, better get it checked. Teeth coloured caps are the best ones."] ∧
    fillColours (treatmentOps k) =
      ["#8B4513", "#FFD700", "#8B4513", "#FF0000", "#00FFFF", "#FF1493"] ∧
    drawnTexts (notesOps k sub) =
      (match sub.adminNotes with
        | some adminNotes => if adminNotes = "" then [] else ["Additional Notes:", adminNotes]
        | none => []) ∧
    drawnTexts (footerOps k sub) =
      ["Report generated on: " ++ k.generatedOnText, "Submission ID: " ++ sub._id] ∧
    ((originalImageSlot k env.isS3Configured sub = none ∨
        annotatedImageSlot k env.isS3Configured sub = none) →
      PdfGenerator.generatePDF env k sub = .pending) ∧
    (originalImageSlot k env.isS3Configured sub = none ↔
      sub.originalImageUrl ≠ "" ∧
        loadSlotImage k env.isS3Configured 1 sub.originalImageUrl = .pending) ∧
    (annotatedImageSlot k env.isS3Configured sub = none ↔
      sub.originalImageUrl ≠ "" ∧
        loadSlotImage k env.isS3Configured 2 sub.originalImageUrl = .pending) := by
  refine ⟨?_, ?_, ?_, ?_, ?_, rfl, rfl, rfl, rfl, rfl, ?_, rfl, ?_,
    originalImageSlot_eq_none k _ sub, annotatedImageSlot_eq_none k _ sub⟩
  · intro err h
    unfold originalImageSlot
    rw [h]
    simp
  · intro err h
    unfold annotatedImageSlot
    rw [h]
    simp
  · intro buffer err h herr
    unfold originalImageSlot
    rw [h]
    have ht : tryOps k (originalImageOps k buffer) = [] := by
      unfold originalImageOps
      exact tryOps_of_head_error k _ _ err herr
    simp [ht]
  · intro buffer hu h hops
    refine ⟨?_, rfl, rfl⟩
    unfold originalImageSlot
    rw [if_neg hu, h]
    dsimp only
    rw [tryOps_of_noError k _ hops]
  · intro slot1 slot2 h1 h2
    have hl := pdfLayout_resolved k env.isS3Configured sub slot1 slot2 hhead hrest h1 h2
    have hgen : PdfGenerator.generatePDF env k sub =
        (match generatePDF
            { env with
              layout := fun _ =>
                .ok (k.render (headerOps k sub ++ (slot1 ++ slot2) ++ restOps k sub)) } sub with
          | Except.error err => Promise.rejected err
          | Except.ok info => Promise.resolved info) := by
      unfold PdfGenerator.generatePDF
      rw [hl]
    refine ⟨hl, ?_, ?_, ?_⟩
    · intro op hop
      rcases List.mem_append.mp hop with h | h
      · exact originalImageSlot_noError k _ sub slot1 h1 op h
      · exact annotatedImageSlot_noError k _ sub slot2 h2 op h
    · rw [hgen]
      split <;> simp
    · rw [hgen]
      have hiff := generatePDF_error_iff
        { env with
          layout := fun _ =>
            .ok (k.render (headerOps k sub ++ (slot1 ++ slot2) ++ restOps k sub)) } sub
      constructor
      · rintro ⟨err, h⟩
        have hex : ∃ e, generatePDF
            { env with
              layout := fun _ =>
                .ok (k.render (headerOps k sub ++ (slot1 ++ slot2) ++ restOps k sub)) } sub =
            .error e := by
          split at h
          · rename_i e he
            exact ⟨e, he⟩
          · cases h
        rcases hiff.mp hex with ⟨e, he⟩ | ⟨bytes, e, hb, he⟩
        · cases he
        · injection hb with hb
          subst hb
          exact ⟨e, he⟩
      · rintro ⟨err, h⟩
        obtain ⟨e, he⟩ := hiff.mpr (Or.inr ⟨_, err, rfl, h⟩)
        exact ⟨e, by rw [he]⟩
  · cases hn : sub.adminNotes with
    | none =>
      unfold notesOps
      rw [hn]
      rfl
    | some adminNotes =>
      unfold notesOps
      rw [hn]
      dsimp only
      split <;> rfl
  · intro h
    unfold PdfGenerator.generatePDF
    rw [pdfLayout_pending k _ sub hhead h]

end Report

/-- Witness for C24 (amended): on a page where the download of the first slot
answers 404 and the body downloaded for the second slot cannot be transcoded,
both slots draw nothing and `generatePDF` resolves with the locators of the
stored document; with a server that never answers it stays pending. -/
theorem generatePDF_survives_image_failures_witness :
    originalImageSlot failingImagesKit reportEnv.isS3Configured remoteSubmission = some [] ∧
    annotatedImageSlot failingImagesKit reportEnv.isS3Configured remoteSubmission = some [] ∧
    PdfGenerator.generatePDF reportEnv failingImagesKit remoteSubmission =
      .resolved { path := "/srv/uploads/pdfs/oral-health-report-P-001-1700000000000.pdf"
                  url := "/uploads/pdfs/oral-health-report-P-001-1700000000000.pdf"
                  key := none } ∧
    PdfGenerator.generatePDF reportEnv failingImagesKit remoteSubmission ≠ .pending ∧
    PdfGenerator.generatePDF reportEnv silentServerKit remoteSubmission = .pending :=
  ⟨(generatePDF_survives_image_failures reportEnv failingImagesKit remoteSubmission
      (fun _ _ => rfl) (fun _ _ => rfl)).1
      "Failed to download image: 404" rfl,
    (generatePDF_survives_image_failures reportEnv failingImagesKit remoteSubmission
      (fun _ _ => rfl) (fun _ _ => rfl)).2.1
      "Input buffer contains unsupported image format" rfl,
    rfl,
    ((generatePDF_survives_image_failures reportEnv failingImagesKit remoteSubmission
      (fun _ _ => rfl) (fun _ _ => rfl)).2.2.2.2.1 [] [] rfl rfl).2.2.1,
    (generatePDF_survives_image_failures reportEnv silentServerKit remoteSubmission
      (fun _ _ => rfl) (fun _ _ => rfl)).2.2.2.2.2.2.2.2.2.2.2.2.1 (Or.inl rfl)⟩

/-- Counterexample to C24 as stated: the download of the original image fails in
the first slot (the request emits `error`), so that slot is skipped; the request
of the second slot is never answered, and `downloadAndConvertImage` sets no
timeout. The layout then waits in the second slot for ever: `generatePDF` does
not reject, but it lays out neither legend, treatment rows, notes nor footer and
never finishes the document. -/
theorem generatePDF_waits_for_unanswered_download :
    downloadAndConvertImage brokenThenSilentKit 1 remoteSubmission.originalImageUrl =
      .rejected "ECONNRESET" ∧
    originalImageSlot brokenThenSilentKit reportEnv.isS3Configured remoteSubmission =
      some [] ∧
    downloadAndConvertImage brokenThenSilentKit 2 remoteSubmission.originalImageUrl =
      .pending ∧
    annotatedImageSlot brokenThenSilentKit reportEnv.isS3Configured remoteSubmission = none ∧
    pdfLayout brokenThenSilentKit reportEnv.isS3Configured remoteSubmission = .pending ∧
    PdfGenerator.generatePDF reportEnv brokenThenSilentKit remoteSubmission = .pending ∧
    (∀ info, PdfGenerator.generatePDF reportEnv brokenThenSilentKit remoteSubmission ≠
      .resolved info) :=
  ⟨rfl, rfl, rfl, rfl, rfl, rfl, fun _ h => by cases h⟩

end OralVis
